import Mathlib

/-!
# Maya_Renderer: the scene synchronisation protocol

A shallow embedding of the wire layout written by the Maya plugin
(`Maya Plugin/mayaRun.cpp`), of the shared declarations
(`Shared Memory/MessageStructure.h`) and of the message loop and render loop
of the renderer (`Renderer/main.cpp`).

Conventions of the embedding.

* A byte is a `Fin 256`.  A `float` is its four bytes of object
  representation: the programs only ever `memcpy` floats, so "bit for bit"
  equality is equality of these four bytes.
* An `int` is decoded from four bytes, little endian, two's complement.
* The message buffer `msg` (`new char[MSGSIZE]`) is a function from offsets to
  bytes; a `memcpy` that leaves the `MSGSIZE` bytes of the buffer has no
  defined behaviour and is modelled as a fault (`none`).
* `std::vector` accesses outside the vector (`operator[]`, `erase`, an
  uncaught `at`) are faults (`none`) as well.
* Struct sizes and field offsets are those of the 64-bit ABI the plugin is
  built for: `sizeof(sHeader) = 48`, `sizeof(sMeshHeader) = 48`,
  `sizeof(sCamera) = 44`, `sizeof(sTransform) = 64`, `sizeof(sMaterial) = 24`.
-/

namespace MayaRenderer

/-! ## Bytes, floats, ints -/

abbrev Byte := Fin 256

/-- A `float`, as the four bytes of its object representation. -/
structure F32 where
  b0 : Byte
  b1 : Byte
  b2 : Byte
  b3 : Byte
deriving DecidableEq, Repr

/-- The four bytes of a float, in memory order. -/
def F32.bytes (f : F32) : List Byte := [f.b0, f.b1, f.b2, f.b3]

/-- The bytes of a `float` array, element after element. -/
def encodeFloats (fs : List F32) : List Byte := fs.flatMap F32.bytes

/-- A byte range read back as a `float` array (four bytes per element). -/
def decodeFloats : List Byte → List F32
  | a :: b :: c :: d :: rest => ⟨a, b, c, d⟩ :: decodeFloats rest
  | _ => []

/-- The four bytes of an `int` (little endian, two's complement). -/
def encodeInt (v : Int) : List Byte :=
  let u : Nat := (v % 4294967296).toNat
  [⟨u % 256, Nat.mod_lt _ (by decide)⟩,
   ⟨u / 256 % 256, Nat.mod_lt _ (by decide)⟩,
   ⟨u / 65536 % 256, Nat.mod_lt _ (by decide)⟩,
   ⟨u / 16777216 % 256, Nat.mod_lt _ (by decide)⟩]

/-- The `int` held in (the first) four bytes. -/
def decodeInt (bs : List Byte) : Int :=
  let u : Nat := (bs.getD 0 0).val + 256 * (bs.getD 1 0).val
    + 65536 * (bs.getD 2 0).val + 16777216 * (bs.getD 3 0).val
  if u < 2147483648 then (u : Int) else (u : Int) - 4294967296

/-- The C string held in a `char` array: the bytes before the first NUL.
`none` when the array holds no NUL, so that reading the string would run past
the end of the array. -/
def cstr : List Byte → Option (List Byte)
  | [] => none
  | b :: bs => if b = 0 then some [] else (cstr bs).map (fun r => b :: r)

/-- A C string laid out in a `char[37]` array whose unused tail is zero: what
`char materialID[37]{}` followed by `memcpy(materialID, uuid, 37)` leaves, and
what copying the 37 bytes of a 36 character UUID string gives. -/
def char37 (s : List Byte) : List Byte := (s ++ List.replicate 37 0).take 37

/-- Exactly `k` bytes of padding, taken from `pad` (indeterminate content). -/
def padding (k : Nat) (pad : List Byte) : List Byte := (pad ++ List.replicate k 0).take k

/-! ## MessageStructure.h -/

/-- `#define MSGSIZE 5<<20`. -/
def MSGSIZE : Nat := 5 <<< 20

/-- `enum ACTIVITY { ADD, UPDATE, REMOVE }`. -/
def ADD : Int := 0
def UPDATE : Int := 1
def REMOVE : Int := 2

/-- `enum NODETYPE { MESH, MATERIAL, CAMERA, TRANSFORM, LIGHT }`. -/
def MESH : Int := 0
def MATERIAL : Int := 1
def CAMERA : Int := 2
def TRANSFORM : Int := 3
def LIGHT : Int := 4

def sizeof_float : Nat := 4
def sizeof_sHeader : Nat := 48
def sizeof_sMeshHeader : Nat := 48
def sizeof_sCamera : Nat := 44
def sizeof_sTransform : Nat := 64
def sizeof_sMaterial : Nat := 24

/-- `struct sHeader`; `nodeID` is the raw `char[37]`. -/
structure sHeader where
  activity : Int
  type : Int
  nodeID : List Byte
deriving DecidableEq, Repr

/-- `struct sMeshHeader`; `connectedMatID` is the raw `char[37]`. -/
structure sMeshHeader where
  vertexCount : Int
  triangleCount : Int
  connectedMatID : List Byte
deriving DecidableEq, Repr

/-- `struct sMeshData`: the three arrays behind the pointers. -/
structure sMeshData where
  posXYZ : List F32
  UV : List F32
  norXYZ : List F32
deriving DecidableEq, Repr

/-- `struct sTransform`, fields in declaration (memory) order. -/
structure sTransform where
  m0 : F32
  m4 : F32
  m8 : F32
  m12 : F32
  m1 : F32
  m5 : F32
  m9 : F32
  m13 : F32
  m2 : F32
  m6 : F32
  m10 : F32
  m14 : F32
  m3 : F32
  m7 : F32
  m11 : F32
  m15 : F32
deriving DecidableEq, Repr

/-- `struct sCamera`. -/
structure sCamera where
  position : List F32
  target : List F32
  up : List F32
  fovy : F32
  projection : Byte
deriving DecidableEq, Repr

/-- `struct sMaterial`; `texturePath` is the array behind the pointer. -/
structure sMaterial where
  color : List F32
  pathSize : Int
  texturePath : List Byte
deriving DecidableEq, Repr

/-- The object representation of an `sHeader` (48 bytes, the last 3 padding). -/
def sHeader.bytes (h : sHeader) (pad : List Byte) : List Byte :=
  encodeInt h.activity ++ encodeInt h.type ++ (h.nodeID ++ List.replicate 37 0).take 37
    ++ padding 3 pad

/-- The object representation of an `sMeshHeader` (48 bytes, the last 3 padding). -/
def sMeshHeader.bytes (h : sMeshHeader) (pad : List Byte) : List Byte :=
  encodeInt h.vertexCount ++ encodeInt h.triangleCount
    ++ (h.connectedMatID ++ List.replicate 37 0).take 37 ++ padding 3 pad

/-! ## The message buffer `msg` -/

/-- The content of a `char[MSGSIZE]` buffer. -/
abbrev Buf := Nat → Byte

/-- The bytes `memcpy(dst, (char*)msg + off, n)` copies out of the buffer; a
fault when the range leaves the buffer. -/
def readBytes (msg : Buf) (off n : Nat) : Option (List Byte) :=
  if off + n ≤ MSGSIZE then some ((List.range n).map (fun k => msg (off + k))) else none

/-- The buffer after `memcpy((char*)msg + off, src, src.length)`; a fault when
the range leaves the buffer. -/
def memcpyTo (msg : Buf) (off : Nat) (src : List Byte) : Option Buf :=
  if off + src.length ≤ MSGSIZE then
    some (fun i => if off ≤ i ∧ i < off + src.length then src.getD (i - off) 0 else msg i)
  else none

/-- Modelled from the spec: the shared-memory transport `ComLib`
(`ComLib.h` is not among the sources).  `comlib.send(msg, msgSize)` followed by
`comlib.recv(msg, msgSize)` carries the first `msgSize` bytes of the sender's
buffer into the receiver's buffer; the receiver's bytes beyond `msgSize` keep
their earlier content. -/
def comlibTransfer (sent : Buf) (msgSize : Nat) (old : Buf) : Buf :=
  fun i => if i < msgSize then sent i else old i

/-! ## The producer: the message written by `meshAdd` (mayaRun.cpp) -/

/-- The part of `meshAdd` after the data has been fetched from Maya
("Message data" and "Message send"): the header and the mesh header are filled
in and the five regions are copied into `msg` at increasing offsets.  `uuid` is
the mesh's UUID string, `materialID` the local `char materialID[37]`, `pad1`
and `pad2` the indeterminate padding of the two local structs.  The result is
the buffer and `msgSize` handed to `comlib.send`. -/
def meshAdd (msg : Buf) (uuid : List Byte) (numPoints numTriangles : Int)
    (materialID : List Byte) (posArr uvArr norArr : List F32) (pad1 pad2 : List Byte) :
    Option (Buf × Nat) := do
  let mainHeader : sHeader := ⟨ADD, MESH, char37 uuid⟩
  let meshHeader : sMeshHeader := ⟨numPoints, numTriangles, materialID⟩
  let meshData : sMeshData := ⟨posArr, uvArr, norArr⟩
  let msgSize := sizeof_sHeader + sizeof_sMeshHeader + sizeof_float * posArr.length
    + sizeof_float * uvArr.length + sizeof_float * norArr.length
  let offset := 0
  let msg ← memcpyTo msg 0 (mainHeader.bytes pad1)
  let offset := offset + sizeof_sHeader
  let msg ← memcpyTo msg offset (meshHeader.bytes pad2)
  let offset := offset + sizeof_sMeshHeader
  let msg ← memcpyTo msg offset (encodeFloats meshData.posXYZ)
  let offset := offset + sizeof_float * posArr.length
  let msg ← memcpyTo msg offset (encodeFloats meshData.UV)
  let offset := offset + sizeof_float * uvArr.length
  let msg ← memcpyTo msg offset (encodeFloats meshData.norXYZ)
  some (msg, msgSize)

/-! ## The consumer: decoding (main.cpp) -/

/-- The statement `memcpy(&msgHead, (char*)msg, sizeof(sHeader))`. -/
def readHeader (msg : Buf) : Option sHeader := do
  let bs ← readBytes msg 0 sizeof_sHeader
  some ⟨decodeInt bs, decodeInt (bs.drop 4), (bs.drop 8).take 37⟩

/-- The decoding shared by the mesh ADD and mesh UPDATE branches (the same
statements in both): the mesh header is copied from behind the header, then the
three arrays are copied from the offsets the declared `vertexCount` implies.
A negative `vertexCount` turns into a huge `size_t` length: a fault. -/
def readMesh (msg : Buf) : Option (sMeshHeader × sMeshData) := do
  let offset := sizeof_sHeader
  let hb ← readBytes msg offset sizeof_sMeshHeader
  let meshHeader : sMeshHeader := ⟨decodeInt hb, decodeInt (hb.drop 4), (hb.drop 8).take 37⟩
  let offset := offset + sizeof_sMeshHeader
  if meshHeader.vertexCount < 0 then none else
  let vertexCount := meshHeader.vertexCount.toNat
  let posXYZ ← readBytes msg offset (sizeof_float * vertexCount * 3)
  let offset := offset + sizeof_float * vertexCount * 3
  let UV ← readBytes msg offset (sizeof_float * vertexCount * 2)
  let offset := offset + sizeof_float * vertexCount * 2
  let norXYZ ← readBytes msg offset (sizeof_float * vertexCount * 3)
  some (meshHeader, ⟨decodeFloats posXYZ, decodeFloats UV, decodeFloats norXYZ⟩)

/-- The statement `memcpy(&transform, (char*)msg + offset, sizeof(sTransform))`. -/
def readTransform (msg : Buf) : Option sTransform := do
  let bs ← readBytes msg sizeof_sHeader sizeof_sTransform
  let f := decodeFloats bs
  let z : F32 := ⟨0, 0, 0, 0⟩
  some ⟨f.getD 0 z, f.getD 1 z, f.getD 2 z, f.getD 3 z, f.getD 4 z, f.getD 5 z, f.getD 6 z,
    f.getD 7 z, f.getD 8 z, f.getD 9 z, f.getD 10 z, f.getD 11 z, f.getD 12 z, f.getD 13 z,
    f.getD 14 z, f.getD 15 z⟩

/-- The statement `memcpy(&msgCam, (char*)msg + sizeof(sHeader), sizeof(sCamera))`. -/
def readCamera (msg : Buf) : Option sCamera := do
  let bs ← readBytes msg sizeof_sHeader sizeof_sCamera
  let f := decodeFloats (bs.take 40)
  some ⟨f.take 3, (f.drop 3).take 3, (f.drop 6).take 3, f.getD 9 ⟨0, 0, 0, 0⟩, bs.getD 40 0⟩

/-- The decoding at the head of the material ADD and UPDATE branches: the fixed
part, then `new char[pathSize]` (a negative size throws) and the copy of
`pathSize` path bytes. -/
def readMaterial (msg : Buf) : Option sMaterial := do
  let offset := sizeof_sHeader
  let bs ← readBytes msg offset sizeof_sMaterial
  let color := decodeFloats (bs.take 12)
  let pathSize := decodeInt (bs.drop 12)
  let offset := offset + sizeof_sMaterial
  if pathSize < 0 then none else
  let texturePath ← readBytes msg offset pathSize.toNat
  some ⟨color, pathSize, texturePath⟩

/-! ## raylib values held by the consumer -/

/-- The raylib `Vector3`. -/
structure Vector3 where
  x : F32
  y : F32
  z : F32
deriving DecidableEq, Repr

/-- The raylib `Camera3D`. -/
structure Camera3D where
  position : Vector3
  target : Vector3
  up : Vector3
  fovy : F32
  projection : Int
deriving DecidableEq, Repr

/-- The raylib `Matrix`, fields in declaration order. -/
structure Matrix where
  m0 : F32
  m4 : F32
  m8 : F32
  m12 : F32
  m1 : F32
  m5 : F32
  m9 : F32
  m13 : F32
  m2 : F32
  m6 : F32
  m10 : F32
  m14 : F32
  m3 : F32
  m7 : F32
  m11 : F32
  m15 : F32
deriving DecidableEq, Repr

/-- The fields of the raylib `Mesh` the consumer sets. -/
structure Mesh where
  vertexCount : Int
  triangleCount : Int
  vertices : List F32
  texcoords : List F32
  normals : List F32
deriving DecidableEq, Repr

/-- One channel of a colour: either the `unsigned char` a float is converted
to by `color.r = smaterial.color[k] * 255` (kept symbolic: the float), or a
literal value. -/
inductive ColorChan where
  | times255 (f : F32)
  | lit (v : Nat)
deriving DecidableEq, Repr

/-- The red, green and blue channels of a raylib `Color`. -/
structure Color where
  r : ColorChan
  g : ColorChan
  b : ColorChan
deriving DecidableEq, Repr

/-- A raylib `Texture2D`: the default one, or the one `LoadTexture` returns
for a path. -/
inductive Texture where
  | dflt
  | file (path : List Byte)
deriving DecidableEq, Repr

/-- The diffuse map and shader of a raylib `Material`; `shader` tells whether
the consumer's lighting shader has been assigned. -/
structure Material where
  shader : Bool
  color : Color
  texture : Texture
deriving DecidableEq, Repr

/-- The raylib `Model` with its one mesh and one material (`materials[0]`). -/
structure Model where
  transform : Matrix
  mesh : Mesh
  material : Material
deriving DecidableEq, Repr

def f32_zero : F32 := ⟨0, 0, 0, 0⟩

/-- The float `1.0f` (0x3F800000). -/
def f32_one : F32 := ⟨0, 0, 128, 63⟩

/-- The float `10.0f` (0x41200000). -/
def f32_ten : F32 := ⟨0, 0, 32, 65⟩

/-- The float `45.0f` (0x42340000). -/
def f32_45 : F32 := ⟨0, 0, 52, 66⟩

/-- The raylib `MatrixIdentity()`. -/
def MatrixIdentity : Matrix :=
  ⟨f32_one, f32_zero, f32_zero, f32_zero, f32_zero, f32_one, f32_zero, f32_zero,
   f32_zero, f32_zero, f32_one, f32_zero, f32_zero, f32_zero, f32_zero, f32_one⟩

/-- The raylib `LoadMaterialDefault()`: default shader, white diffuse colour,
default texture. -/
def LoadMaterialDefault : Material :=
  ⟨false, ⟨.lit 255, .lit 255, .lit 255⟩, .dflt⟩

/-- The raylib `LoadModelFromMesh(mesh)`: identity transform, the mesh, the
default material. -/
def LoadModelFromMesh (mesh : Mesh) : Model := ⟨MatrixIdentity, mesh, LoadMaterialDefault⟩

/-! ## The consumer: state and loops (main.cpp) -/

/-- The variables of `main` the message loop reads and writes. -/
structure State where
  camera : Camera3D
  modelID : List (List Byte)
  transformID : List (List Byte)
  materialID : List (List Byte)
  modelArr : List Model
  transformArr : List Matrix
  materialArr : List Material
  materialIndexArr : List Int
deriving DecidableEq, Repr

/-- The state `main` sets up before its loop: the initial camera, empty stores. -/
def initState : State :=
  { camera := ⟨⟨f32_ten, f32_ten, f32_ten⟩, ⟨f32_zero, f32_zero, f32_zero⟩,
      ⟨f32_zero, f32_one, f32_zero⟩, f32_45, 0⟩
    modelID := [], transformID := [], materialID := []
    modelArr := [], transformArr := [], materialArr := [], materialIndexArr := [] }

/-- Element access `v[i]` or `v.at(i)`; outside the vector a fault. -/
def vecAt {α : Type} (v : List α) (i : Nat) : Option α := v[i]?

/-- Assignment `v[i] = x` or `v.at(i) = x`; outside the vector a fault. -/
def vecSet {α : Type} (v : List α) (i : Nat) (x : α) : Option (List α) :=
  if i < v.length then some (v.set i x) else none

/-- The call `v.erase(v.begin() + i)`; outside the vector a fault. -/
def vecErase {α : Type} (v : List α) (i : Nat) : Option (List α) :=
  if i < v.length then some (v.eraseIdx i) else none

/-- The loop `for (int i = ...; i < size; i++) body`, where `size` is read
from the current state before every iteration.  The first argument bounds the
number of iterations; running out of it with the condition still true is
reported as `none`, so a `some` result is the state at the loop's exit. -/
def forLoop {σ : Type} (size : σ → Nat) (body : Nat → σ → Option σ) : Nat → Nat → σ → Option σ
  | 0, i, s => if i < size s then none else some s
  | fuel + 1, i, s =>
    if i < size s then (body i s).bind (fun t => forLoop size body fuel (i + 1) t) else some s

/-- The assignments `camera.position.x = msgCam.position[0]; ...` of the
CAMERA branch (taken whatever the activity). -/
def recvCamera (s : State) (msg : Buf) : Option State := do
  let msgCam ← readCamera msg
  let z : F32 := ⟨0, 0, 0, 0⟩
  some { s with camera :=
    { position := ⟨msgCam.position.getD 0 z, msgCam.position.getD 1 z, msgCam.position.getD 2 z⟩
      target := ⟨msgCam.target.getD 0 z, msgCam.target.getD 1 z, msgCam.target.getD 2 z⟩
      up := ⟨msgCam.up.getD 0 z, msgCam.up.getD 1 z, msgCam.up.getD 2 z⟩
      fovy := msgCam.fovy
      projection := (msgCam.projection.val : Int) } }

/-- The `Mesh tempMesh` the mesh branches fill from the decoded message. -/
def tempMeshOf (meshHeader : sMeshHeader) (meshData : sMeshData) : Mesh :=
  { vertexCount := meshHeader.vertexCount
    triangleCount := meshHeader.triangleCount
    vertices := meshData.posXYZ
    texcoords := meshData.UV
    normals := meshData.norXYZ }

/-- The model of the mesh ADD branch: `LoadModelFromMesh(tempMesh)` with
`materials[0] = LoadMaterialDefault()` and `materials[0].shader = shader`. -/
def addedModel (tempMesh : Mesh) : Model :=
  let tempModel := LoadModelFromMesh tempMesh
  let tempModel := { tempModel with material := LoadMaterialDefault }
  { tempModel with material := { tempModel.material with shader := true } }

/-- The model of the mesh UPDATE branch: `LoadModelFromMesh(tempMesh)` with
`materials[0].shader = shader`. -/
def updatedModel (tempMesh : Mesh) : Model :=
  let m := LoadModelFromMesh tempMesh
  { m with material := { m.material with shader := true } }

/-- Body of the inner loop of mesh ADD:
`if (msgHead.nodeID == modelID[j]) materialIndexArr[j] = i;`. -/
def meshAddInnerBody (nodeID : List Byte) (i : Nat) (j : Nat) (s : State) : Option State := do
  let idJ ← vecAt s.modelID j
  if nodeID = idJ then
    let arr ← vecSet s.materialIndexArr j (i : Int)
    some { s with materialIndexArr := arr }
  else some s

/-- Body of the outer loop of mesh ADD:
`if (materialID[i] == meshHeader.connectedMatID) for (j ...) ...`. -/
def meshAddOuterBody (nodeID connectedMatID : List Byte) (i : Nat) (s : State) : Option State := do
  let idI ← vecAt s.materialID i
  let matID ← cstr connectedMatID
  if idI = matID then
    forLoop (fun t => t.modelID.length) (meshAddInnerBody nodeID i) s.modelID.length 0 s
  else some s

/-- The mesh ADD branch (main.cpp 199-257). -/
def recvMeshAdd (s : State) (msgHead : sHeader) (msg : Buf) : Option State := do
  let nodeID ← cstr msgHead.nodeID
  let (meshHeader, meshData) ← readMesh msg
  let tempModel := addedModel (tempMeshOf meshHeader meshData)
  let s := { s with
    modelID := s.modelID ++ [nodeID]
    modelArr := s.modelArr ++ [tempModel]
    materialIndexArr := s.materialIndexArr ++ [0] }
  forLoop (fun t => t.materialArr.length) (meshAddOuterBody nodeID meshHeader.connectedMatID)
    s.materialArr.length 0 s

/-- Body of the material scan of mesh UPDATE, on the state and `foundMat`:
`if (materialID[j] == meshHeader.connectedMatID) { materialIndexArr.at(i) = j; foundMat = true; }`. -/
def meshUpdateScanBody (connectedMatID : List Byte) (i : Nat) (j : Nat) (sf : State × Bool) :
    Option (State × Bool) := do
  let idJ ← vecAt sf.1.materialID j
  let matID ← cstr connectedMatID
  if idJ = matID then
    let arr ← vecSet sf.1.materialIndexArr i (j : Int)
    some ({ sf.1 with materialIndexArr := arr }, true)
  else some sf

/-- Body of the loop of mesh UPDATE (main.cpp 262-321). -/
def meshUpdateBody (msgHead : sHeader) (msg : Buf) (i : Nat) (s : State) : Option State := do
  let idI ← vecAt s.modelID i
  let nodeID ← cstr msgHead.nodeID
  if idI = nodeID then
    let (meshHeader, meshData) ← readMesh msg
    let arr ← vecSet s.modelArr i (updatedModel (tempMeshOf meshHeader meshData))
    let s := { s with modelArr := arr }
    let foundMat := false
    let (s, foundMat) ← forLoop (fun (t : State × Bool) => t.1.materialArr.length)
      (meshUpdateScanBody meshHeader.connectedMatID i) s.materialArr.length 0 (s, foundMat)
    if !foundMat then
      let arr ← vecSet s.materialIndexArr i (s.materialArr.length : Int)
      some { s with materialIndexArr := arr }
    else some s
  else some s

/-- Body of the loop of mesh REMOVE (main.cpp 327-336): the three vectors are
erased at `i`, and the loop goes on with `i + 1`. -/
def meshRemoveBody (msgHead : sHeader) (i : Nat) (s : State) : Option State := do
  let idI ← vecAt s.modelID i
  let nodeID ← cstr msgHead.nodeID
  if idI = nodeID then
    let a ← vecErase s.modelArr i
    let b ← vecErase s.modelID i
    let c ← vecErase s.materialIndexArr i
    some { s with modelArr := a, modelID := b, materialIndexArr := c }
  else some s

/-- The MESH branch: three `if`s on the activity, one after the other. -/
def recvMesh (s : State) (msgHead : sHeader) (msg : Buf) : Option State := do
  let s ← (if msgHead.activity = ADD then recvMeshAdd s msgHead msg else some s)
  let s ← (if msgHead.activity = UPDATE then
      forLoop (fun t => t.modelID.length) (meshUpdateBody msgHead msg) s.modelID.length 0 s
    else some s)
  let s ← (if msgHead.activity = REMOVE then
      forLoop (fun t => t.modelID.length) (meshRemoveBody msgHead) s.modelID.length 0 s
    else some s)
  some s

/-- The field-by-field copy of an `sTransform` into a raylib `Matrix`. -/
def matrixOf (transform : sTransform) : Matrix :=
  { m0 := transform.m0, m1 := transform.m1, m2 := transform.m2, m3 := transform.m3
    m4 := transform.m4, m5 := transform.m5, m6 := transform.m6, m7 := transform.m7
    m8 := transform.m8, m9 := transform.m9, m10 := transform.m10, m11 := transform.m11
    m12 := transform.m12, m13 := transform.m13, m14 := transform.m14, m15 := transform.m15 }

/-- The transform ADD branch (main.cpp 344-378). -/
def recvTransformAdd (s : State) (msgHead : sHeader) (msg : Buf) : Option State := do
  let nodeID ← cstr msgHead.nodeID
  let s := { s with transformID := s.transformID ++ [nodeID] }
  let transform ← readTransform msg
  let tempMatrix := matrixOf transform
  some { s with transformArr := s.transformArr ++ [tempMatrix] }

/-- Body of the loop of transform UPDATE (main.cpp 384-413). -/
def transformUpdateBody (msgHead : sHeader) (msg : Buf) (i : Nat) (s : State) : Option State := do
  let idI ← vecAt s.transformID i
  let nodeID ← cstr msgHead.nodeID
  if idI = nodeID then
    let transform ← readTransform msg
    let arr ← vecSet s.transformArr i (matrixOf transform)
    some { s with transformArr := arr }
  else some s

/-- Body of the loop of transform REMOVE (main.cpp 419-427). -/
def transformRemoveBody (msgHead : sHeader) (i : Nat) (s : State) : Option State := do
  let idI ← vecAt s.transformID i
  let nodeID ← cstr msgHead.nodeID
  if idI = nodeID then
    let a ← vecErase s.transformArr i
    let b ← vecErase s.transformID i
    some { s with transformArr := a, transformID := b }
  else some s

/-- The TRANSFORM branch. -/
def recvTransform (s : State) (msgHead : sHeader) (msg : Buf) : Option State := do
  let s ← (if msgHead.activity = ADD then recvTransformAdd s msgHead msg else some s)
  let s ← (if msgHead.activity = UPDATE then
      forLoop (fun t => t.transformID.length) (transformUpdateBody msgHead msg)
        s.transformID.length 0 s
    else some s)
  let s ← (if msgHead.activity = REMOVE then
      forLoop (fun t => t.transformID.length) (transformRemoveBody msgHead)
        s.transformID.length 0 s
    else some s)
  some s

/-- The colour and texture statements shared by the material branches, applied
to a material `m`: the three channels from the message, and when
`pathSize > 0` white and the texture loaded from the path (a C string). -/
def applyMaterial (smaterial : sMaterial) (m : Material) : Option Material := do
  let z : F32 := ⟨0, 0, 0, 0⟩
  let m := { m with color := ⟨.times255 (smaterial.color.getD 0 z),
    .times255 (smaterial.color.getD 1 z), .times255 (smaterial.color.getD 2 z)⟩ }
  if smaterial.pathSize > 0 then
    let m := { m with color := ⟨.lit 255, .lit 255, .lit 255⟩ }
    let path ← cstr smaterial.texturePath
    some { m with texture := .file path }
  else some m

/-- Body of the duplicate scan of material ADD, on the state and `duplicate`:
`if (materialID[i] == msgHead.nodeID) duplicate = true;`. -/
def materialAddScanBody (msgHead : sHeader) (i : Nat) (sd : State × Bool) :
    Option (State × Bool) := do
  let idI ← vecAt sd.1.materialID i
  let nodeID ← cstr msgHead.nodeID
  if idI = nodeID then some (sd.1, true) else some sd

/-- The tail shared by material ADD and material UPDATE: when no entry had the
id, a new material is built and pushed back. -/
def materialPushNew (msgHead : sHeader) (smaterial : sMaterial) (s : State) : Option State := do
  let nodeID ← cstr msgHead.nodeID
  let tempMaterial := { LoadMaterialDefault with shader := true }
  let tempMaterial ← applyMaterial smaterial tempMaterial
  some { s with
    materialID := s.materialID ++ [nodeID]
    materialArr := s.materialArr ++ [tempMaterial] }

/-- The material ADD branch (main.cpp 434-489). -/
def recvMaterialAdd (s : State) (msgHead : sHeader) (msg : Buf) : Option State := do
  let smaterial ← readMaterial msg
  let duplicate := false
  let (s, duplicate) ← forLoop (fun (t : State × Bool) => t.1.materialID.length)
    (materialAddScanBody msgHead) s.materialID.length 0 (s, duplicate)
  if !duplicate then materialPushNew msgHead smaterial s else some s

/-- Body of the loop of material UPDATE, on the state and `duplicate`
(main.cpp 511-536). -/
def materialUpdateBody (msgHead : sHeader) (smaterial : sMaterial) (i : Nat)
    (sd : State × Bool) : Option (State × Bool) := do
  let idI ← vecAt sd.1.materialID i
  let nodeID ← cstr msgHead.nodeID
  if idI = nodeID then
    let m ← vecAt sd.1.materialArr i
    let m ← applyMaterial smaterial m
    let arr ← vecSet sd.1.materialArr i m
    some ({ sd.1 with materialArr := arr }, true)
  else some sd

/-- The material UPDATE branch (main.cpp 492-566). -/
def recvMaterialUpdate (s : State) (msgHead : sHeader) (msg : Buf) : Option State := do
  let smaterial ← readMaterial msg
  let duplicate := false
  let (s, duplicate) ← forLoop (fun (t : State × Bool) => t.1.materialID.length)
    (materialUpdateBody msgHead smaterial) s.materialID.length 0 (s, duplicate)
  if !duplicate then materialPushNew msgHead smaterial s else some s

/-- Body of the loop of material REMOVE (main.cpp 571-579). -/
def materialRemoveBody (msgHead : sHeader) (i : Nat) (s : State) : Option State := do
  let idI ← vecAt s.materialID i
  let nodeID ← cstr msgHead.nodeID
  if idI = nodeID then
    let a ← vecErase s.materialArr i
    let b ← vecErase s.materialID i
    some { s with materialArr := a, materialID := b }
  else some s

/-- The MATERIAL branch. -/
def recvMaterial (s : State) (msgHead : sHeader) (msg : Buf) : Option State := do
  let s ← (if msgHead.activity = ADD then recvMaterialAdd s msgHead msg else some s)
  let s ← (if msgHead.activity = UPDATE then recvMaterialUpdate s msgHead msg else some s)
  let s ← (if msgHead.activity = REMOVE then
      forLoop (fun t => t.materialID.length) (materialRemoveBody msgHead)
        s.materialID.length 0 s
    else some s)
  some s

/-- The body of `if (comlib.recv(msg, msgSize)) { ... }` (main.cpp 168-582) on
the content `msg` of the receive buffer: the header is copied out and the
four `if`s on the node type follow one another.  `msgSize` is not read. -/
def consume (s : State) (msg : Buf) : Option State := do
  let msgHead ← readHeader msg
  let s ← (if msgHead.type = CAMERA then recvCamera s msg else some s)
  let s ← (if msgHead.type = MESH then recvMesh s msgHead msg else some s)
  let s ← (if msgHead.type = TRANSFORM then recvTransform s msgHead msg else some s)
  let s ← (if msgHead.type = MATERIAL then recvMaterial s msgHead msg else some s)
  some s

/-- The consumer step for a message of `bytes.length` bytes arriving while the
receive buffer holds `old`: the transport overwrites the first bytes of the
buffer, then the message loop body runs. -/
def receive (s : State) (old : Buf) (bytes : List Byte) : Option State :=
  consume s (comlibTransfer (fun i => bytes.getD i 0) bytes.length old)

/-- States reachable from the initial state by consuming messages (buffer
contents) that all satisfy `allowed`. -/
inductive ReachableVia (allowed : Buf → Prop) : State → Prop where
  | init : ReachableVia allowed initState
  | step {s t : State} (msg : Buf) :
      ReachableVia allowed s → allowed msg → consume s msg = some t → ReachableVia allowed t

/-- States reachable from the initial state by any sequence of messages. -/
def Reachable (s : State) : Prop := ReachableVia (fun _ => True) s

/-- Whether the buffer holds a material REMOVE message. -/
def isMaterialRemove (msg : Buf) : Bool :=
  match readHeader msg with
  | some h => decide (h.type = MATERIAL) && decide (h.activity = REMOVE)
  | none => false

/-- Runs the message loop body over a list of buffer contents. -/
def consumeAll : State → List Buf → Option State
  | s, [] => some s
  | s, m :: ms => (consume s m).bind (fun t => consumeAll t ms)

/-! ## The consumer: the render loop (main.cpp 603-628) -/

/-- The access `materialArr.at(k)` with an `int` index: a negative index
converts to a huge `size_t` and throws like any other index out of range. -/
def vecAtInt {α : Type} (v : List α) (k : Int) : Option α :=
  if k < 0 then none else v[k.toNat]?

/-- The first `try` block, `modelArr.at(i).transform = transformArr.at(i)`:
when an `at` throws the `catch` leaves the models as they are. -/
def tryTransform (s : State) (i : Nat) : List Model :=
  match vecAt s.transformArr i, vecAt s.modelArr i with
  | some t, some m => s.modelArr.set i { m with transform := t }
  | _, _ => s.modelArr

/-- The second `try` block,
`modelArr.at(i).materials[0] = materialArr.at(materialIndexArr.at(i))`. -/
def tryMaterial (s : State) (i : Nat) : List Model :=
  match (vecAt s.materialIndexArr i).bind (fun k => vecAtInt s.materialArr k),
      vecAt s.modelArr i with
  | some mat, some m => s.modelArr.set i { m with material := mat }
  | _, _ => s.modelArr

/-- Body of the render loop, on the state and the models handed to `DrawModel`
so far: the two `try` blocks, then `DrawModel(modelArr[i], ...)`. -/
def renderBody (i : Nat) (sd : State × List Model) : Option (State × List Model) := do
  let s := { sd.1 with modelArr := tryTransform sd.1 i }
  let s := { s with modelArr := tryMaterial s i }
  let m ← vecAt s.modelArr i
  some (s, sd.2 ++ [m])

/-- The render loop `for (int i = 0; i < modelArr.size(); i++)`: the state
after it and the models drawn, in order; `none` for a fault. -/
def renderPass (s : State) : Option (State × List Model) :=
  forLoop (fun (t : State × List Model) => t.1.modelArr.length) renderBody
    s.modelArr.length 0 (s, [])

/-- The parallel vectors of `main` have equal lengths. -/
def Aligned (s : State) : Prop :=
  s.modelID.length = s.modelArr.length ∧ s.modelArr.length = s.materialIndexArr.length ∧
  s.transformID.length = s.transformArr.length ∧ s.materialID.length = s.materialArr.length

/-- The entries (id, model, material index) of the mesh store whose id differs
from `X`, in store order. -/
def otherEntries (X : List Byte) : List (List Byte) → List Model → List Int →
    List (List Byte × Model × Int)
  | id :: ids, m :: ms, k :: ks =>
    if id = X then otherEntries X ids ms ks else (id, m, k) :: otherEntries X ids ms ks
  | _, _, _ => []

/-- The mesh-store entries of a state whose id differs from `X`. -/
def otherMeshes (X : List Byte) (s : State) : List (List Byte × Model × Int) :=
  otherEntries X s.modelID s.modelArr s.materialIndexArr

/-- Everything but the mesh store is the same in `s` and `t`. -/
def SameNonMesh (s t : State) : Prop :=
  t.camera = s.camera ∧ t.transformID = s.transformID ∧ t.transformArr = s.transformArr ∧
  t.materialID = s.materialID ∧ t.materialArr = s.materialArr

/-- The effect a mesh message bearing id `X` may have: only mesh entries with
id `X` change, the vectors stay aligned, and a material index is an old one or
lies between 0 and the number of materials. -/
def MeshStep (X : List Byte) (s t : State) : Prop :=
  SameNonMesh s t ∧ Aligned t ∧ otherMeshes X t = otherMeshes X s ∧
  ∀ k ∈ t.materialIndexArr, k ∈ s.materialIndexArr ∨ (0 ≤ k ∧ k ≤ (s.materialArr.length : Int))

/-- The effect a transform message may have: only the transform store changes,
and its two vectors stay aligned. -/
def TransformStep (s t : State) : Prop :=
  t.camera = s.camera ∧ t.modelID = s.modelID ∧ t.modelArr = s.modelArr ∧
  t.materialIndexArr = s.materialIndexArr ∧ t.materialID = s.materialID ∧
  t.materialArr = s.materialArr ∧
  (s.transformID.length = s.transformArr.length → t.transformID.length = t.transformArr.length)

/-- The effect a material message may have: only the material store changes,
and its two vectors stay aligned. -/
def MaterialStep (s t : State) : Prop :=
  t.camera = s.camera ∧ t.modelID = s.modelID ∧ t.modelArr = s.modelArr ∧
  t.materialIndexArr = s.materialIndexArr ∧ t.transformID = s.transformID ∧
  t.transformArr = s.transformArr ∧
  (s.materialID.length = s.materialArr.length → t.materialID.length = t.materialArr.length)

/-! ## Concrete messages used in the examples -/

/-- The buffer holding `bytes` at its start and zeros behind. -/
def bufOf (bytes : List Byte) : Buf := fun i => bytes.getD i 0

/-- The buffer of zeros. -/
def zeroBuf : Buf := fun _ => 0

def idA : List Byte := [97]
def idB : List Byte := [98]
def idX : List Byte := [120]

/-- The 48 bytes of a header with activity `a`, node type `t` and id `id`. -/
def exHeader (a t : Int) (id : List Byte) : List Byte := (sHeader.mk a t (char37 id)).bytes []

/-- A mesh message: header, mesh header and the floats that follow. -/
def exMesh (a : Int) (id : List Byte) (vertexCount triangleCount : Int) (mat : List Byte)
    (floats : List F32) : List Byte :=
  exHeader a MESH id ++ (sMeshHeader.mk vertexCount triangleCount (char37 mat)).bytes []
    ++ encodeFloats floats

/-- A material message without texture path: header, the colour (1, 1, 1),
`pathSize = 0` and the eight bytes of the pointer field. -/
def exMaterial (a : Int) (id : List Byte) : List Byte :=
  exHeader a MATERIAL id ++ encodeFloats [f32_one, f32_one, f32_one] ++ encodeInt 0
    ++ List.replicate 8 0

/-- The empty mesh of a message with `vertexCount = 0`. -/
def exModel : Model := addedModel (tempMeshOf ⟨0, 0, char37 idB⟩ ⟨[], [], []⟩)

/-- A state with two meshes, `idB` then `idA`. -/
def exTwoMeshes : State :=
  { initState with
    modelID := [idB, idA], modelArr := [exModel, exModel], materialIndexArr := [0, 0] }

/-- A state with the one mesh `idB`. -/
def exOneMesh : State :=
  { initState with modelID := [idB], modelArr := [exModel], materialIndexArr := [0] }

/-- Nine floats: the positions (or normals) of one triangle. -/
def exNine : List F32 :=
  [f32_zero, f32_zero, f32_zero, f32_one, f32_zero, f32_zero, f32_zero, f32_one, f32_ten]

/-- Six floats: the UVs of one triangle. -/
def exSix : List F32 := [f32_zero, f32_zero, f32_one, f32_zero, f32_zero, f32_one]

/-- The state after a material ADD `idA` and a mesh ADD `idX` connected to
`idA`, consumed from the initial state. -/
def exMaterialThenMesh : State :=
  (consumeAll initState
    [bufOf (exMaterial ADD idA), bufOf (exMesh ADD idX 0 0 idA [])]).getD initState

/-- A transform message: header and the sixteen floats of an `sTransform`. -/
def exTransform (a : Int) (id : List Byte) (floats : List F32) : List Byte :=
  exHeader a TRANSFORM id ++ encodeFloats floats

/-- Sixteen floats, the first of them `10.0f`. -/
def exSixteen : List F32 := f32_ten :: List.replicate 15 f32_one

/-- A state with the two transforms `idA` and `idB`, both the identity. -/
def exTwoTransforms : State :=
  { initState with
    transformID := [idA, idB], transformArr := [MatrixIdentity, MatrixIdentity] }

/-- A textured material. -/
def exTextured : Material := ⟨true, ⟨.lit 255, .lit 255, .lit 255⟩, .file [116]⟩

/-- A state with the two materials `idA` (textured) and `idB` (default). -/
def exTwoMaterials : State :=
  { initState with
    materialID := [idA, idB], materialArr := [exTextured, LoadMaterialDefault] }

/-- A camera message: header, ten floats, the projection byte and padding. -/
def exCamera (a : Int) (id : List Byte) (floats : List F32) (projection : Byte) : List Byte :=
  exHeader a CAMERA id ++ encodeFloats floats ++ [projection] ++ List.replicate 3 0

/-- Ten floats: position, target, up and field of view of a camera. -/
def exTen : List F32 :=
  [f32_one, f32_ten, f32_one, f32_zero, f32_zero, f32_zero, f32_zero, f32_one, f32_zero, f32_45]

/-- A state with the mesh `idX` (material index 0) and the material `idA`. -/
def exMeshAndMaterial : State :=
  { initState with
    modelID := [idX], modelArr := [exModel], materialIndexArr := [0]
    materialID := [idA], materialArr := [LoadMaterialDefault] }

/-! ## The producer: sending (mayaRun.cpp) -/

/-- The producer's side of the channel: the content of `msg` and the messages
handed to `comlib.send` so far, each as the `msgSize` bytes sent. -/
structure Producer where
  msg : Buf
  sent : List (List Byte)

/-- Modelled from the spec: `comlib.send(msg, msgSize)` of the transport
`ComLib` (`ComLib.h` is not among the sources) hands the first `msgSize` bytes
of `msg` to the channel. -/
def comlibSend (p : Producer) (msgSize : Nat) : Producer :=
  { p with sent := p.sent ++ [(List.range msgSize).map p.msg] }

/-- The ids (C strings of `nodeID`) of the messages sent so far. -/
def sentIds (p : Producer) : List (Option (List Byte)) :=
  p.sent.map (fun b => (readHeader (bufOf b)).bind (fun h => cstr h.nodeID))

/-- The activity and node type of the messages sent so far. -/
def sentKinds (p : Producer) : List (Option (Int × Int)) :=
  p.sent.map (fun b => (readHeader (bufOf b)).map (fun h => (h.activity, h.type)))

/-- The "Message data" and "Message send" part shared, statement for
statement, by `meshAdd` (`activity = ADD`) and `meshUpdate`
(`activity = UPDATE`). -/
def meshLayout (activity : Int) (msg : Buf) (uuid : List Byte) (numPoints numTriangles : Int)
    (materialID : List Byte) (posArr uvArr norArr : List F32) (pad1 pad2 : List Byte) :
    Option (Buf × Nat) := do
  let mainHeader : sHeader := ⟨activity, MESH, char37 uuid⟩
  let meshHeader : sMeshHeader := ⟨numPoints, numTriangles, materialID⟩
  let meshData : sMeshData := ⟨posArr, uvArr, norArr⟩
  let msgSize := sizeof_sHeader + sizeof_sMeshHeader + sizeof_float * posArr.length
    + sizeof_float * uvArr.length + sizeof_float * norArr.length
  let offset := 0
  let msg ← memcpyTo msg 0 (mainHeader.bytes pad1)
  let offset := offset + sizeof_sHeader
  let msg ← memcpyTo msg offset (meshHeader.bytes pad2)
  let offset := offset + sizeof_sMeshHeader
  let msg ← memcpyTo msg offset (encodeFloats meshData.posXYZ)
  let offset := offset + sizeof_float * posArr.length
  let msg ← memcpyTo msg offset (encodeFloats meshData.UV)
  let offset := offset + sizeof_float * uvArr.length
  let msg ← memcpyTo msg offset (encodeFloats meshData.norXYZ)
  some (msg, msgSize)

/-- The part of `meshUpdate` after the data has been fetched from Maya. -/
def meshUpdate (msg : Buf) (uuid : List Byte) (numPoints numTriangles : Int)
    (materialID : List Byte) (posArr uvArr norArr : List F32) (pad1 pad2 : List Byte) :
    Option (Buf × Nat) :=
  meshLayout UPDATE msg uuid numPoints numTriangles materialID posArr uvArr norArr pad1 pad2

/-! ### Geometry extraction (`meshAdd` 141-187, `meshUpdate` 268-315) -/

/-- One entry of the `MPointArray` that `getTriangles` returns for a face,
with what is appended for it: the three coordinates converted to `float`, the
U coordinate and the flipped V coordinate `1.0 - uvPoint[1]` (the floating-point
conversions are Maya's and the compiler's; the results are taken as given). -/
structure Corner where
  x : F32
  y : F32
  z : F32
  u : F32
  v : F32

/-- One polygon visited by `MItMeshPolygon`: its triangle count, the corners
of its triangles and its normal (converted to `float`). -/
structure Face where
  numTriangles : Int
  points : List Corner
  nx : F32
  ny : F32
  nz : F32

/-- The local variables the face loop fills. -/
structure MeshFetch where
  numPoints : Int
  numTriangles : Int
  posArr : List F32
  uvArr : List F32
  norArr : List F32

/-- Body of the inner loop over the points of a face: three appends to
`posArr`, two to `uvArr`, three to `norArr`. -/
def fetchPoint (face : Face) (acc : MeshFetch) (pt : Corner) : MeshFetch :=
  { acc with
    posArr := acc.posArr ++ [pt.x, pt.y, pt.z]
    uvArr := acc.uvArr ++ [pt.u, pt.v]
    norArr := acc.norArr ++ [face.nx, face.ny, face.nz] }

/-- Body of the loop over the faces: `numTriangles += currentNumTris`,
`numPoints += points.length()`, then the loop over the points.  The `int`
sums are exact below 2^31. -/
def fetchFace (acc : MeshFetch) (face : Face) : MeshFetch :=
  let acc := { acc with numTriangles := acc.numTriangles + face.numTriangles }
  let acc := { acc with numPoints := acc.numPoints + (face.points.length : Int) }
  face.points.foldl (fetchPoint face) acc

/-- The face loop of `meshAdd` and `meshUpdate`, from the initial values
`numPoints = 0`, `numTriangles = 0` and empty arrays. -/
def meshFetch (faces : List Face) : MeshFetch :=
  faces.foldl fetchFace ⟨0, 0, [], [], []⟩

/-- The total number of expanded triangle corners over all faces. -/
def totalCorners (faces : List Face) : Nat := (faces.map (fun f => f.points.length)).sum

/-! ### Transforms (`transformAdd`, `transformUpdate`) -/

/-- The object representation of an `sTransform`: sixteen floats in
declaration order, no padding. -/
def sTransform.bytes (t : sTransform) : List Byte :=
  encodeFloats [t.m0, t.m4, t.m8, t.m12, t.m1, t.m5, t.m9, t.m13,
    t.m2, t.m6, t.m10, t.m14, t.m3, t.m7, t.m11, t.m15]

/-- The aggregate initialisation
`transformData = { matrix[0][0], matrix[1][0], matrix[2][0], matrix[3][0], matrix[0][1], ... }`
of `transformAdd` and `transformUpdate`: the sixteen initialisers fill the
fields of `sTransform` in declaration order. -/
def transformDataOf (matrix : Fin 4 → Fin 4 → F32) : sTransform :=
  ⟨matrix 0 0, matrix 1 0, matrix 2 0, matrix 3 0,
   matrix 0 1, matrix 1 1, matrix 2 1, matrix 3 1,
   matrix 0 2, matrix 1 2, matrix 2 2, matrix 3 2,
   matrix 0 3, matrix 1 3, matrix 2 3, matrix 3 3⟩

/-- The field `m0` ... `m15` of a raylib `Matrix`, by its number. -/
def Matrix.field (m : Matrix) : Nat → F32
  | 0 => m.m0
  | 1 => m.m1
  | 2 => m.m2
  | 3 => m.m3
  | 4 => m.m4
  | 5 => m.m5
  | 6 => m.m6
  | 7 => m.m7
  | 8 => m.m8
  | 9 => m.m9
  | 10 => m.m10
  | 11 => m.m11
  | 12 => m.m12
  | 13 => m.m13
  | 14 => m.m14
  | 15 => m.m15
  | _ => ⟨0, 0, 0, 0⟩

/-- The statements of `transformAdd` and `transformUpdate` from "sHeader
mainHeader" to `comlib.send`, for a transform with UUID `uuid` and inclusive
matrix `matrix`. -/
def transformSend (activity : Int) (uuid : List Byte) (matrix : Fin 4 → Fin 4 → F32)
    (pad : List Byte) (p : Producer) : Option Producer := do
  let mainHeader : sHeader := ⟨activity, TRANSFORM, char37 uuid⟩
  let transformData := transformDataOf matrix
  let msgSize := sizeof_sHeader + sizeof_sTransform
  let offset := 0
  let msg ← memcpyTo p.msg 0 (mainHeader.bytes pad)
  let offset := offset + sizeof_sHeader
  let msg ← memcpyTo msg offset transformData.bytes
  some (comlibSend { p with msg := msg } msgSize)

/-- A node of the scene hierarchy as `transformAdd` and `transformUpdate` see
it: either `MFnTransform` attaches to it, and it has a UUID, an inclusive
matrix and the children `path.child(i)`, or it does not (a mesh shape). -/
inductive DagNode where
  | transform (uuid : List Byte) (inclusiveMatrix : Fin 4 → Fin 4 → F32)
      (children : List DagNode)
  | other

/-- The function `transformAdd`. -/
def transformAdd (node : DagNode) (pad : List Byte) (p : Producer) : Option Producer :=
  match node with
  | .transform uuid matrix _ => transformSend ADD uuid matrix pad p
  | .other => some p

mutual
/-- The function `transformUpdate`: the node's own message, then the loop over
`path.child(i)`. -/
def transformUpdate : DagNode → List Byte → Producer → Option Producer
  | .transform uuid matrix children, pad, p =>
    (transformSend UPDATE uuid matrix pad p).bind
      (fun q => transformUpdateChildren children pad q)
  | .other, _, p => some p
/-- The loop `for (int i = 0; i < path.childCount(); i++) transformUpdate(path.child(i))`. -/
def transformUpdateChildren : List DagNode → List Byte → Producer → Option Producer
  | [], _, p => some p
  | c :: cs, pad, p => (transformUpdate c pad p).bind (fun q => transformUpdateChildren cs pad q)
end

mutual
/-- The transform nodes a transform UPDATE is due for: the node itself and
every transform node below it that is reached through transform nodes only,
a parent before its children (with UUID and inclusive matrix). -/
def transformsBelow : DagNode → List (List Byte × (Fin 4 → Fin 4 → F32))
  | .transform uuid matrix children => (uuid, matrix) :: transformsBelowAll children
  | .other => []
/-- The transform nodes due for the nodes of a list, one node after the other. -/
def transformsBelowAll : List DagNode → List (List Byte × (Fin 4 → Fin 4 → F32))
  | [] => []
  | c :: cs => transformsBelow c ++ transformsBelowAll cs
end

/-- The 112 bytes of a transform message. -/
def transformBytes (activity : Int) (uuid : List Byte) (matrix : Fin 4 → Fin 4 → F32)
    (pad : List Byte) : List Byte :=
  (sHeader.mk activity TRANSFORM (char37 uuid)).bytes pad ++ (transformDataOf matrix).bytes

/-! ### Removal and materials -/

/-- The statements shared by `meshRemove`, `materialRemove` and
`transformRemove`: a header with activity REMOVE is copied to `msg` and sent
with `msgSize = sizeof(sHeader)`. -/
def removeSend (type : Int) (uuid : List Byte) (pad : List Byte) (p : Producer) :
    Option Producer := do
  let mainHeader : sHeader := ⟨REMOVE, type, char37 uuid⟩
  let msgSize := sizeof_sHeader
  let msg ← memcpyTo p.msg 0 (mainHeader.bytes pad)
  some (comlibSend { p with msg := msg } msgSize)

/-- What the producer reads of a shader node (lambert, phong, ...): its UUID,
the three floats it ends up with in `color` (plug value times the diffuse
weight; the floating-point product is taken as given) and the file names the
texture loop accepts, in iteration order. -/
structure ShaderNode where
  uuid : List Byte
  color0 : F32
  color1 : F32
  color2 : F32
  texturePaths : List (List Byte)

/-- What the producer reads of a node handed to `materialAdd`,
`materialUpdate` or `materialRemove` (a shading group): its own UUID, whether
`MMaterial(node, &status)` succeeds, and the node connected to its
`surfaceShader` plug, if any.  `beingDeleted` and `usedByOtherMesh` are facts
of the scene that no producer function reads. -/
structure ShadingNode where
  uuid : List Byte
  mmaterial : Bool
  surfaceShader : Option ShaderNode
  beingDeleted : Bool
  usedByOtherMesh : Bool

/-- The texture loop of `materialAdd` and `materialUpdate`: every accepted
file name overwrites `pathSize` (its length plus one) and `texturePath` (its
bytes and the terminator). -/
def fetchTexture (paths : List (List Byte)) : Int × List Byte :=
  paths.foldl (fun _ name => ((name.length : Int) + 1, name ++ [0])) (0, [])

/-- The object representation of an `sMaterial`: three floats, `pathSize` and
the eight bytes of the pointer `texturePath` (`ptr`, an address of the
producer). -/
def sMaterial.bytes (m : sMaterial) (ptr : List Byte) : List Byte :=
  encodeFloats (m.color.take 3) ++ encodeInt m.pathSize ++ padding 8 ptr

/-- The statements shared by `materialAdd` (`activity = ADD`) and
`materialUpdate` (`activity = UPDATE`): when `MMaterial` attaches and a shader
feeds the `surfaceShader` plug, a message bearing the UUID of that shader is
laid out (header, `sMaterial`, `pathSize` path bytes) and sent. -/
def materialSend (activity : Int) (node : ShadingNode) (pad ptr : List Byte) (p : Producer) :
    Option Producer :=
  if node.mmaterial then
    match node.surfaceShader with
    | some material => do
      let (pathSize, texturePath) := fetchTexture material.texturePaths
      let sheader : sHeader := ⟨activity, MATERIAL, char37 material.uuid⟩
      let smaterial : sMaterial :=
        ⟨[material.color0, material.color1, material.color2], pathSize, texturePath⟩
      let msgSize := sizeof_sHeader + sizeof_sMaterial + pathSize.toNat
      let offset := 0
      let msg ← memcpyTo p.msg 0 (sheader.bytes pad)
      let offset := offset + sizeof_sHeader
      let msg ← memcpyTo msg offset (smaterial.bytes ptr)
      let offset := offset + sizeof_sMaterial
      let msg ← memcpyTo msg offset (smaterial.texturePath.take smaterial.pathSize.toNat)
      some (comlibSend { p with msg := msg } msgSize)
    | none => some p
  else some p

/-- The function `materialAdd`. -/
def materialAdd (node : ShadingNode) (pad ptr : List Byte) (p : Producer) : Option Producer :=
  materialSend ADD node pad ptr p

/-- The function `materialUpdate`. -/
def materialUpdate (node : ShadingNode) (pad ptr : List Byte) (p : Producer) : Option Producer :=
  materialSend UPDATE node pad ptr p

/-- The function `materialRemove`: when `MMaterial` attaches, a REMOVE bearing
`MFnDependencyNode(node).uuid()`, the UUID of the node itself. -/
def materialRemove (node : ShadingNode) (pad : List Byte) (p : Producer) : Option Producer :=
  if node.mmaterial then removeSend MATERIAL node.uuid pad p else some p

/-- What the producer reads of a node handed to `meshAdd`, `meshUpdate` or
`meshRemove`: whether `MFnMesh` attaches, its UUID, its faces, and the shading
groups `MItDependencyGraph` finds downstream, in iteration order. -/
structure MeshNode where
  isMesh : Bool
  uuid : List Byte
  faces : List Face
  shadingEngines : List ShadingNode

/-- The loop `for (; !itSE.isDone(); itSE.next()) materialRemove(itSE.currentItem())`. -/
def materialRemoveAll : List ShadingNode → List Byte → Producer → Option Producer
  | [], _, p => some p
  | se :: ses, pad, p => (materialRemove se pad p).bind (fun q => materialRemoveAll ses pad q)

/-- The function `meshRemove`: the mesh REMOVE, then `materialRemove` on every
shading group found downstream. -/
def meshRemove (node : MeshNode) (pad : List Byte) (p : Producer) : Option Producer :=
  if node.isMesh then
    (removeSend MESH node.uuid pad p).bind (fun q => materialRemoveAll node.shadingEngines pad q)
  else some p

/-- The loop "Get connected mat uuid" of `meshAdd` and `meshUpdate` on the
local `char materialID[37]{}`: every shading group with a connected shader
overwrites the array with that shader's UUID. -/
def fetchMaterialID (ses : List ShadingNode) : List Byte :=
  ses.foldl (fun materialID se =>
    match se.surfaceShader with
    | some mat => char37 mat.uuid
    | none => materialID) (List.replicate 37 0)

/-- The calls `materialAdd(itSE.currentItem())` of the loop "Get connected mat
uuid" of `meshAdd`, one per shading group found downstream (the loop's other
statements only write the local `materialID`, see `fetchMaterialID`). -/
def meshAddMaterials : List ShadingNode → List Byte → List Byte → Producer → Option Producer
  | [], _, _, p => some p
  | se :: ses, pad, ptr, p =>
    (materialAdd se pad ptr p).bind (fun q => meshAddMaterials ses pad ptr q)

/-- The function `meshAdd` as a whole: when `MFnMesh` attaches, the geometry
is fetched, the materials of the mesh are sent, and the mesh message is laid
out and sent. -/
def meshAddNode (node : MeshNode) (pad1 pad2 pad3 ptr : List Byte) (p : Producer) :
    Option Producer :=
  if node.isMesh then do
    let f := meshFetch node.faces
    let p ← meshAddMaterials node.shadingEngines pad3 ptr p
    let materialID := fetchMaterialID node.shadingEngines
    let (msg, msgSize) ← meshAdd p.msg node.uuid f.numPoints f.numTriangles materialID
      f.posArr f.uvArr f.norArr pad1 pad2
    some (comlibSend { p with msg := msg } msgSize)
  else some p

/-- The function `meshUpdate` as a whole: when `MFnMesh` attaches, the
geometry and the connected material id are fetched, the message is laid out
and sent. -/
def meshUpdateNode (node : MeshNode) (pad1 pad2 : List Byte) (p : Producer) : Option Producer :=
  if node.isMesh then do
    let f := meshFetch node.faces
    let materialID := fetchMaterialID node.shadingEngines
    let (msg, msgSize) ← meshUpdate p.msg node.uuid f.numPoints f.numTriangles materialID
      f.posArr f.uvArr f.norArr pad1 pad2
    some (comlibSend { p with msg := msg } msgSize)
  else some p

/-! ### Attribute-changed callbacks -/

/-- The values of Maya's `MNodeMessage::AttributeMessage` bits the callbacks
test (`MNodeMessage.h` of the Maya SDK). -/
def kConnectionMade : Nat := 0x01
def kAttributeEval : Nat := 0x04
def kAttributeSet : Nat := 0x08
def kIncomingDirection : Nat := 0x800

/-- The function `attributeChangedMesh` for the notification mask `msg` on the
mesh `node`: `plugIsOutMesh` is `plug.info().indexW("outMesh") > -1`,
`vertIter` whether `MItMeshVertex` attaches.  `attributeCallbackInfo` only
displays text. -/
def attributeChangedMesh (msg : Nat) (plugIsOutMesh vertIter : Bool) (node : MeshNode)
    (pad1 pad2 : List Byte) (p : Producer) : Option Producer := do
  let p ← (if msg &&& (kAttributeEval + kIncomingDirection) ≠ 0 then
      (if plugIsOutMesh then
        (if vertIter then meshUpdateNode node pad1 pad2 p else some p)
      else some p)
    else some p)
  let p ← (if msg &&& kConnectionMade ≠ 0 then meshUpdateNode node pad1 pad2 p else some p)
  some p

/-! ### Concrete scenes used in the examples -/

/-- The producer before anything was sent. -/
def exProducer : Producer := ⟨zeroBuf, []⟩

/-- The identity as a Maya matrix. -/
def exIdentity : Fin 4 → Fin 4 → F32 := fun r c => if r = c then f32_one else f32_zero

/-- A parent transform `idX` with two child transforms `idA` and `idB`, each
holding a mesh shape. -/
def exParent : DagNode :=
  .transform idX exIdentity
    [.transform idA exIdentity [.other], .transform idB exIdentity [.other]]

/-- A shader with UUID `idA`. -/
def exShader : ShaderNode := ⟨idA, f32_one, f32_one, f32_one, []⟩

/-- A shading group with UUID `idB` fed by the shader `idA`, not being
deleted and used by another mesh. -/
def exShadingGroup : ShadingNode := ⟨idB, true, some exShader, false, true⟩

/-- A mesh `idX` without faces, connected to the shading group `idB`. -/
def exMeshNode : MeshNode := ⟨true, idX, [], [exShadingGroup]⟩

/-- A corner at the origin with UV (0, 1). -/
def exCorner : Corner := ⟨f32_zero, f32_zero, f32_zero, f32_zero, f32_one⟩

/-- A quad: two triangles, six corners. -/
def exQuad : Face := ⟨2, List.replicate 6 exCorner, f32_zero, f32_one, f32_zero⟩

/-- A mesh `idX` of one quad and one triangle, connected to the shading group
`idB`. -/
def exQuadMesh : MeshNode :=
  ⟨true, idX, [exQuad, ⟨1, List.replicate 3 exCorner, f32_zero, f32_one, f32_zero⟩],
    [exShadingGroup]⟩

/-! ### The render loop, iteration by iteration -/

/-- What the two `try` blocks of iteration `i` of the render loop make of the
model `m` at position `i`: the matrix at position `i` of the transform store
when there is one, the material at the model's material index when that index
is inside the material store; what an `at` does not deliver is left as it was. -/
def drawnModel (s : State) (i : Nat) (m : Model) : Model :=
  { transform := (vecAt s.transformArr i).getD m.transform
    mesh := m.mesh
    material :=
      ((vecAt s.materialIndexArr i).bind (fun k => vecAtInt s.materialArr k)).getD m.material }

/-- One iteration of the main loop with a message received: the message loop
body, then the render loop. -/
def frame (s : State) (msg : Buf) : Option State :=
  (consume s msg).bind (fun t => (renderPass t).map (fun r => r.1))

/-- Iterations of the main loop, one message received in each. -/
def frames : State → List Buf → Option State
  | s, [] => some s
  | s, m :: ms => (frame s m).bind (fun t => frames t ms)

/-! ### The deferred Add (`nodeAdded`, `eventCallback`) -/

/-- The queue `addedNodeList` (front first) and the number of `idle` callbacks
of `eventCallback` registered with Maya. -/
structure Deferred (α : Type) where
  addedNodeList : List α
  idleCallbacks : Nat

/-- The function `nodeAdded`: `addedNodeList.push(node)`, then
`MEventMessage::addEventCallback("idle", eventCallback, ...)`, taken to
register one more callback (the status it reports is not read). -/
def nodeAdded {α : Type} (node : α) (d : Deferred α) : Deferred α :=
  { addedNodeList := d.addedNodeList ++ [node], idleCallbacks := d.idleCallbacks + 1 }

/-- The head of `eventCallback` (mayaRun.cpp 826-838), run by Maya for one
registered callback: the callback removes itself, `addedNodeList.front()` is
read (undefined on an empty queue: a fault) and the front is popped when the
queue is not empty.  The result is the state and the node the rest of the
function hands to `transformAdd`, `meshAdd` and `materialAdd`. -/
def eventCallback {α : Type} (d : Deferred α) : Option (Deferred α × α) := do
  let idleCallbacks := d.idleCallbacks - 1
  let node ← d.addedNodeList.head?
  let addedNodeList :=
    if d.addedNodeList.length > 0 then d.addedNodeList.tail else d.addedNodeList
  some (⟨addedNodeList, idleCallbacks⟩, node)

/-- What Maya does next: it reports a new node, or, being idle, it runs one
of the registered idle callbacks. -/
inductive Event (α : Type) where
  | added (node : α)
  | idle

/-- The producer's handling of a sequence of events, from the state `d` and
the nodes `done` already handled by `eventCallback`: the final state and the
nodes handled, in order.  Maya runs an idle callback only when one is
registered; `none` when `eventCallback` faults. -/
def runEvents {α : Type} : List (Event α) → Deferred α → List α → Option (Deferred α × List α)
  | [], d, done => some (d, done)
  | .added node :: es, d, done => runEvents es (nodeAdded node d) done
  | .idle :: es, d, done =>
    if d.idleCallbacks = 0 then runEvents es d done
    else (eventCallback d).bind (fun r => runEvents es r.1 (done ++ [r.2]))

/-- The nodes a sequence of events reports, in order. -/
def addedNodes {α : Type} : List (Event α) → List α
  | [] => []
  | .added node :: es => node :: addedNodes es
  | .idle :: es => addedNodes es

/-! ### Further concrete messages and scenes -/

/-- A material message without texture path and with the colour (0, 0, 0). -/
def exMaterialBlack (a : Int) (id : List Byte) : List Byte :=
  exHeader a MATERIAL id ++ encodeFloats [f32_zero, f32_zero, f32_zero] ++ encodeInt 0
    ++ List.replicate 8 0

/-- A material message with the colour (0, 0, 0) and the texture path "t":
`pathSize = 2`, the path and its terminator behind the fixed part. -/
def exMaterialTextured (a : Int) (id : List Byte) : List Byte :=
  exHeader a MATERIAL id ++ encodeFloats [f32_zero, f32_zero, f32_zero] ++ encodeInt 2
    ++ List.replicate 8 0 ++ [116, 0]

/-- The identity matrix as sixteen floats in the order of `sTransform`. -/
def exIdentity16 : List F32 :=
  [f32_one, f32_zero, f32_zero, f32_zero, f32_zero, f32_one, f32_zero, f32_zero,
   f32_zero, f32_zero, f32_one, f32_zero, f32_zero, f32_zero, f32_zero, f32_one]

/-- A mesh `idX` of one face with 163839 corners (54613 triangles). -/
def exLargeMesh : MeshNode :=
  ⟨true, idX, [⟨54613, List.replicate 163839 exCorner, f32_zero, f32_one, f32_zero⟩], []⟩

/-- A shader with UUID `idA` and a texture file name of 5242808 bytes. -/
def exLongPathShader : ShaderNode :=
  ⟨idA, f32_one, f32_one, f32_one, [List.replicate 5242808 97]⟩

/-- A shading group with UUID `idB` fed by the shader with the long texture
file name. -/
def exLongPathGroup : ShadingNode := ⟨idB, true, some exLongPathShader, false, false⟩

/-- A shader with UUID "c" and the texture file name "t". -/
def exShader2 : ShaderNode := ⟨[99], f32_zero, f32_one, f32_zero, [[116]]⟩

/-- A shading group with UUID "d" fed by the shader "c". -/
def exShadingGroup2 : ShadingNode := ⟨[100], true, some exShader2, false, false⟩

/-- A mesh `idX` without faces below which the shading group `idB` (shader
`idA`) is found first and the shading group "d" (shader "c") second. -/
def exTwoGroupsMesh : MeshNode := ⟨true, idX, [], [exShadingGroup, exShadingGroup2]⟩

/-! ### The camera message (`updateCamera`) -/

/-- The object representation of an `sCamera` (44 bytes): the three arrays
`position`, `target` and `up`, `fovy`, the one byte of `projection` and three
bytes of padding. -/
def sCamera.bytes (c : sCamera) (pad : List Byte) : List Byte :=
  encodeFloats (c.position.take 3 ++ c.target.take 3 ++ c.up.take 3 ++ [c.fovy])
    ++ [c.projection] ++ padding 3 pad

/-- The function `updateCamera` from "sHeader mainHeader" on, for the UUID of
the active camera and the values read from it (the eye point, centre of
interest and up direction as converted to `float`, the field of view in
degrees, and `camera.isOrtho()`, stored as the byte 1 or 0). -/
def updateCamera (uuid : List Byte) (position target up : Vector3) (fovy : F32)
    (projection : Bool) (pad1 pad2 : List Byte) (p : Producer) : Option Producer := do
  let mainHeader : sHeader := ⟨UPDATE, CAMERA, char37 uuid⟩
  let cam : sCamera :=
    ⟨[position.x, position.y, position.z], [target.x, target.y, target.z],
     [up.x, up.y, up.z], fovy, if projection then 1 else 0⟩
  let msgSize := sizeof_sHeader + sizeof_sCamera
  let msg ← memcpyTo p.msg 0 (mainHeader.bytes pad1)
  let msg ← memcpyTo msg sizeof_sHeader (cam.bytes pad2)
  some (comlibSend { p with msg := msg } msgSize)

/-- A transform with sixteen different values: 1.0 in `m0`, 10.0 in `m12`,
45.0 in `m5`, zero elsewhere. -/
def exTransformData : sTransform :=
  ⟨f32_one, f32_zero, f32_zero, f32_ten, f32_zero, f32_45, f32_zero, f32_zero,
   f32_zero, f32_zero, f32_zero, f32_zero, f32_zero, f32_zero, f32_zero, f32_zero⟩

/-! ## Lemmas -/

theorem encodeFloats_cons (f : F32) (fs : List F32) :
    encodeFloats (f :: fs) = f.b0 :: f.b1 :: f.b2 :: f.b3 :: encodeFloats fs := by
  simp [encodeFloats, F32.bytes]

theorem decodeFloats_encodeFloats (fs : List F32) : decodeFloats (encodeFloats fs) = fs := by
  induction fs with
  | nil => simp [encodeFloats, decodeFloats]
  | cons f fs ih => rw [encodeFloats_cons, decodeFloats, ih]

theorem encodeFloats_length (fs : List F32) : (encodeFloats fs).length = 4 * fs.length := by
  induction fs with
  | nil => simp [encodeFloats]
  | cons f fs ih => rw [encodeFloats_cons]; simp [ih]; omega

theorem encodeInt_length (v : Int) : (encodeInt v).length = 4 := by
  simp [encodeInt]

theorem decodeInt_encodeInt (v : Int) (h1 : -2147483648 ≤ v) (h2 : v < 2147483648)
    (rest : List Byte) : decodeInt (encodeInt v ++ rest) = v := by
  simp only [decodeInt, encodeInt, List.getD_eq_getElem?_getD, List.cons_append,
    List.getElem?_cons_zero, List.getElem?_cons_succ, Option.getD_some]
  have hu : ((v % 4294967296).toNat : Int) = v % 4294967296 :=
    Int.toNat_of_nonneg (Int.emod_nonneg _ (by decide))
  generalize (v % 4294967296).toNat = u at hu ⊢
  have hlt : u < 4294967296 := by omega
  have hre : u % 256 + 256 * (u / 256 % 256) + 65536 * (u / 65536 % 256)
      + 16777216 * (u / 16777216 % 256) = u := by omega
  simp only [hre]
  split <;> omega

theorem readBytes_length {msg : Buf} {off n : Nat} {bs : List Byte}
    (h : readBytes msg off n = some bs) : bs.length = n := by
  unfold readBytes at h
  split at h
  · cases h; simp
  · cases h

theorem readBytes_memcpyTo_same {msg msg2 : Buf} {off : Nat} {src : List Byte}
    (h : memcpyTo msg off src = some msg2) : readBytes msg2 off src.length = some src := by
  unfold memcpyTo at h
  split at h
  next hle =>
    cases h
    simp only [readBytes, hle, if_true, Option.some.injEq]
    apply List.ext_getElem
    · simp
    · intro k h1 h2
      simp only [List.length_map, List.length_range] at h1
      simp [h1, List.getD_eq_getElem?_getD, List.getElem?_eq_getElem h2]
  next => cases h

theorem readBytes_memcpyTo_other {msg msg2 : Buf} {off : Nat} {src : List Byte}
    (h : memcpyTo msg off src = some msg2) (o n : Nat)
    (hd : o + n ≤ off ∨ off + src.length ≤ o) : readBytes msg2 o n = readBytes msg o n := by
  unfold memcpyTo at h
  split at h
  next hle =>
    cases h
    simp only [readBytes]
    split
    · simp only [Option.some.injEq]
      apply List.map_congr_left
      intro k hk
      have hk2 : k < n := List.mem_range.mp hk
      have : ¬ (off ≤ o + k ∧ o + k < off + src.length) := by omega
      simp [this]
    · rfl
  next => cases h

theorem readBytes_comlibTransfer (sent old : Buf) (size o n : Nat) (h : o + n ≤ size) :
    readBytes (comlibTransfer sent size old) o n = readBytes sent o n := by
  simp only [readBytes]
  split
  · simp only [Option.some.injEq]
    apply List.map_congr_left
    intro k hk
    have hk2 : k < n := List.mem_range.mp hk
    have : o + k < size := by omega
    simp [comlibTransfer, this]
  · rfl

theorem memcpyTo_some (msg : Buf) (off : Nat) (src : List Byte) (h : off + src.length ≤ MSGSIZE) :
    ∃ msg2, memcpyTo msg off src = some msg2 := by
  simp [memcpyTo, h]

theorem memcpyTo_none (msg : Buf) (off : Nat) (src : List Byte) (h : MSGSIZE < off + src.length) :
    memcpyTo msg off src = none := by
  simp [memcpyTo]; omega

theorem sHeader_bytes_length (h : sHeader) (pad : List Byte) : (h.bytes pad).length = 48 := by
  simp [sHeader.bytes, encodeInt_length, padding]

theorem sMeshHeader_bytes_length (h : sMeshHeader) (pad : List Byte) :
    (h.bytes pad).length = 48 := by
  simp [sMeshHeader.bytes, encodeInt_length, padding]

theorem take37_pad (l : List Byte) (h : l.length = 37) (rest : List Byte) :
    ((l ++ List.replicate 37 0).take 37 ++ rest).take 37 = l := by
  rw [List.take_append_of_le_length (by simp [h]), List.take_append_of_le_length (by simp [h])]
  rw [List.take_take]; simp [← h]

theorem meshAdd_msgSize (msg : Buf) (uuid : List Byte) (numPoints numTriangles : Int)
    (materialID : List Byte) (posArr uvArr norArr : List F32) (pad1 pad2 : List Byte)
    (sent : Buf) (size : Nat)
    (h : meshAdd msg uuid numPoints numTriangles materialID posArr uvArr norArr pad1 pad2
      = some (sent, size)) :
    size = sizeof_sHeader + sizeof_sMeshHeader + sizeof_float * posArr.length
      + sizeof_float * uvArr.length + sizeof_float * norArr.length
    ∧ size ≤ MSGSIZE := by
  simp only [meshAdd, Option.bind_eq_bind, Option.bind_eq_some, Option.some.injEq,
    Prod.mk.injEq] at h
  obtain ⟨m1, h1, m2, h2, m3, h3, m4, h4, m5, h5, -, hs⟩ := h
  refine ⟨hs.symm, ?_⟩
  subst hs
  simp only [memcpyTo] at h5
  split at h5
  next hle =>
    simp only [encodeFloats_length, sizeof_sHeader, sizeof_sMeshHeader, sizeof_float] at hle ⊢
    omega
  next => cases h5

theorem meshAdd_roundtrip_aux (msg old : Buf) (uuid materialID : List Byte) (n : Nat)
    (numTriangles : Int) (posArr uvArr norArr : List F32) (pad1 pad2 : List Byte)
    (hfit : sizeof_sHeader + sizeof_sMeshHeader + sizeof_float * (3 + 2 + 3) * n ≤ MSGSIZE)
    (htri : -2147483648 ≤ numTriangles ∧ numTriangles < 2147483648)
    (hmat : materialID.length = 37)
    (hpos : posArr.length = 3 * n) (huv : uvArr.length = 2 * n) (hnor : norArr.length = 3 * n) :
    ∃ sent,
      meshAdd msg uuid n numTriangles materialID posArr uvArr norArr pad1 pad2
        = some (sent, sizeof_sHeader + sizeof_sMeshHeader + sizeof_float * (3 + 2 + 3) * n) ∧
      readMesh (comlibTransfer sent
          (sizeof_sHeader + sizeof_sMeshHeader + sizeof_float * (3 + 2 + 3) * n) old)
        = some (⟨n, numTriangles, materialID⟩, ⟨posArr, uvArr, norArr⟩) := by
  have hM : MSGSIZE = 5242880 := by decide
  simp only [sizeof_sHeader, sizeof_sMeshHeader, sizeof_float] at hfit ⊢
  have lp := encodeFloats_length posArr
  have lu := encodeFloats_length uvArr
  have ln := encodeFloats_length norArr
  have l1 := sHeader_bytes_length ⟨ADD, MESH, char37 uuid⟩ pad1
  have l2 := sMeshHeader_bytes_length ⟨n, numTriangles, materialID⟩ pad2
  obtain ⟨m1, h1⟩ := memcpyTo_some msg 0 (sHeader.bytes ⟨ADD, MESH, char37 uuid⟩ pad1) (by omega)
  obtain ⟨m2, h2⟩ := memcpyTo_some m1 48
    (sMeshHeader.bytes ⟨n, numTriangles, materialID⟩ pad2) (by omega)
  obtain ⟨m3, h3⟩ := memcpyTo_some m2 (48 + 48) (encodeFloats posArr) (by omega)
  obtain ⟨m4, h4⟩ := memcpyTo_some m3 (48 + 48 + 4 * posArr.length) (encodeFloats uvArr)
    (by omega)
  obtain ⟨m5, h5⟩ := memcpyTo_some m4 (48 + 48 + 4 * posArr.length + 4 * uvArr.length)
    (encodeFloats norArr) (by omega)
  refine ⟨m5, ?_, ?_⟩
  · simp only [meshAdd, sizeof_sHeader, sizeof_sMeshHeader, sizeof_float, Nat.zero_add, h1, h2,
      h3, h4, h5, Option.bind_eq_bind, Option.some_bind, Option.some.injEq, Prod.mk.injEq,
      true_and]
    omega
  · -- the mesh header
    have r2 : readBytes (comlibTransfer m5 (48 + 48 + 4 * (3 + 2 + 3) * n) old) 48 48
        = some (sMeshHeader.bytes ⟨n, numTriangles, materialID⟩ pad2) := by
      rw [readBytes_comlibTransfer _ _ _ _ _ (by omega),
        readBytes_memcpyTo_other h5 _ _ (by omega), readBytes_memcpyTo_other h4 _ _ (by omega),
        readBytes_memcpyTo_other h3 _ _ (by omega)]
      have := readBytes_memcpyTo_same h2
      rwa [l2] at this
    have r3 : readBytes (comlibTransfer m5 (48 + 48 + 4 * (3 + 2 + 3) * n) old) (48 + 48)
        (4 * n * 3) = some (encodeFloats posArr) := by
      rw [readBytes_comlibTransfer _ _ _ _ _ (by omega),
        readBytes_memcpyTo_other h5 _ _ (by omega), readBytes_memcpyTo_other h4 _ _ (by omega)]
      have := readBytes_memcpyTo_same h3
      rwa [lp, hpos, show 4 * (3 * n) = 4 * n * 3 by omega] at this
    have r4 : readBytes (comlibTransfer m5 (48 + 48 + 4 * (3 + 2 + 3) * n) old)
        (48 + 48 + 4 * n * 3) (4 * n * 2) = some (encodeFloats uvArr) := by
      rw [readBytes_comlibTransfer _ _ _ _ _ (by omega),
        readBytes_memcpyTo_other h5 _ _ (by omega)]
      have := readBytes_memcpyTo_same h4
      rwa [lu, huv, hpos, show 4 * (2 * n) = 4 * n * 2 by omega,
        show 4 * (3 * n) = 4 * n * 3 by omega] at this
    have r5 : readBytes (comlibTransfer m5 (48 + 48 + 4 * (3 + 2 + 3) * n) old)
        (48 + 48 + 4 * n * 3 + 4 * n * 2) (4 * n * 3) = some (encodeFloats norArr) := by
      rw [readBytes_comlibTransfer _ _ _ _ _ (by omega)]
      have := readBytes_memcpyTo_same h5
      rwa [ln, hnor, huv, hpos, show 4 * (2 * n) = 4 * n * 2 by omega,
        show 4 * (3 * n) = 4 * n * 3 by omega] at this
    have d1 : decodeInt (sMeshHeader.bytes ⟨n, numTriangles, materialID⟩ pad2) = (n : Int) := by
      simp only [sMeshHeader.bytes, List.append_assoc]
      exact decodeInt_encodeInt _ (by omega) (by omega) _
    have d2 : decodeInt ((sMeshHeader.bytes ⟨n, numTriangles, materialID⟩ pad2).drop 4)
        = numTriangles := by
      simp only [sMeshHeader.bytes, List.append_assoc]
      rw [List.drop_append_of_le_length (by simp [encodeInt_length])]
      rw [List.drop_of_length_le (by simp [encodeInt_length]), List.nil_append]
      exact decodeInt_encodeInt _ htri.1 htri.2 _
    have d3 : ((sMeshHeader.bytes ⟨n, numTriangles, materialID⟩ pad2).drop 8).take 37
        = materialID := by
      simp only [sMeshHeader.bytes, List.append_assoc]
      rw [← List.append_assoc (encodeInt _) (encodeInt _), List.drop_append_of_le_length
        (by simp [encodeInt_length])]
      rw [List.drop_of_length_le (by simp [encodeInt_length]), List.nil_append]
      exact take37_pad _ hmat _
    simp only [readMesh, sizeof_sHeader, sizeof_sMeshHeader, sizeof_float, r2, d1, d2, d3,
      Option.bind_eq_bind, Option.some_bind, Int.toNat_ofNat, r3, r4, r5,
      decodeFloats_encodeFloats]
    simp

/-- An invariant that every iteration preserves holds at the loop's exit. -/
theorem forLoop_inv {σ : Type} (size : σ → Nat) (body : Nat → σ → Option σ) (P : σ → Prop)
    (hbody : ∀ i s t, i < size s → P s → body i s = some t → P t) :
    ∀ fuel i s t, P s → forLoop size body fuel i s = some t → P t := by
  intro fuel
  induction fuel with
  | zero =>
    intro i s t hP h
    simp only [forLoop] at h
    split at h
    · cases h
    · cases h; exact hP
  | succ fuel ih =>
    intro i s t hP h
    simp only [forLoop] at h
    split at h
    next hlt =>
      simp only [Option.bind_eq_some] at h
      obtain ⟨u, hu, hrest⟩ := h
      exact ih (i + 1) u t (hbody i s u hlt hP hu) hrest
    next => cases h; exact hP

/-- A loop whose iterations cannot fault and do not grow the vector exits. -/
theorem forLoop_some {σ : Type} (size : σ → Nat) (body : Nat → σ → Option σ) (Q : σ → Prop)
    (hbody : ∀ i s, i < size s → Q s → ∃ t, body i s = some t ∧ Q t ∧ size t ≤ size s) :
    ∀ fuel i s, Q s → size s ≤ i + fuel → ∃ t, forLoop size body fuel i s = some t ∧ Q t := by
  intro fuel
  induction fuel with
  | zero =>
    intro i s hQ hle
    refine ⟨s, ?_, hQ⟩
    simp only [forLoop]
    rw [if_neg (by omega)]
  | succ fuel ih =>
    intro i s hQ hle
    simp only [forLoop]
    split
    next hlt =>
      obtain ⟨u, hu, hQu, hsz⟩ := hbody i s hlt hQ
      obtain ⟨t, ht, hQt⟩ := ih (i + 1) u hQu (by omega)
      exact ⟨t, by simp [hu, ht], hQt⟩
    next => exact ⟨s, rfl, hQ⟩

/-- A loop none of whose iterations changes the state leaves it unchanged. -/
theorem forLoop_id {σ : Type} (size : σ → Nat) (body : Nat → σ → Option σ) (s : σ)
    (hbody : ∀ i, i < size s → body i s = some s) :
    ∀ fuel i, size s ≤ i + fuel → forLoop size body fuel i s = some s := by
  intro fuel
  induction fuel with
  | zero =>
    intro i hle
    simp only [forLoop]
    rw [if_neg (by omega)]
  | succ fuel ih =>
    intro i hle
    simp only [forLoop]
    split
    next hlt => simp [hbody i hlt, ih (i + 1) (by omega)]
    next => rfl

theorem readHeader_some (msg : Buf) : ∃ h, readHeader msg = some h := by
  simp [readHeader, readBytes, sizeof_sHeader, MSGSIZE]

theorem vecAt_mem {α : Type} {v : List α} {i : Nat} {x : α} (h : vecAt v i = some x) : x ∈ v := by
  unfold vecAt at h
  obtain ⟨hi, rfl⟩ := List.getElem?_eq_some.mp h
  exact List.getElem_mem hi

theorem vecAt_some {α : Type} (v : List α) (i : Nat) (h : i < v.length) :
    vecAt v i = some v[i] := by
  simp [vecAt, h]

theorem meshRemoveBody_unknown (h : sHeader) (X : List Byte) (s : State)
    (hid : cstr h.nodeID = some X) (hX : X ∉ s.modelID) (i : Nat) (hi : i < s.modelID.length) :
    meshRemoveBody h i s = some s := by
  have hne : s.modelID[i] ≠ X := fun e => hX (e ▸ List.getElem_mem hi)
  simp [meshRemoveBody, vecAt_some _ _ hi, hid, hne]

theorem transformRemoveBody_unknown (h : sHeader) (X : List Byte) (s : State)
    (hid : cstr h.nodeID = some X) (hX : X ∉ s.transformID) (i : Nat)
    (hi : i < s.transformID.length) : transformRemoveBody h i s = some s := by
  have hne : s.transformID[i] ≠ X := fun e => hX (e ▸ List.getElem_mem hi)
  simp [transformRemoveBody, vecAt_some _ _ hi, hid, hne]

theorem materialRemoveBody_unknown (h : sHeader) (X : List Byte) (s : State)
    (hid : cstr h.nodeID = some X) (hX : X ∉ s.materialID) (i : Nat)
    (hi : i < s.materialID.length) : materialRemoveBody h i s = some s := by
  have hne : s.materialID[i] ≠ X := fun e => hX (e ▸ List.getElem_mem hi)
  simp [materialRemoveBody, vecAt_some _ _ hi, hid, hne]

theorem meshUpdateBody_unknown (h : sHeader) (msg : Buf) (X : List Byte) (s : State)
    (hid : cstr h.nodeID = some X) (hX : X ∉ s.modelID) (i : Nat) (hi : i < s.modelID.length) :
    meshUpdateBody h msg i s = some s := by
  have hne : s.modelID[i] ≠ X := fun e => hX (e ▸ List.getElem_mem hi)
  simp [meshUpdateBody, vecAt_some _ _ hi, hid, hne]

theorem transformUpdateBody_unknown (h : sHeader) (msg : Buf) (X : List Byte) (s : State)
    (hid : cstr h.nodeID = some X) (hX : X ∉ s.transformID) (i : Nat)
    (hi : i < s.transformID.length) : transformUpdateBody h msg i s = some s := by
  have hne : s.transformID[i] ≠ X := fun e => hX (e ▸ List.getElem_mem hi)
  simp [transformUpdateBody, vecAt_some _ _ hi, hid, hne]

/-- A REMOVE whose id is in no entry of its store changes nothing. -/
theorem consume_remove_unknown (s : State) (msg : Buf) (h : sHeader) (X : List Byte)
    (hh : readHeader msg = some h) (hact : h.activity = REMOVE) (hid : cstr h.nodeID = some X)
    (hk : (h.type = MESH ∧ X ∉ s.modelID) ∨ (h.type = TRANSFORM ∧ X ∉ s.transformID) ∨
      (h.type = MATERIAL ∧ X ∉ s.materialID)) :
    consume s msg = some s := by
  rcases hk with ⟨ht, hX⟩ | ⟨ht, hX⟩ | ⟨ht, hX⟩
  · have := forLoop_id (fun t => t.modelID.length) (meshRemoveBody h) s
      (meshRemoveBody_unknown h X s hid hX) s.modelID.length 0 (by simp)
    simp [consume, hh, ht, recvMesh, hact, this, MESH, CAMERA, TRANSFORM, MATERIAL, REMOVE, ADD,
      UPDATE]
  · have := forLoop_id (fun t => t.transformID.length) (transformRemoveBody h) s
      (transformRemoveBody_unknown h X s hid hX) s.transformID.length 0 (by simp)
    simp [consume, hh, ht, recvTransform, hact, this, MESH, CAMERA, TRANSFORM, MATERIAL, REMOVE,
      ADD, UPDATE]
  · have := forLoop_id (fun t => t.materialID.length) (materialRemoveBody h) s
      (materialRemoveBody_unknown h X s hid hX) s.materialID.length 0 (by simp)
    simp [consume, hh, ht, recvMaterial, hact, this, MESH, CAMERA, TRANSFORM, MATERIAL, REMOVE,
      ADD, UPDATE]

/-- A mesh or transform UPDATE whose id is in no entry of its store changes
nothing, and decodes nothing. -/
theorem consume_update_unknown (s : State) (msg : Buf) (h : sHeader) (X : List Byte)
    (hh : readHeader msg = some h) (hact : h.activity = UPDATE) (hid : cstr h.nodeID = some X)
    (hk : (h.type = MESH ∧ X ∉ s.modelID) ∨ (h.type = TRANSFORM ∧ X ∉ s.transformID)) :
    consume s msg = some s := by
  rcases hk with ⟨ht, hX⟩ | ⟨ht, hX⟩
  · have := forLoop_id (fun t => t.modelID.length) (meshUpdateBody h msg) s
      (meshUpdateBody_unknown h msg X s hid hX) s.modelID.length 0 (by simp)
    simp [consume, hh, ht, recvMesh, hact, this, MESH, CAMERA, TRANSFORM, MATERIAL, REMOVE, ADD,
      UPDATE]
  · have := forLoop_id (fun t => t.transformID.length) (transformUpdateBody h msg) s
      (transformUpdateBody_unknown h msg X s hid hX) s.transformID.length 0 (by simp)
    simp [consume, hh, ht, recvTransform, hact, this, MESH, CAMERA, TRANSFORM, MATERIAL, REMOVE,
      ADD, UPDATE]

theorem tryTransform_length (s : State) (i : Nat) :
    (tryTransform s i).length = s.modelArr.length := by
  unfold tryTransform
  split <;> simp

theorem tryMaterial_length (s : State) (i : Nat) :
    (tryMaterial s i).length = s.modelArr.length := by
  unfold tryMaterial
  split <;> simp

theorem renderBody_some (i : Nat) (sd : State × List Model) (hi : i < sd.1.modelArr.length) :
    ∃ t, renderBody i sd = some t ∧ True ∧ t.1.modelArr.length ≤ sd.1.modelArr.length := by
  have hlen : (tryMaterial { sd.1 with modelArr := tryTransform sd.1 i } i).length
      = sd.1.modelArr.length := by
    rw [tryMaterial_length]; exact tryTransform_length sd.1 i
  refine ⟨({ sd.1 with modelArr := tryMaterial { sd.1 with modelArr := tryTransform sd.1 i } i },
    sd.2 ++ [(tryMaterial { sd.1 with modelArr := tryTransform sd.1 i } i)[i]]), ?_, trivial, ?_⟩
  · simp only [renderBody, Option.bind_eq_bind]
    rw [vecAt_some _ _ (by rw [hlen]; exact hi)]
    rfl
  · simp only [hlen]; exact Nat.le_refl _

/-- The render loop exits without a fault in every state. -/
theorem renderPass_some (s : State) : ∃ r, renderPass s = some r := by
  obtain ⟨t, ht, -⟩ := forLoop_some (fun (t : State × List Model) => t.1.modelArr.length)
    renderBody (fun _ => True) (fun i sd hi _ => renderBody_some i sd hi)
    s.modelArr.length 0 (s, []) trivial (by simp)
  exact ⟨t, ht⟩

theorem otherEntries_set_idx (X : List Byte) (v : Int) :
    ∀ (ids : List (List Byte)) (ms : List Model) (ks : List Int) (j : Nat),
      ids[j]? = some X → otherEntries X ids ms (ks.set j v) = otherEntries X ids ms ks := by
  intro ids
  induction ids with
  | nil => intro ms ks j h; simp at h
  | cons id ids ih =>
    intro ms ks j h
    cases ms with
    | nil => cases ks <;> cases j <;> simp [otherEntries]
    | cons m ms =>
      cases ks with
      | nil => simp [otherEntries]
      | cons k ks =>
        cases j with
        | zero =>
          simp only [List.getElem?_cons_zero, Option.some.injEq] at h
          simp [otherEntries, h]
        | succ j =>
          simp only [List.getElem?_cons_succ] at h
          simp [otherEntries, ih ms ks j h]

theorem otherEntries_set_model (X : List Byte) (v : Model) :
    ∀ (ids : List (List Byte)) (ms : List Model) (ks : List Int) (j : Nat),
      ids[j]? = some X → otherEntries X ids (ms.set j v) ks = otherEntries X ids ms ks := by
  intro ids
  induction ids with
  | nil => intro ms ks j h; simp at h
  | cons id ids ih =>
    intro ms ks j h
    cases ms with
    | nil => simp [otherEntries]
    | cons m ms =>
      cases ks with
      | nil => cases j <;> simp [otherEntries]
      | cons k ks =>
        cases j with
        | zero =>
          simp only [List.getElem?_cons_zero, Option.some.injEq] at h
          simp [otherEntries, h]
        | succ j =>
          simp only [List.getElem?_cons_succ] at h
          simp [otherEntries, ih ms ks j h]

theorem otherEntries_eraseIdx (X : List Byte) :
    ∀ (ids : List (List Byte)) (ms : List Model) (ks : List Int) (j : Nat),
      ids[j]? = some X → j < ms.length → j < ks.length →
      otherEntries X (ids.eraseIdx j) (ms.eraseIdx j) (ks.eraseIdx j)
        = otherEntries X ids ms ks := by
  intro ids
  induction ids with
  | nil => intro ms ks j h; simp at h
  | cons id ids ih =>
    intro ms ks j h hm hk
    cases ms with
    | nil => simp at hm
    | cons m ms =>
      cases ks with
      | nil => simp at hk
      | cons k ks =>
        cases j with
        | zero =>
          simp only [List.getElem?_cons_zero, Option.some.injEq] at h
          simp [otherEntries, h]
        | succ j =>
          simp only [List.getElem?_cons_succ] at h
          simp only [List.length_cons, Nat.add_lt_add_iff_right] at hm hk
          simp [otherEntries, ih ms ks j h hm hk]

theorem otherEntries_append (X : List Byte) (m2 : Model) (k2 : Int) :
    ∀ (ids : List (List Byte)) (ms : List Model) (ks : List Int),
      ids.length = ms.length → ms.length = ks.length →
      otherEntries X (ids ++ [X]) (ms ++ [m2]) (ks ++ [k2]) = otherEntries X ids ms ks := by
  intro ids
  induction ids with
  | nil =>
    intro ms ks h1 h2
    cases ms with
    | nil =>
      cases ks with
      | nil => simp [otherEntries]
      | cons k ks => simp at h2
    | cons m ms => simp at h1
  | cons id ids ih =>
    intro ms ks h1 h2
    cases ms with
    | nil => simp at h1
    | cons m ms =>
      cases ks with
      | nil => simp at h2
      | cons k ks =>
        simp only [List.length_cons, Nat.add_right_cancel_iff] at h1 h2
        simp [otherEntries, ih ms ks h1 h2]

theorem MeshStep_refl (X : List Byte) (s : State) (h : Aligned s) : MeshStep X s s :=
  ⟨⟨rfl, rfl, rfl, rfl, rfl⟩, h, rfl, fun _ hk => Or.inl hk⟩

theorem MeshStep_trans {X : List Byte} {s t u : State} (h1 : MeshStep X s t)
    (h2 : MeshStep X t u) : MeshStep X s u := by
  obtain ⟨⟨a1, a2, a3, a4, a5⟩, -, c1, d1⟩ := h1
  obtain ⟨⟨b1, b2, b3, b4, b5⟩, al, c2, d2⟩ := h2
  refine ⟨⟨b1.trans a1, b2.trans a2, b3.trans a3, b4.trans a4, b5.trans a5⟩, al,
    c2.trans c1, ?_⟩
  intro k hk
  rcases d2 k hk with h | h
  · exact d1 k h
  · right; rw [a5] at h; exact h

theorem vecSet_eq {α : Type} {v : List α} {i : Nat} {x : α} {w : List α}
    (h : vecSet v i x = some w) : i < v.length ∧ w = v.set i x := by
  unfold vecSet at h
  split at h
  next hlt => cases h; exact ⟨hlt, rfl⟩
  next => cases h

theorem vecErase_eq {α : Type} {v : List α} {i : Nat} {w : List α}
    (h : vecErase v i = some w) : i < v.length ∧ w = v.eraseIdx i := by
  unfold vecErase at h
  split at h
  next hlt => cases h; exact ⟨hlt, rfl⟩
  next => cases h

theorem mem_set_int {l : List Int} {j : Nat} {v k : Int} (h : k ∈ l.set j v) : k ∈ l ∨ k = v := by
  rcases List.mem_or_eq_of_mem_set h with h | h
  · exact Or.inl h
  · exact Or.inr h

/-- Setting the material index of an entry with id `X` is a mesh step for `X`. -/
theorem MeshStep_set_idx (X : List Byte) (s : State) (j : Nat) (v : Int) (hal : Aligned s)
    (hj : s.modelID[j]? = some X) (hv : 0 ≤ v ∧ v ≤ (s.materialArr.length : Int)) :
    MeshStep X s { s with materialIndexArr := s.materialIndexArr.set j v } := by
  refine ⟨⟨rfl, rfl, rfl, rfl, rfl⟩, ?_, ?_, ?_⟩
  · obtain ⟨a, b, c, d⟩ := hal
    exact ⟨a, by simpa using b, c, d⟩
  · exact otherEntries_set_idx X v _ _ _ j hj
  · intro k hk
    rcases mem_set_int hk with h | h
    · exact Or.inl h
    · exact Or.inr (h ▸ hv)

theorem meshAddInnerBody_step (X : List Byte) (i j : Nat) (s t : State) (hal : Aligned s)
    (hi : i < s.materialArr.length) (h : meshAddInnerBody X i j s = some t) :
    MeshStep X s t ∧ t.modelID = s.modelID ∧ t.modelArr = s.modelArr := by
  simp only [meshAddInnerBody, Option.bind_eq_bind, Option.bind_eq_some] at h
  obtain ⟨idJ, hJ, h⟩ := h
  split at h
  next heq =>
    simp only [Option.bind_eq_some, Option.some.injEq] at h
    obtain ⟨arr, harr, rfl⟩ := h
    obtain ⟨-, rfl⟩ := vecSet_eq harr
    refine ⟨MeshStep_set_idx X s j i hal ?_ ⟨by omega, by omega⟩, rfl, rfl⟩
    rw [heq]; exact hJ
  next =>
    cases h
    exact ⟨MeshStep_refl X s hal, rfl, rfl⟩

theorem meshAddInner_step (X : List Byte) (i : Nat) (s : State) (hal : Aligned s)
    (hi : i < s.materialArr.length) (fuel j : Nat) (t : State)
    (h : forLoop (fun t => t.modelID.length) (meshAddInnerBody X i) fuel j s = some t) :
    MeshStep X s t ∧ t.modelID = s.modelID ∧ t.modelArr = s.modelArr := by
  refine forLoop_inv (fun t => t.modelID.length) (meshAddInnerBody X i)
    (fun t => MeshStep X s t ∧ t.modelID = s.modelID ∧ t.modelArr = s.modelArr) ?_ fuel j s t
    ⟨MeshStep_refl X s hal, rfl, rfl⟩ h
  intro j u w _ hP hb
  obtain ⟨hs, h1, h2⟩ := hP
  have hiu : i < u.materialArr.length := by rw [hs.1.2.2.2.2]; exact hi
  obtain ⟨hs2, h3, h4⟩ := meshAddInnerBody_step X i j u w hs.2.1 hiu hb
  exact ⟨MeshStep_trans hs hs2, h3.trans h1, h4.trans h2⟩

theorem meshAddOuterBody_step (X M : List Byte) (i : Nat) (s t : State) (hal : Aligned s)
    (hi : i < s.materialArr.length) (h : meshAddOuterBody X M i s = some t) :
    MeshStep X s t ∧ t.modelID = s.modelID ∧ t.modelArr = s.modelArr := by
  simp only [meshAddOuterBody, Option.bind_eq_bind, Option.bind_eq_some] at h
  obtain ⟨idI, -, matID, -, h⟩ := h
  split at h
  next => exact meshAddInner_step X i s hal hi _ _ t h
  next =>
    cases h
    exact ⟨MeshStep_refl X s hal, rfl, rfl⟩

theorem meshAddOuter_step (X M : List Byte) (s : State) (hal : Aligned s) (fuel i : Nat)
    (t : State)
    (h : forLoop (fun t => t.materialArr.length) (meshAddOuterBody X M) fuel i s = some t) :
    MeshStep X s t ∧ t.modelID = s.modelID ∧ t.modelArr = s.modelArr := by
  refine forLoop_inv (fun t => t.materialArr.length) (meshAddOuterBody X M)
    (fun t => MeshStep X s t ∧ t.modelID = s.modelID ∧ t.modelArr = s.modelArr) ?_ fuel i s t
    ⟨MeshStep_refl X s hal, rfl, rfl⟩ h
  intro i u w hi hP hb
  obtain ⟨hs, h1, h2⟩ := hP
  obtain ⟨hs2, h3, h4⟩ := meshAddOuterBody_step X M i u w hs.2.1 hi hb
  exact ⟨MeshStep_trans hs hs2, h3.trans h1, h4.trans h2⟩

/-- The effect of the mesh ADD branch. -/
theorem recvMeshAdd_step (s t : State) (h : sHeader) (msg : Buf) (X : List Byte)
    (hal : Aligned s) (hid : cstr h.nodeID = some X) (hr : recvMeshAdd s h msg = some t) :
    MeshStep X s t ∧ t.modelID = s.modelID ++ [X] ∧
    ∃ mh md, readMesh msg = some (mh, md) ∧
      t.modelArr = s.modelArr ++ [addedModel (tempMeshOf mh md)] := by
  simp only [recvMeshAdd, hid, Option.bind_eq_bind, Option.some_bind, Option.bind_eq_some] at hr
  obtain ⟨⟨mh, md⟩, hrm, hr⟩ := hr
  simp only at hr
  have hal0 : Aligned { s with
      modelID := s.modelID ++ [X]
      modelArr := s.modelArr ++ [addedModel (tempMeshOf mh md)]
      materialIndexArr := s.materialIndexArr ++ [0] } := by
    obtain ⟨a, b, c, d⟩ := hal
    exact ⟨by simp [a], by simp [b], c, d⟩
  obtain ⟨hs, h1, h2⟩ := meshAddOuter_step X mh.connectedMatID _ hal0 _ _ t hr
  refine ⟨MeshStep_trans ?_ hs, h1, mh, md, hrm, h2⟩
  refine ⟨⟨rfl, rfl, rfl, rfl, rfl⟩, hal0, ?_, ?_⟩
  · exact otherEntries_append X _ _ _ _ _ hal.1 hal.2.1
  · intro k hk
    simp only [List.mem_append, List.mem_singleton] at hk
    rcases hk with hk | hk
    · exact Or.inl hk
    · right; subst hk; exact ⟨le_refl _, by omega⟩

theorem meshUpdateScanBody_step (X M : List Byte) (i j : Nat) (sf tf : State × Bool)
    (hal : Aligned sf.1) (hX : sf.1.modelID[i]? = some X) (hj : j < sf.1.materialArr.length)
    (h : meshUpdateScanBody M i j sf = some tf) :
    MeshStep X sf.1 tf.1 ∧ tf.1.modelID = sf.1.modelID ∧ tf.1.modelArr = sf.1.modelArr := by
  simp only [meshUpdateScanBody, Option.bind_eq_bind, Option.bind_eq_some] at h
  obtain ⟨idJ, -, matID, -, h⟩ := h
  split at h
  next =>
    simp only [Option.bind_eq_some, Option.some.injEq] at h
    obtain ⟨arr, harr, rfl⟩ := h
    obtain ⟨-, rfl⟩ := vecSet_eq harr
    exact ⟨MeshStep_set_idx X sf.1 i j hal hX ⟨by omega, by omega⟩, rfl, rfl⟩
  next =>
    cases h
    exact ⟨MeshStep_refl X sf.1 hal, rfl, rfl⟩

theorem meshUpdateScan_step (X M : List Byte) (i : Nat) (sf : State × Bool)
    (hal : Aligned sf.1) (hX : sf.1.modelID[i]? = some X) (fuel j : Nat) (tf : State × Bool)
    (h : forLoop (fun (t : State × Bool) => t.1.materialArr.length) (meshUpdateScanBody M i)
      fuel j sf = some tf) :
    MeshStep X sf.1 tf.1 ∧ tf.1.modelID = sf.1.modelID ∧ tf.1.modelArr = sf.1.modelArr := by
  refine forLoop_inv (fun (t : State × Bool) => t.1.materialArr.length)
    (meshUpdateScanBody M i)
    (fun t => MeshStep X sf.1 t.1 ∧ t.1.modelID = sf.1.modelID ∧ t.1.modelArr = sf.1.modelArr)
    ?_ fuel j sf tf ⟨MeshStep_refl X sf.1 hal, rfl, rfl⟩ h
  intro j u w hj hP hb
  obtain ⟨hs, h1, h2⟩ := hP
  obtain ⟨hs2, h3, h4⟩ := meshUpdateScanBody_step X M i j u w hs.2.1 (by rw [h1]; exact hX) hj hb
  exact ⟨MeshStep_trans hs hs2, h3.trans h1, h4.trans h2⟩

theorem meshUpdateBody_step (h : sHeader) (msg : Buf) (X : List Byte) (i : Nat) (s t : State)
    (hal : Aligned s) (hid : cstr h.nodeID = some X) (hb : meshUpdateBody h msg i s = some t) :
    MeshStep X s t ∧ t.modelID = s.modelID := by
  simp only [meshUpdateBody, hid, Option.bind_eq_bind, Option.some_bind, Option.bind_eq_some]
    at hb
  obtain ⟨idI, hI, hb⟩ := hb
  split at hb
  next heq =>
    subst heq
    simp only [Option.bind_eq_some] at hb
    obtain ⟨⟨mh, md⟩, -, arr, harr, ⟨u, f⟩, hscan, hb⟩ := hb
    obtain ⟨hlt, rfl⟩ := vecSet_eq harr
    simp only at hscan hb
    have hX : s.modelID[i]? = some idI := hI
    have hal1 : Aligned { s with
        modelArr := s.modelArr.set i (updatedModel (tempMeshOf mh md)) } := by
      obtain ⟨a, b, c, d⟩ := hal
      exact ⟨by simpa using a, by simpa using b, c, d⟩
    have hs1 : MeshStep idI s { s with
        modelArr := s.modelArr.set i (updatedModel (tempMeshOf mh md)) } :=
      ⟨⟨rfl, rfl, rfl, rfl, rfl⟩, hal1, otherEntries_set_model idI _ _ _ _ i hX,
        fun _ hk => Or.inl hk⟩
    obtain ⟨hs2, h1, h2⟩ := meshUpdateScan_step idI mh.connectedMatID i (_, false) hal1 hX _ _
      (u, f) hscan
    simp only at hs2 h1 h2
    have hs12 := MeshStep_trans hs1 hs2
    split at hb
    next =>
      simp only [Option.bind_eq_some, Option.some.injEq] at hb
      obtain ⟨arr2, harr2, rfl⟩ := hb
      obtain ⟨-, rfl⟩ := vecSet_eq harr2
      refine ⟨MeshStep_trans hs12 (MeshStep_set_idx idI u i _ hs2.2.1 (by rw [h1]; exact hX)
        ⟨by omega, le_refl _⟩), h1⟩
    next =>
      cases hb
      exact ⟨hs12, h1⟩
  next =>
    cases hb
    exact ⟨MeshStep_refl X s hal, rfl⟩

theorem meshRemoveBody_step (h : sHeader) (X : List Byte) (i : Nat) (s t : State)
    (hal : Aligned s) (hid : cstr h.nodeID = some X) (hb : meshRemoveBody h i s = some t) :
    MeshStep X s t := by
  simp only [meshRemoveBody, hid, Option.bind_eq_bind, Option.some_bind, Option.bind_eq_some]
    at hb
  obtain ⟨idI, hI, hb⟩ := hb
  split at hb
  next heq =>
    subst heq
    simp only [Option.bind_eq_some, Option.some.injEq] at hb
    obtain ⟨a, ha, b, hb1, c, hc, rfl⟩ := hb
    obtain ⟨la, rfl⟩ := vecErase_eq ha
    obtain ⟨lb, rfl⟩ := vecErase_eq hb1
    obtain ⟨lc, rfl⟩ := vecErase_eq hc
    refine ⟨⟨rfl, rfl, rfl, rfl, rfl⟩, ?_, ?_, ?_⟩
    · obtain ⟨a1, a2, a3, a4⟩ := hal
      refine ⟨?_, ?_, a3, a4⟩
      · simp only [List.length_eraseIdx, la, lb, if_true]; omega
      · simp only [List.length_eraseIdx, la, lc, if_true]; omega
    · exact otherEntries_eraseIdx idI _ _ _ i hI la lc
    · intro k hk
      exact Or.inl (List.mem_of_mem_eraseIdx hk)
  next =>
    cases hb
    exact MeshStep_refl X s hal

/-- The effect of the MESH branch, whatever the activity. -/
theorem recvMesh_step (s t : State) (h : sHeader) (msg : Buf) (X : List Byte)
    (hal : Aligned s) (hid : cstr h.nodeID = some X) (hr : recvMesh s h msg = some t) :
    MeshStep X s t := by
  simp only [recvMesh, Option.bind_eq_bind, Option.bind_eq_some, Option.some.injEq] at hr
  obtain ⟨s1, h1, s2, h2, s3, h3, rfl⟩ := hr
  have e1 : MeshStep X s s1 := by
    split at h1
    · exact (recvMeshAdd_step s s1 h msg X hal hid h1).1
    · cases h1; exact MeshStep_refl X s hal
  have e2 : MeshStep X s1 s2 := by
    split at h2
    · refine forLoop_inv (fun t => t.modelID.length) (meshUpdateBody h msg)
        (fun t => MeshStep X s1 t) ?_ _ _ s1 s2 (MeshStep_refl X s1 e1.2.1) h2
      intro i u w _ hP hb
      exact MeshStep_trans hP (meshUpdateBody_step h msg X i u w hP.2.1 hid hb).1
    · cases h2; exact MeshStep_refl X s1 e1.2.1
  have e3 : MeshStep X s2 s3 := by
    split at h3
    · refine forLoop_inv (fun t => t.modelID.length) (meshRemoveBody h)
        (fun t => MeshStep X s2 t) ?_ _ _ s2 s3 (MeshStep_refl X s2 e2.2.1) h3
      intro i u w _ hP hb
      exact MeshStep_trans hP (meshRemoveBody_step h X i u w hP.2.1 hid hb)
    · cases h3; exact MeshStep_refl X s2 e2.2.1
  exact MeshStep_trans (MeshStep_trans e1 e2) e3

theorem consume_mesh (s : State) (msg : Buf) (h : sHeader) (hh : readHeader msg = some h)
    (ht : h.type = MESH) : consume s msg = recvMesh s h msg := by
  simp only [consume, hh, ht, Option.bind_eq_bind, Option.some_bind]
  simp only [MESH, CAMERA, TRANSFORM, MATERIAL]
  simp

theorem TransformStep_refl (s : State) : TransformStep s s :=
  ⟨rfl, rfl, rfl, rfl, rfl, rfl, id⟩

theorem TransformStep_trans {s t u : State} (h1 : TransformStep s t) (h2 : TransformStep t u) :
    TransformStep s u := by
  obtain ⟨a1, a2, a3, a4, a5, a6, a7⟩ := h1
  obtain ⟨b1, b2, b3, b4, b5, b6, b7⟩ := h2
  exact ⟨b1.trans a1, b2.trans a2, b3.trans a3, b4.trans a4, b5.trans a5, b6.trans a6,
    fun h => b7 (a7 h)⟩

theorem MaterialStep_refl (s : State) : MaterialStep s s :=
  ⟨rfl, rfl, rfl, rfl, rfl, rfl, id⟩

theorem MaterialStep_trans {s t u : State} (h1 : MaterialStep s t) (h2 : MaterialStep t u) :
    MaterialStep s u := by
  obtain ⟨a1, a2, a3, a4, a5, a6, a7⟩ := h1
  obtain ⟨b1, b2, b3, b4, b5, b6, b7⟩ := h2
  exact ⟨b1.trans a1, b2.trans a2, b3.trans a3, b4.trans a4, b5.trans a5, b6.trans a6,
    fun h => b7 (a7 h)⟩

theorem recvTransformAdd_step (s t : State) (h : sHeader) (msg : Buf)
    (hr : recvTransformAdd s h msg = some t) : TransformStep s t := by
  simp only [recvTransformAdd, Option.bind_eq_bind, Option.bind_eq_some, Option.some.injEq] at hr
  obtain ⟨X, -, tr, -, rfl⟩ := hr
  exact ⟨rfl, rfl, rfl, rfl, rfl, rfl, fun h => by simp [h]⟩

theorem transformUpdateBody_step (h : sHeader) (msg : Buf) (i : Nat) (s t : State)
    (hb : transformUpdateBody h msg i s = some t) :
    TransformStep s t ∧ t.transformID = s.transformID := by
  simp only [transformUpdateBody, Option.bind_eq_bind, Option.bind_eq_some] at hb
  obtain ⟨idI, -, X, -, hb⟩ := hb
  split at hb
  next =>
    simp only [Option.bind_eq_some, Option.some.injEq] at hb
    obtain ⟨tr, -, arr, harr, rfl⟩ := hb
    obtain ⟨-, rfl⟩ := vecSet_eq harr
    exact ⟨⟨rfl, rfl, rfl, rfl, rfl, rfl, fun h => by simpa using h⟩, rfl⟩
  next => cases hb; exact ⟨TransformStep_refl s, rfl⟩

theorem transformRemoveBody_step (h : sHeader) (i : Nat) (s t : State)
    (hb : transformRemoveBody h i s = some t) : TransformStep s t := by
  simp only [transformRemoveBody, Option.bind_eq_bind, Option.bind_eq_some] at hb
  obtain ⟨idI, -, X, -, hb⟩ := hb
  split at hb
  next =>
    simp only [Option.bind_eq_some, Option.some.injEq] at hb
    obtain ⟨a, ha, b, hb1, rfl⟩ := hb
    obtain ⟨la, rfl⟩ := vecErase_eq ha
    obtain ⟨lb, rfl⟩ := vecErase_eq hb1
    refine ⟨rfl, rfl, rfl, rfl, rfl, rfl, fun h => ?_⟩
    simp only [List.length_eraseIdx, la, lb, if_true]; omega
  next => cases hb; exact TransformStep_refl s

/-- The effect of the TRANSFORM branch, whatever the activity. -/
theorem recvTransform_step (s t : State) (h : sHeader) (msg : Buf)
    (hr : recvTransform s h msg = some t) : TransformStep s t := by
  simp only [recvTransform, Option.bind_eq_bind, Option.bind_eq_some, Option.some.injEq] at hr
  obtain ⟨s1, h1, s2, h2, s3, h3, rfl⟩ := hr
  have e1 : TransformStep s s1 := by
    split at h1
    · exact recvTransformAdd_step s s1 h msg h1
    · cases h1; exact TransformStep_refl s
  have e2 : TransformStep s1 s2 := by
    split at h2
    · refine forLoop_inv (fun t => t.transformID.length) (transformUpdateBody h msg)
        (fun t => TransformStep s1 t) ?_ _ _ s1 s2 (TransformStep_refl s1) h2
      intro i u w _ hP hb
      exact TransformStep_trans hP (transformUpdateBody_step h msg i u w hb).1
    · cases h2; exact TransformStep_refl s1
  have e3 : TransformStep s2 s3 := by
    split at h3
    · refine forLoop_inv (fun t => t.transformID.length) (transformRemoveBody h)
        (fun t => TransformStep s2 t) ?_ _ _ s2 s3 (TransformStep_refl s2) h3
      intro i u w _ hP hb
      exact TransformStep_trans hP (transformRemoveBody_step h i u w hb)
    · cases h3; exact TransformStep_refl s2
  exact TransformStep_trans (TransformStep_trans e1 e2) e3

theorem materialAddScanBody_step (h : sHeader) (i : Nat) (sd td : State × Bool)
    (hb : materialAddScanBody h i sd = some td) : td.1 = sd.1 := by
  simp only [materialAddScanBody, Option.bind_eq_bind, Option.bind_eq_some] at hb
  obtain ⟨idI, -, X, -, hb⟩ := hb
  split at hb <;> cases hb <;> rfl

theorem materialAddScan_step (h : sHeader) (fuel i : Nat) (sd td : State × Bool)
    (hl : forLoop (fun (t : State × Bool) => t.1.materialID.length) (materialAddScanBody h)
      fuel i sd = some td) : td.1 = sd.1 := by
  refine forLoop_inv (fun (t : State × Bool) => t.1.materialID.length) (materialAddScanBody h)
    (fun t => t.1 = sd.1) ?_ fuel i sd td rfl hl
  intro i u w _ hP hb
  exact (materialAddScanBody_step h i u w hb).trans hP

theorem materialPushNew_step (h : sHeader) (sm : sMaterial) (s t : State)
    (hr : materialPushNew h sm s = some t) :
    MaterialStep s t ∧ t.materialArr.length = s.materialArr.length + 1 := by
  simp only [materialPushNew, Option.bind_eq_bind, Option.bind_eq_some, Option.some.injEq] at hr
  obtain ⟨X, -, m, -, rfl⟩ := hr
  exact ⟨⟨rfl, rfl, rfl, rfl, rfl, rfl, fun h => by simp [h]⟩, by simp⟩

theorem recvMaterialAdd_step (s t : State) (h : sHeader) (msg : Buf)
    (hr : recvMaterialAdd s h msg = some t) :
    MaterialStep s t ∧ s.materialArr.length ≤ t.materialArr.length := by
  simp only [recvMaterialAdd, Option.bind_eq_bind, Option.bind_eq_some] at hr
  obtain ⟨sm, -, ⟨u, d⟩, hl, hr⟩ := hr
  have hu : u = s := materialAddScan_step h _ _ (s, false) (u, d) hl
  subst hu
  simp only at hr
  split at hr
  · obtain ⟨e1, e2⟩ := materialPushNew_step h sm u t hr
    exact ⟨e1, by omega⟩
  · cases hr; exact ⟨MaterialStep_refl _, le_refl _⟩

theorem materialUpdateBody_step (h : sHeader) (sm : sMaterial) (i : Nat) (sd td : State × Bool)
    (hb : materialUpdateBody h sm i sd = some td) :
    MaterialStep sd.1 td.1 ∧ td.1.materialID = sd.1.materialID ∧
      td.1.materialArr.length = sd.1.materialArr.length := by
  simp only [materialUpdateBody, Option.bind_eq_bind, Option.bind_eq_some] at hb
  obtain ⟨idI, -, X, -, hb⟩ := hb
  split at hb
  next =>
    simp only [Option.bind_eq_some, Option.some.injEq] at hb
    obtain ⟨m, -, m2, -, arr, harr, rfl⟩ := hb
    obtain ⟨-, rfl⟩ := vecSet_eq harr
    exact ⟨⟨rfl, rfl, rfl, rfl, rfl, rfl, fun h => by simpa using h⟩, rfl, by simp⟩
  next => cases hb; exact ⟨MaterialStep_refl _, rfl, rfl⟩

theorem materialUpdate_step (h : sHeader) (sm : sMaterial) (fuel i : Nat) (sd td : State × Bool)
    (hl : forLoop (fun (t : State × Bool) => t.1.materialID.length) (materialUpdateBody h sm)
      fuel i sd = some td) :
    MaterialStep sd.1 td.1 ∧ td.1.materialID = sd.1.materialID ∧
      td.1.materialArr.length = sd.1.materialArr.length := by
  refine forLoop_inv (fun (t : State × Bool) => t.1.materialID.length)
    (materialUpdateBody h sm)
    (fun t => MaterialStep sd.1 t.1 ∧ t.1.materialID = sd.1.materialID ∧
      t.1.materialArr.length = sd.1.materialArr.length) ?_ fuel i sd td
    ⟨MaterialStep_refl _, rfl, rfl⟩ hl
  intro i u w _ hP hb
  obtain ⟨e1, e2, e3⟩ := materialUpdateBody_step h sm i u w hb
  exact ⟨MaterialStep_trans hP.1 e1, e2.trans hP.2.1, e3.trans hP.2.2⟩

theorem recvMaterialUpdate_step (s t : State) (h : sHeader) (msg : Buf)
    (hr : recvMaterialUpdate s h msg = some t) :
    MaterialStep s t ∧ s.materialArr.length ≤ t.materialArr.length := by
  simp only [recvMaterialUpdate, Option.bind_eq_bind, Option.bind_eq_some] at hr
  obtain ⟨sm, -, ⟨u, d⟩, hl, hr⟩ := hr
  obtain ⟨e1, -, e3⟩ := materialUpdate_step h sm _ _ (s, false) (u, d) hl
  simp only at hr e1 e3
  split at hr
  · obtain ⟨f1, f2⟩ := materialPushNew_step h sm u t hr
    exact ⟨MaterialStep_trans e1 f1, by omega⟩
  · cases hr; exact ⟨e1, by omega⟩

theorem materialRemoveBody_step (h : sHeader) (i : Nat) (s t : State)
    (hb : materialRemoveBody h i s = some t) : MaterialStep s t := by
  simp only [materialRemoveBody, Option.bind_eq_bind, Option.bind_eq_some] at hb
  obtain ⟨idI, -, X, -, hb⟩ := hb
  split at hb
  next =>
    simp only [Option.bind_eq_some, Option.some.injEq] at hb
    obtain ⟨a, ha, b, hb1, rfl⟩ := hb
    obtain ⟨la, rfl⟩ := vecErase_eq ha
    obtain ⟨lb, rfl⟩ := vecErase_eq hb1
    refine ⟨rfl, rfl, rfl, rfl, rfl, rfl, fun h => ?_⟩
    simp only [List.length_eraseIdx, la, lb, if_true]; omega
  next => cases hb; exact MaterialStep_refl s

/-- The effect of the MATERIAL branch; without a REMOVE the store does not shrink. -/
theorem recvMaterial_step (s t : State) (h : sHeader) (msg : Buf)
    (hr : recvMaterial s h msg = some t) :
    MaterialStep s t ∧ (h.activity ≠ REMOVE → s.materialArr.length ≤ t.materialArr.length) := by
  simp only [recvMaterial, Option.bind_eq_bind, Option.bind_eq_some, Option.some.injEq] at hr
  obtain ⟨s1, h1, s2, h2, s3, h3, rfl⟩ := hr
  have e1 : MaterialStep s s1 ∧ s.materialArr.length ≤ s1.materialArr.length := by
    split at h1
    · exact recvMaterialAdd_step s s1 h msg h1
    · cases h1; exact ⟨MaterialStep_refl s, le_refl _⟩
  have e2 : MaterialStep s1 s2 ∧ s1.materialArr.length ≤ s2.materialArr.length := by
    split at h2
    · exact recvMaterialUpdate_step s1 s2 h msg h2
    · cases h2; exact ⟨MaterialStep_refl s1, le_refl _⟩
  have e3 : MaterialStep s2 s3 ∧
      (h.activity ≠ REMOVE → s2.materialArr.length ≤ s3.materialArr.length) := by
    split at h3
    next hrem =>
      refine ⟨?_, fun hne => absurd hrem hne⟩
      refine forLoop_inv (fun t => t.materialID.length) (materialRemoveBody h)
        (fun t => MaterialStep s2 t) ?_ _ _ s2 s3 (MaterialStep_refl s2) h3
      intro i u w _ hP hb
      exact MaterialStep_trans hP (materialRemoveBody_step h i u w hb)
    next => cases h3; exact ⟨MaterialStep_refl s2, fun _ => le_refl _⟩
  refine ⟨MaterialStep_trans (MaterialStep_trans e1.1 e2.1) e3.1, fun hne => ?_⟩
  have := e3.2 hne
  omega

theorem recvCamera_step (s t : State) (msg : Buf) (hr : recvCamera s msg = some t) :
    t.modelID = s.modelID ∧ t.modelArr = s.modelArr ∧ t.materialIndexArr = s.materialIndexArr ∧
    t.transformID = s.transformID ∧ t.transformArr = s.transformArr ∧
    t.materialID = s.materialID ∧ t.materialArr = s.materialArr := by
  simp only [recvCamera, Option.bind_eq_bind, Option.bind_eq_some, Option.some.injEq] at hr
  obtain ⟨c, -, rfl⟩ := hr
  exact ⟨rfl, rfl, rfl, rfl, rfl, rfl, rfl⟩

theorem forLoop_body_none {σ : Type} (size : σ → Nat) (body : Nat → σ → Option σ)
    (hbody : ∀ i s, body i s = none) (fuel i : Nat) (s t : σ)
    (h : forLoop size body fuel i s = some t) : t = s := by
  cases fuel with
  | zero =>
    simp only [forLoop] at h
    split at h
    · cases h
    · cases h; rfl
  | succ fuel =>
    simp only [forLoop, hbody, Option.none_bind] at h
    split at h
    · cases h
    · cases h; rfl

theorem recvMesh_noid (s t : State) (h : sHeader) (msg : Buf) (hid : cstr h.nodeID = none)
    (hr : recvMesh s h msg = some t) : t = s := by
  simp only [recvMesh, Option.bind_eq_bind, Option.bind_eq_some, Option.some.injEq] at hr
  obtain ⟨s1, h1, s2, h2, s3, h3, rfl⟩ := hr
  have e1 : s1 = s := by
    split at h1
    · simp [recvMeshAdd, hid] at h1
    · cases h1; rfl
  have e2 : s2 = s1 := by
    split at h2
    · exact forLoop_body_none _ _ (fun i u => by simp [meshUpdateBody, hid]) _ _ _ _ h2
    · cases h2; rfl
  have e3 : s3 = s2 := by
    split at h3
    · exact forLoop_body_none _ _ (fun i u => by simp [meshRemoveBody, hid]) _ _ _ _ h3
    · cases h3; rfl
  rw [e3, e2, e1]

/-- Every result of the MESH branch is a mesh step for some id. -/
theorem recvMesh_step_ex (s t : State) (h : sHeader) (msg : Buf) (hal : Aligned s)
    (hr : recvMesh s h msg = some t) : ∃ X, MeshStep X s t := by
  cases hid : cstr h.nodeID with
  | none =>
    have := recvMesh_noid s t h msg hid hr
    subst this
    exact ⟨[], MeshStep_refl [] _ hal⟩
  | some X => exact ⟨X, recvMesh_step s t h msg X hal hid hr⟩

/-- The four branches of the message loop body. -/
theorem consume_cases (s t : State) (msg : Buf) (hc : consume s msg = some t) :
    ∃ h, readHeader msg = some h ∧
      ((h.type = CAMERA ∧ recvCamera s msg = some t) ∨
       (h.type = MESH ∧ recvMesh s h msg = some t) ∨
       (h.type = TRANSFORM ∧ recvTransform s h msg = some t) ∨
       (h.type = MATERIAL ∧ recvMaterial s h msg = some t) ∨ t = s) := by
  simp only [consume, Option.bind_eq_bind, Option.bind_eq_some, Option.some.injEq] at hc
  obtain ⟨h, hh, s1, h1, s2, h2, s3, h3, s4, h4, rfl⟩ := hc
  refine ⟨h, hh, ?_⟩
  by_cases c1 : h.type = CAMERA
  · have n2 : ¬ h.type = MESH := by rw [c1]; decide
    have n3 : ¬ h.type = TRANSFORM := by rw [c1]; decide
    have n4 : ¬ h.type = MATERIAL := by rw [c1]; decide
    rw [if_pos c1] at h1
    rw [if_neg n2] at h2
    rw [if_neg n3] at h3
    rw [if_neg n4] at h4
    cases h2; cases h3; cases h4
    exact Or.inl ⟨c1, h1⟩
  · rw [if_neg c1] at h1
    cases h1
    by_cases c2 : h.type = MESH
    · have n3 : ¬ h.type = TRANSFORM := by rw [c2]; decide
      have n4 : ¬ h.type = MATERIAL := by rw [c2]; decide
      rw [if_pos c2] at h2
      rw [if_neg n3] at h3
      rw [if_neg n4] at h4
      cases h3; cases h4
      exact Or.inr (Or.inl ⟨c2, h2⟩)
    · rw [if_neg c2] at h2
      cases h2
      by_cases c3 : h.type = TRANSFORM
      · have n4 : ¬ h.type = MATERIAL := by rw [c3]; decide
        rw [if_pos c3] at h3
        rw [if_neg n4] at h4
        cases h4
        exact Or.inr (Or.inr (Or.inl ⟨c3, h3⟩))
      · rw [if_neg c3] at h3
        cases h3
        by_cases c4 : h.type = MATERIAL
        · rw [if_pos c4] at h4
          exact Or.inr (Or.inr (Or.inr (Or.inl ⟨c4, h4⟩)))
        · rw [if_neg c4] at h4
          cases h4
          exact Or.inr (Or.inr (Or.inr (Or.inr rfl)))

/-- The message loop body keeps the parallel vectors aligned. -/
theorem consume_aligned (s t : State) (msg : Buf) (hal : Aligned s)
    (hc : consume s msg = some t) : Aligned t := by
  obtain ⟨h, -, hcase⟩ := consume_cases s t msg hc
  rcases hcase with ⟨-, hr⟩ | ⟨-, hr⟩ | ⟨-, hr⟩ | ⟨-, hr⟩ | rfl
  · obtain ⟨e1, e2, e3, e4, e5, e6, e7⟩ := recvCamera_step s t msg hr
    unfold Aligned at hal ⊢
    rw [e1, e2, e3, e4, e5, e6, e7]; exact hal
  · obtain ⟨X, hs⟩ := recvMesh_step_ex s t h msg hal hr
    exact hs.2.1
  · obtain ⟨-, e2, e3, e4, e5, e6, e7⟩ := recvTransform_step s t h msg hr
    unfold Aligned at hal ⊢
    rw [e2, e3, e4, e5, e6]
    exact ⟨hal.1, hal.2.1, e7 hal.2.2.1, hal.2.2.2⟩
  · obtain ⟨⟨-, e2, e3, e4, e5, e6, e7⟩, -⟩ := recvMaterial_step s t h msg hr
    unfold Aligned at hal ⊢
    rw [e2, e3, e4, e5, e6]
    exact ⟨hal.1, hal.2.1, hal.2.2.1, e7 hal.2.2.2⟩
  · exact hal

theorem initState_aligned : Aligned initState := ⟨rfl, rfl, rfl, rfl⟩

theorem ReachableVia_aligned (allowed : Buf → Prop) (s : State)
    (h : ReachableVia allowed s) : Aligned s := by
  induction h with
  | init => exact initState_aligned
  | step msg _ _ hc ih => exact consume_aligned _ _ msg ih hc

/-- Without a material REMOVE, the message loop body keeps every material
index between 0 and the number of materials. -/
theorem consume_idx_bounded (s t : State) (msg : Buf) (hal : Aligned s)
    (hnr : isMaterialRemove msg = false)
    (hI : ∀ k ∈ s.materialIndexArr, 0 ≤ k ∧ k ≤ (s.materialArr.length : Int))
    (hc : consume s msg = some t) :
    ∀ k ∈ t.materialIndexArr, 0 ≤ k ∧ k ≤ (t.materialArr.length : Int) := by
  obtain ⟨h, hh, hcase⟩ := consume_cases s t msg hc
  rcases hcase with ⟨-, hr⟩ | ⟨-, hr⟩ | ⟨-, hr⟩ | ⟨ht, hr⟩ | rfl
  · obtain ⟨e1, e2, e3, e4, e5, e6, e7⟩ := recvCamera_step s t msg hr
    rw [e3, e7]; exact hI
  · obtain ⟨X, hs⟩ := recvMesh_step_ex s t h msg hal hr
    intro k hk
    rw [hs.1.2.2.2.2]
    rcases hs.2.2.2 k hk with h1 | h1
    · exact hI k h1
    · exact h1
  · obtain ⟨-, e2, e3, e4, e5, e6, e7⟩ := recvTransform_step s t h msg hr
    rw [e4, e6]; exact hI
  · obtain ⟨⟨-, e2, e3, e4, e5, e6, e7⟩, hle⟩ := recvMaterial_step s t h msg hr
    have hne : h.activity ≠ REMOVE := by
      intro he
      simp [isMaterialRemove, hh, ht, he] at hnr
    have := hle hne
    intro k hk
    rw [e4] at hk
    have := hI k hk
    omega
  · exact hI

theorem vecSet_some {α : Type} (v : List α) (i : Nat) (x : α) (h : i < v.length) :
    vecSet v i x = some (v.set i x) := by
  simp [vecSet, h]

theorem meshAddInnerBody_some (X : List Byte) (i j : Nat) (s : State)
    (hj : j < s.modelID.length) (hq : s.modelID.length = s.materialIndexArr.length) :
    ∃ t, meshAddInnerBody X i j s = some t ∧
      t.modelID.length = t.materialIndexArr.length ∧ t.modelID.length ≤ s.modelID.length := by
  simp only [meshAddInnerBody, vecAt_some _ _ hj, Option.bind_eq_bind, Option.some_bind]
  split
  · rw [vecSet_some _ _ _ (by omega)]
    exact ⟨_, rfl, by simpa using hq, le_refl _⟩
  · exact ⟨s, rfl, hq, le_refl _⟩

theorem meshAddInner_some (X : List Byte) (i : Nat) (s : State)
    (hq : s.modelID.length = s.materialIndexArr.length) :
    ∃ t, forLoop (fun t => t.modelID.length) (meshAddInnerBody X i) s.modelID.length 0 s
      = some t := by
  obtain ⟨t, ht, -⟩ := forLoop_some (fun (t : State) => t.modelID.length) (meshAddInnerBody X i)
    (fun t => t.modelID.length = t.materialIndexArr.length)
    (fun j u hj hQ => meshAddInnerBody_some X i j u hj hQ) s.modelID.length 0 s hq (by simp)
  exact ⟨t, ht⟩

theorem meshAddOuterBody_some (X C M : List Byte) (hM : cstr C = some M) (i : Nat) (s : State)
    (hi : i < s.materialArr.length) (hal : Aligned s) :
    ∃ t, meshAddOuterBody X C i s = some t ∧ Aligned t ∧
      t.materialArr.length ≤ s.materialArr.length := by
  have hi2 : i < s.materialID.length := by rw [hal.2.2.2]; exact hi
  simp only [meshAddOuterBody, vecAt_some _ _ hi2, hM, Option.bind_eq_bind, Option.some_bind]
  split
  · obtain ⟨t, ht⟩ := meshAddInner_some X i s (hal.1.trans hal.2.1)
    obtain ⟨hs, -, -⟩ := meshAddInner_step X i s hal hi _ _ t ht
    exact ⟨t, ht, hs.2.1, by rw [hs.1.2.2.2.2]⟩
  · exact ⟨s, rfl, hal, le_refl _⟩

/-- The mesh ADD branch does not fault on aligned stores when the ids are
terminated and the declared arrays lie inside the buffer. -/
theorem recvMeshAdd_some (s : State) (h : sHeader) (msg : Buf) (X M : List Byte)
    (mh : sMeshHeader) (md : sMeshData) (hal : Aligned s) (hid : cstr h.nodeID = some X)
    (hrm : readMesh msg = some (mh, md)) (hM : cstr mh.connectedMatID = some M) :
    ∃ t, recvMeshAdd s h msg = some t := by
  simp only [recvMeshAdd, hid, hrm, Option.bind_eq_bind, Option.some_bind]
  have hal0 : Aligned { s with
      modelID := s.modelID ++ [X]
      modelArr := s.modelArr ++ [addedModel (tempMeshOf mh md)]
      materialIndexArr := s.materialIndexArr ++ [0] } := by
    obtain ⟨a, b, c, d⟩ := hal
    exact ⟨by simp [a], by simp [b], c, d⟩
  obtain ⟨t, ht, -⟩ := forLoop_some (fun (t : State) => t.materialArr.length)
    (meshAddOuterBody X mh.connectedMatID) Aligned
    (fun i u hi hQ => meshAddOuterBody_some X mh.connectedMatID M hM i u hi hQ)
    s.materialArr.length 0 _ hal0 (by simp)
  exact ⟨t, ht⟩

theorem decodeFloats_length (n : Nat) : ∀ bs : List Byte, bs.length = 4 * n →
    (decodeFloats bs).length = n := by
  induction n with
  | zero =>
    intro bs h
    have : bs = [] := List.length_eq_zero.mp (by omega)
    subst this
    simp [decodeFloats]
  | succ n ih =>
    intro bs h
    match bs, h with
    | a :: b :: c :: d :: rest, h =>
      simp only [decodeFloats, List.length_cons]
      rw [ih rest (by simp only [List.length_cons] at h; omega)]

theorem readBytes_some (msg : Buf) (off n : Nat) (h : off + n ≤ MSGSIZE) :
    ∃ bs, readBytes msg off n = some bs ∧ bs.length = n := by
  simp [readBytes, h]

theorem readMesh_some (msg : Buf) (hb : List Byte)
    (hhb : readBytes msg sizeof_sHeader sizeof_sMeshHeader = some hb)
    (h0 : 0 ≤ decodeInt hb)
    (hfit : sizeof_sHeader + sizeof_sMeshHeader + sizeof_float * (3 + 2 + 3) * (decodeInt hb).toNat
      ≤ MSGSIZE) :
    ∃ md, readMesh msg
      = some (⟨decodeInt hb, decodeInt (hb.drop 4), (hb.drop 8).take 37⟩, md) ∧
      md.posXYZ.length = 3 * (decodeInt hb).toNat ∧ md.UV.length = 2 * (decodeInt hb).toNat ∧
      md.norXYZ.length = 3 * (decodeInt hb).toNat := by
  generalize hn : (decodeInt hb).toNat = n at hfit
  simp only [sizeof_sHeader, sizeof_sMeshHeader, sizeof_float] at hhb hfit
  obtain ⟨p, hp, lp⟩ := readBytes_some msg (48 + 48) (4 * n * 3) (by omega)
  obtain ⟨u, hu, lu⟩ := readBytes_some msg (48 + 48 + 4 * n * 3) (4 * n * 2) (by omega)
  obtain ⟨q, hq, lq⟩ := readBytes_some msg (48 + 48 + 4 * n * 3 + 4 * n * 2) (4 * n * 3)
    (by omega)
  refine ⟨⟨decodeFloats p, decodeFloats u, decodeFloats q⟩, ?_, ?_, ?_, ?_⟩
  · simp only [readMesh, sizeof_sHeader, sizeof_sMeshHeader, sizeof_float, hhb,
      Option.bind_eq_bind, Option.some_bind, hn, hp, hu, hq]
    rw [if_neg (by omega)]
  · exact decodeFloats_length _ p (by omega)
  · exact decodeFloats_length _ u (by omega)
  · exact decodeFloats_length _ q (by omega)

theorem recvMesh_add (s : State) (h : sHeader) (msg : Buf) (hact : h.activity = ADD) :
    recvMesh s h msg = recvMeshAdd s h msg := by
  have n1 : ¬ ADD = UPDATE := by decide
  have n2 : ¬ ADD = REMOVE := by decide
  simp only [recvMesh, hact, if_true, if_neg n1, if_neg n2, Option.bind_eq_bind,
    Option.bind_some]

/-- The transport leaves the outcome independent of the message size: a
message followed by the bytes the buffer already held is received alike. -/
theorem receive_append_stale (s : State) (old : Buf) (bytes : List Byte) (k : Nat) :
    receive s old (bytes ++ (List.range k).map (fun j => old (bytes.length + j)))
      = receive s old bytes := by
  unfold receive
  congr 1
  funext i
  simp only [comlibTransfer, List.length_append, List.length_map, List.length_range]
  by_cases h1 : i < bytes.length
  · have h2 : i < bytes.length + k := by omega
    simp only [h1, h2, if_true, List.getD_eq_getElem?_getD]
    rw [List.getElem?_append_left h1]
  · by_cases h2 : i < bytes.length + k
    · simp only [h1, h2, if_true, if_false, List.getD_eq_getElem?_getD]
      rw [List.getElem?_append_right (by omega)]
      have h3 : i - bytes.length < k := by omega
      simp only [List.getElem?_map, List.getElem?_range h3, Option.map_some', Option.getD_some]
      congr 1; omega
    · simp only [h1, h2, if_false]

/-- An invariant that depends on the loop counter: it holds at the exit for a
counter that is not below the size. -/
theorem forLoop_inv_idx {σ : Type} (size : σ → Nat) (body : Nat → σ → Option σ)
    (P : Nat → σ → Prop)
    (hbody : ∀ i s t, i < size s → P i s → body i s = some t → P (i + 1) t) :
    ∀ fuel i s t, P i s → forLoop size body fuel i s = some t →
      ∃ k, P k t ∧ size t ≤ k := by
  intro fuel
  induction fuel with
  | zero =>
    intro i s t hP h
    simp only [forLoop] at h
    split at h
    · cases h
    next hge => cases h; exact ⟨i, hP, by omega⟩
  | succ fuel ih =>
    intro i s t hP h
    simp only [forLoop] at h
    split at h
    next hlt =>
      simp only [Option.bind_eq_some] at h
      obtain ⟨u, hu, hrest⟩ := h
      exact ih (i + 1) u t (hbody i s u hlt hP hu) hrest
    next hge => cases h; exact ⟨i, hP, by omega⟩

/-- When no two neighbouring entries of the mesh store have id X, the mesh
REMOVE loop leaves no entry with id X. -/
theorem meshRemove_removes_all_of_not_adjacent (h : sHeader) (X : List Byte) (s t : State)
    (hid : cstr h.nodeID = some X)
    (hadj : ∀ j, ¬ (s.modelID[j]? = some X ∧ s.modelID[j + 1]? = some X))
    (hl : forLoop (fun t => t.modelID.length) (meshRemoveBody h) s.modelID.length 0 s = some t) :
    X ∉ t.modelID := by
  have hbody : ∀ i (u w : State), i < u.modelID.length →
      ((∀ j, j < i → u.modelID[j]? ≠ some X) ∧
        (∀ j, i ≤ j → ¬ (u.modelID[j]? = some X ∧ u.modelID[j + 1]? = some X))) →
      meshRemoveBody h i u = some w →
      ((∀ j, j < i + 1 → w.modelID[j]? ≠ some X) ∧
        (∀ j, i + 1 ≤ j → ¬ (w.modelID[j]? = some X ∧ w.modelID[j + 1]? = some X))) := by
    intro i u w hi ⟨h1, h2⟩ hb
    simp only [meshRemoveBody, hid, Option.bind_eq_bind, Option.some_bind, Option.bind_eq_some]
      at hb
    obtain ⟨idI, hI, hb⟩ := hb
    have hI2 : u.modelID[i]? = some idI := hI
    split at hb
    next heq =>
      subst heq
      simp only [Option.bind_eq_some, Option.some.injEq] at hb
      obtain ⟨a, -, b, hb1, c, -, rfl⟩ := hb
      obtain ⟨-, rfl⟩ := vecErase_eq hb1
      constructor
      · intro j hj
        simp only [List.getElem?_eraseIdx]
        split
        next hlt => exact h1 j hlt
        next hge =>
          have hji : j = i := by omega
          subst hji
          intro hc
          exact h2 j (le_refl _) ⟨hI2, hc⟩
      · intro j hj hc
        simp only [List.getElem?_eraseIdx] at hc
        rw [if_neg (by omega), if_neg (by omega)] at hc
        exact h2 (j + 1) (by omega) hc
    next hne =>
      cases hb
      constructor
      · intro j hj
        by_cases hji : j = i
        · subst hji
          rw [hI2]
          intro hc
          exact hne (Option.some.inj hc)
        · exact h1 j (by omega)
      · intro j hj
        exact h2 j (by omega)
  obtain ⟨k, ⟨hk1, -⟩, hk2⟩ := forLoop_inv_idx (fun (t : State) => t.modelID.length)
    (meshRemoveBody h)
    (fun i u => (∀ j, j < i → u.modelID[j]? ≠ some X) ∧
      (∀ j, i ≤ j → ¬ (u.modelID[j]? = some X ∧ u.modelID[j + 1]? = some X)))
    hbody s.modelID.length 0 s t ⟨fun j hj => absurd hj (Nat.not_lt_zero j), fun j _ => hadj j⟩ hl
  intro hmem
  obtain ⟨j, hj, hjX⟩ := List.getElem_of_mem hmem
  exact hk1 j (Nat.lt_of_lt_of_le hj hk2) (by rw [List.getElem?_eq_getElem hj, hjX])

/-- A message larger than `MSGSIZE` cannot be laid out by `meshAdd`. -/
theorem meshAdd_none_of_large (msg : Buf) (uuid : List Byte) (numPoints numTriangles : Int)
    (materialID : List Byte) (posArr uvArr norArr : List F32) (pad1 pad2 : List Byte)
    (h : MSGSIZE < sizeof_sHeader + sizeof_sMeshHeader + sizeof_float * posArr.length
      + sizeof_float * uvArr.length + sizeof_float * norArr.length) :
    meshAdd msg uuid numPoints numTriangles materialID posArr uvArr norArr pad1 pad2 = none := by
  cases hm : meshAdd msg uuid numPoints numTriangles materialID posArr uvArr norArr pad1 pad2 with
  | none => rfl
  | some r =>
    obtain ⟨sent, size⟩ := r
    obtain ⟨e1, e2⟩ := meshAdd_msgSize _ _ _ _ _ _ _ _ _ _ sent size hm
    omega

/-- Consuming a list of allowed messages from a reachable state leads to a
reachable state. -/
theorem consumeAll_reachable (allowed : Buf → Prop) :
    ∀ (ms : List Buf) (s t : State), ReachableVia allowed s → (∀ m ∈ ms, allowed m) →
      consumeAll s ms = some t → ReachableVia allowed t := by
  intro ms
  induction ms with
  | nil =>
    intro s t hs _ h
    simp only [consumeAll, Option.some.injEq] at h
    exact h ▸ hs
  | cons m ms ih =>
    intro s t hs hall h
    simp only [consumeAll, Option.bind_eq_some] at h
    obtain ⟨u, hu, hrest⟩ := h
    exact ih u t (ReachableVia.step m hs (hall m (List.mem_cons_self _ _)) hu)
      (fun m2 h2 => hall m2 (List.mem_cons_of_mem _ h2)) hrest

/-- A loop whose iterations cannot fault under an invariant that depends on the
counter exits, with the invariant at a counter not below the size. -/
theorem forLoop_run {σ : Type} (size : σ → Nat) (body : Nat → σ → Option σ)
    (P : Nat → σ → Prop)
    (hbody : ∀ i s, i < size s → P i s →
      ∃ t, body i s = some t ∧ P (i + 1) t ∧ size t ≤ size s) :
    ∀ fuel i s, P i s → size s ≤ i + fuel →
      ∃ t k, forLoop size body fuel i s = some t ∧ P k t ∧ size t ≤ k := by
  intro fuel
  induction fuel with
  | zero =>
    intro i s hP hle
    refine ⟨s, i, ?_, hP, by omega⟩
    simp only [forLoop]
    rw [if_neg (by omega)]
  | succ fuel ih =>
    intro i s hP hle
    simp only [forLoop]
    split
    next hlt =>
      obtain ⟨u, hu, hPu, hsz⟩ := hbody i s hlt hP
      obtain ⟨t, k, ht, hPt, hk⟩ := ih (i + 1) u hPu (by omega)
      exact ⟨t, k, by simp [hu, ht], hPt, hk⟩
    next hge => exact ⟨s, i, rfl, hP, by omega⟩

theorem consume_transform (s : State) (msg : Buf) (h : sHeader) (hh : readHeader msg = some h)
    (ht : h.type = TRANSFORM) : consume s msg = recvTransform s h msg := by
  simp only [consume, hh, ht, Option.bind_eq_bind, Option.some_bind]
  simp only [MESH, CAMERA, TRANSFORM, MATERIAL]
  simp

theorem consume_material (s : State) (msg : Buf) (h : sHeader) (hh : readHeader msg = some h)
    (ht : h.type = MATERIAL) : consume s msg = recvMaterial s h msg := by
  simp only [consume, hh, ht, Option.bind_eq_bind, Option.some_bind]
  simp only [MESH, CAMERA, TRANSFORM, MATERIAL]
  simp

theorem consume_camera (s : State) (msg : Buf) (h : sHeader) (hh : readHeader msg = some h)
    (ht : h.type = CAMERA) : consume s msg = recvCamera s msg := by
  simp only [consume, hh, ht, Option.bind_eq_bind, Option.some_bind]
  simp only [MESH, CAMERA, TRANSFORM, MATERIAL]
  simp

theorem recvMesh_update (s : State) (h : sHeader) (msg : Buf) (hact : h.activity = UPDATE) :
    recvMesh s h msg
      = forLoop (fun t => t.modelID.length) (meshUpdateBody h msg) s.modelID.length 0 s := by
  have n1 : ¬ UPDATE = ADD := by decide
  have n2 : ¬ UPDATE = REMOVE := by decide
  simp only [recvMesh, hact, if_true, if_neg n1, if_neg n2, Option.bind_eq_bind,
    Option.bind_some, Option.some_bind]

theorem recvTransform_add (s : State) (h : sHeader) (msg : Buf) (hact : h.activity = ADD) :
    recvTransform s h msg = recvTransformAdd s h msg := by
  have n1 : ¬ ADD = UPDATE := by decide
  have n2 : ¬ ADD = REMOVE := by decide
  simp only [recvTransform, hact, if_true, if_neg n1, if_neg n2, Option.bind_eq_bind,
    Option.bind_some]

theorem recvTransform_update (s : State) (h : sHeader) (msg : Buf) (hact : h.activity = UPDATE) :
    recvTransform s h msg
      = forLoop (fun t => t.transformID.length) (transformUpdateBody h msg)
          s.transformID.length 0 s := by
  have n1 : ¬ UPDATE = ADD := by decide
  have n2 : ¬ UPDATE = REMOVE := by decide
  simp only [recvTransform, hact, if_true, if_neg n1, if_neg n2, Option.bind_eq_bind,
    Option.bind_some, Option.some_bind]

theorem recvMaterial_add (s : State) (h : sHeader) (msg : Buf) (hact : h.activity = ADD) :
    recvMaterial s h msg = recvMaterialAdd s h msg := by
  have n1 : ¬ ADD = UPDATE := by decide
  have n2 : ¬ ADD = REMOVE := by decide
  simp only [recvMaterial, hact, if_true, if_neg n1, if_neg n2, Option.bind_eq_bind,
    Option.bind_some]

theorem recvMaterial_update (s : State) (h : sHeader) (msg : Buf) (hact : h.activity = UPDATE) :
    recvMaterial s h msg = recvMaterialUpdate s h msg := by
  have n1 : ¬ UPDATE = ADD := by decide
  have n2 : ¬ UPDATE = REMOVE := by decide
  simp only [recvMaterial, hact, if_true, if_neg n1, if_neg n2, Option.bind_eq_bind,
    Option.bind_some, Option.some_bind]

theorem readTransform_some (msg : Buf) : ∃ tr, readTransform msg = some tr := by
  simp [readTransform, readBytes, sizeof_sHeader, sizeof_sTransform, MSGSIZE]

theorem readCamera_some (msg : Buf) : ∃ c, readCamera msg = some c := by
  simp [readCamera, readBytes, sizeof_sHeader, sizeof_sCamera, MSGSIZE]

/-- The transform UPDATE loop on aligned transform vectors: it exits, and every
entry with id X holds the matrix `M` while the others are untouched. -/
theorem transformUpdate_run (h : sHeader) (msg : Buf) (X : List Byte) (tr : sTransform)
    (s : State) (hlen : s.transformID.length = s.transformArr.length)
    (hid : cstr h.nodeID = some X) (htr : readTransform msg = some tr) :
    ∃ t : State, forLoop (fun t => t.transformID.length) (transformUpdateBody h msg)
        s.transformID.length 0 s = some t ∧
      t.transformID = s.transformID ∧ t.transformArr.length = s.transformArr.length ∧
      (∀ j : Nat, s.transformID[j]? = some X → t.transformArr[j]? = some (matrixOf tr)) ∧
      (∀ j : Nat, s.transformID[j]? ≠ some X → t.transformArr[j]? = s.transformArr[j]?) := by
  have hbody : ∀ i (u : State), i < u.transformID.length →
      (u.transformID = s.transformID ∧ u.transformArr.length = s.transformArr.length ∧
        (∀ j, j < i → s.transformID[j]? = some X → u.transformArr[j]? = some (matrixOf tr)) ∧
        (∀ j, (i ≤ j ∨ s.transformID[j]? ≠ some X) → u.transformArr[j]? = s.transformArr[j]?)) →
      ∃ w, transformUpdateBody h msg i u = some w ∧
        (w.transformID = s.transformID ∧ w.transformArr.length = s.transformArr.length ∧
          (∀ j, j < i + 1 → s.transformID[j]? = some X →
            w.transformArr[j]? = some (matrixOf tr)) ∧
          (∀ j, (i + 1 ≤ j ∨ s.transformID[j]? ≠ some X) →
            w.transformArr[j]? = s.transformArr[j]?)) ∧
        w.transformID.length ≤ u.transformID.length := by
    intro i u hi ⟨e1, e2, e3, e4⟩
    have hiA : i < u.transformArr.length := by rw [e2, ← hlen, ← e1]; exact hi
    simp only [transformUpdateBody, vecAt_some _ _ hi, hid, Option.bind_eq_bind,
      Option.some_bind]
    by_cases hm : u.transformID[i] = X
    · rw [if_pos hm]
      simp only [htr, Option.some_bind, vecSet_some _ _ _ hiA]
      refine ⟨_, rfl, ⟨e1, by simpa using e2, ?_, ?_⟩, le_refl _⟩
      · intro j hj hjX
        by_cases hji : j = i
        · subst hji
          simp [List.getElem?_set, hiA]
        · rw [List.getElem?_set_ne (by omega)]
          exact e3 j (by omega) hjX
      · intro j hj
        have hji : i ≠ j := by
          rintro rfl
          rcases hj with hj | hj
          · omega
          · apply hj
            rw [← e1, List.getElem?_eq_getElem hi, hm]
        show (u.transformArr.set i (matrixOf tr))[j]? = s.transformArr[j]?
        rw [List.getElem?_set_ne hji]
        exact e4 j (by rcases hj with hj | hj; exact Or.inl (by omega); exact Or.inr hj)
    · rw [if_neg hm]
      refine ⟨u, rfl, ⟨e1, e2, ?_, ?_⟩, le_refl _⟩
      · intro j hj hjX
        by_cases hji : j = i
        · subst hji
          exfalso; apply hm
          rw [← e1, List.getElem?_eq_getElem hi] at hjX
          exact Option.some.inj hjX
        · exact e3 j (by omega) hjX
      · intro j hj
        exact e4 j (by rcases hj with hj | hj; exact Or.inl (by omega); exact Or.inr hj)
  obtain ⟨t, k, ht, ⟨e1, e2, e3, e4⟩, hk⟩ := forLoop_run (fun (t : State) => t.transformID.length)
    (transformUpdateBody h msg)
    (fun i u => u.transformID = s.transformID ∧
      u.transformArr.length = s.transformArr.length ∧
      (∀ j, j < i → s.transformID[j]? = some X → u.transformArr[j]? = some (matrixOf tr)) ∧
      (∀ j, (i ≤ j ∨ s.transformID[j]? ≠ some X) → u.transformArr[j]? = s.transformArr[j]?))
    hbody s.transformID.length 0 s
    ⟨rfl, rfl, fun j hj => absurd hj (Nat.not_lt_zero j), fun j _ => rfl⟩ (by simp)
  refine ⟨t, ht, e1, e2, ?_, fun j hj => e4 j (Or.inr hj)⟩
  intro j hjX
  have hjlt : j < s.transformID.length := by
    by_contra hge
    rw [List.getElem?_eq_none (by omega)] at hjX
    cases hjX
  exact e3 j (by simp only [e1] at hk; omega) hjX

theorem applyMaterial_zero (sm : sMaterial) (m : Material) (h0 : sm.pathSize = 0) :
    applyMaterial sm m = some { m with color := ⟨.times255 (sm.color.getD 0 ⟨0, 0, 0, 0⟩),
      .times255 (sm.color.getD 1 ⟨0, 0, 0, 0⟩), .times255 (sm.color.getD 2 ⟨0, 0, 0, 0⟩)⟩ } := by
  simp [applyMaterial, h0]

/-- The material UPDATE loop on aligned material vectors, for a message whose
colour and texture statements act as `f`: it exits, every entry with id X is
changed by `f`, the others are untouched, and `duplicate` tells whether an
entry had id X. -/
theorem materialUpdate_run (h : sHeader) (sm : sMaterial) (X : List Byte) (f : Material → Material)
    (s : State) (hlen : s.materialID.length = s.materialArr.length)
    (hid : cstr h.nodeID = some X) (hf : ∀ m, applyMaterial sm m = some (f m)) :
    ∃ t : State × Bool, forLoop (fun (t : State × Bool) => t.1.materialID.length)
        (materialUpdateBody h sm) s.materialID.length 0 (s, false) = some t ∧
      t.1.materialID = s.materialID ∧ t.1.materialArr.length = s.materialArr.length ∧
      (∀ j : Nat, s.materialID[j]? = some X → t.1.materialArr[j]? = (s.materialArr[j]?).map f) ∧
      (∀ j : Nat, s.materialID[j]? ≠ some X → t.1.materialArr[j]? = s.materialArr[j]?) ∧
      (t.2 = true ↔ X ∈ s.materialID) := by
  have hbody : ∀ i (u : State × Bool), i < u.1.materialID.length →
      (u.1.materialID = s.materialID ∧ u.1.materialArr.length = s.materialArr.length ∧
        (∀ j, j < i → s.materialID[j]? = some X →
          u.1.materialArr[j]? = (s.materialArr[j]?).map f) ∧
        (∀ j, (i ≤ j ∨ s.materialID[j]? ≠ some X) → u.1.materialArr[j]? = s.materialArr[j]?) ∧
        (u.2 = true ↔ ∃ j, j < i ∧ s.materialID[j]? = some X)) →
      ∃ w, materialUpdateBody h sm i u = some w ∧
        (w.1.materialID = s.materialID ∧ w.1.materialArr.length = s.materialArr.length ∧
          (∀ j, j < i + 1 → s.materialID[j]? = some X →
            w.1.materialArr[j]? = (s.materialArr[j]?).map f) ∧
          (∀ j, (i + 1 ≤ j ∨ s.materialID[j]? ≠ some X) →
            w.1.materialArr[j]? = s.materialArr[j]?) ∧
          (w.2 = true ↔ ∃ j, j < i + 1 ∧ s.materialID[j]? = some X)) ∧
        w.1.materialID.length ≤ u.1.materialID.length := by
    intro i u hi ⟨e1, e2, e3, e4, e5⟩
    have hiA : i < u.1.materialArr.length := by rw [e2, ← hlen, ← e1]; exact hi
    have hsi : s.materialID[i]? = some u.1.materialID[i] := by
      rw [← e1, List.getElem?_eq_getElem hi]
    simp only [materialUpdateBody, vecAt_some _ _ hi, hid, Option.bind_eq_bind,
      Option.some_bind]
    by_cases hm : u.1.materialID[i] = X
    · rw [if_pos hm]
      simp only [vecAt_some _ _ hiA, hf, Option.some_bind, vecSet_some _ _ _ hiA]
      refine ⟨_, rfl, ⟨e1, by simpa using e2, ?_, ?_, ?_⟩, le_refl _⟩
      · intro j hj hjX
        by_cases hji : j = i
        · subst hji
          have := e4 j (Or.inl (le_refl _))
          rw [List.getElem?_eq_getElem hiA] at this
          simp [List.getElem?_set, hiA, ← this]
        · show (u.1.materialArr.set i (f u.1.materialArr[i]))[j]? = _
          rw [List.getElem?_set_ne (by omega)]
          exact e3 j (by omega) hjX
      · intro j hj
        have hji : i ≠ j := by
          rintro rfl
          rcases hj with hj | hj
          · omega
          · apply hj; rw [hsi, hm]
        show (u.1.materialArr.set i (f u.1.materialArr[i]))[j]? = s.materialArr[j]?
        rw [List.getElem?_set_ne hji]
        exact e4 j (by rcases hj with hj | hj; exact Or.inl (by omega); exact Or.inr hj)
      · simp only [true_iff]
        exact ⟨i, by omega, by rw [hsi, hm]⟩
    · rw [if_neg hm]
      refine ⟨u, rfl, ⟨e1, e2, ?_, ?_, ?_⟩, le_refl _⟩
      · intro j hj hjX
        by_cases hji : j = i
        · subst hji
          exfalso; apply hm
          rw [hsi] at hjX
          exact Option.some.inj hjX
        · exact e3 j (by omega) hjX
      · intro j hj
        exact e4 j (by rcases hj with hj | hj; exact Or.inl (by omega); exact Or.inr hj)
      · rw [e5]
        constructor
        · rintro ⟨j, hj, hjX⟩
          exact ⟨j, by omega, hjX⟩
        · rintro ⟨j, hj, hjX⟩
          by_cases hji : j = i
          · subst hji
            exfalso; apply hm
            rw [hsi] at hjX
            exact Option.some.inj hjX
          · exact ⟨j, by omega, hjX⟩
  obtain ⟨t, k, ht, ⟨e1, e2, e3, e4, e5⟩, hk⟩ := forLoop_run
    (fun (t : State × Bool) => t.1.materialID.length) (materialUpdateBody h sm)
    (fun i u => u.1.materialID = s.materialID ∧
      u.1.materialArr.length = s.materialArr.length ∧
      (∀ j, j < i → s.materialID[j]? = some X →
        u.1.materialArr[j]? = (s.materialArr[j]?).map f) ∧
      (∀ j, (i ≤ j ∨ s.materialID[j]? ≠ some X) → u.1.materialArr[j]? = s.materialArr[j]?) ∧
      (u.2 = true ↔ ∃ j, j < i ∧ s.materialID[j]? = some X))
    hbody s.materialID.length 0 (s, false)
    ⟨rfl, rfl, fun j hj => absurd hj (Nat.not_lt_zero j), fun j _ => rfl,
      by simp⟩ (by simp)
  have hlt : ∀ j : Nat, s.materialID[j]? = some X → j < k := by
    intro j hjX
    have hjlt : j < s.materialID.length := by
      by_contra hge
      rw [List.getElem?_eq_none (by omega)] at hjX
      cases hjX
    simp only [e1] at hk; omega
  refine ⟨t, ht, e1, e2, fun j hjX => e3 j (hlt j hjX) hjX, fun j hj => e4 j (Or.inr hj), ?_⟩
  rw [e5]
  constructor
  · rintro ⟨j, -, hjX⟩
    exact vecAt_mem hjX
  · intro hmem
    obtain ⟨j, hj, hjX⟩ := List.getElem_of_mem hmem
    have : s.materialID[j]? = some X := by rw [List.getElem?_eq_getElem hj, hjX]
    exact ⟨j, hlt j this, this⟩

/-- The duplicate scan of material ADD: it exits with the state unchanged, and
`duplicate` tells whether an entry had id X. -/
theorem materialAddScan_run (h : sHeader) (X : List Byte) (s : State)
    (hid : cstr h.nodeID = some X) :
    ∃ d : Bool, forLoop (fun (t : State × Bool) => t.1.materialID.length)
        (materialAddScanBody h) s.materialID.length 0 (s, false) = some (s, d) ∧
      (d = true ↔ X ∈ s.materialID) := by
  have hbody : ∀ i (u : State × Bool), i < u.1.materialID.length →
      (u.1 = s ∧ (u.2 = true ↔ ∃ j, j < i ∧ s.materialID[j]? = some X)) →
      ∃ w, materialAddScanBody h i u = some w ∧
        (w.1 = s ∧ (w.2 = true ↔ ∃ j, j < i + 1 ∧ s.materialID[j]? = some X)) ∧
        w.1.materialID.length ≤ u.1.materialID.length := by
    intro i u hi ⟨e1, e5⟩
    have hsi : s.materialID[i]? = some u.1.materialID[i] := by
      rw [List.getElem?_eq_getElem (by rw [← e1]; exact hi)]
      simp only [e1]
    simp only [materialAddScanBody, vecAt_some _ _ hi, hid, Option.bind_eq_bind,
      Option.some_bind]
    by_cases hm : u.1.materialID[i] = X
    · rw [if_pos hm]
      refine ⟨_, rfl, ⟨e1, ?_⟩, le_refl _⟩
      simp only [true_iff]
      exact ⟨i, by omega, by rw [hsi, hm]⟩
    · rw [if_neg hm]
      refine ⟨u, rfl, ⟨e1, ?_⟩, le_refl _⟩
      rw [e5]
      constructor
      · rintro ⟨j, hj, hjX⟩
        exact ⟨j, by omega, hjX⟩
      · rintro ⟨j, hj, hjX⟩
        by_cases hji : j = i
        · subst hji
          exfalso; apply hm
          rw [hsi] at hjX
          exact Option.some.inj hjX
        · exact ⟨j, by omega, hjX⟩
  obtain ⟨t, k, ht, ⟨e1, e5⟩, hk⟩ := forLoop_run
    (fun (t : State × Bool) => t.1.materialID.length) (materialAddScanBody h)
    (fun i u => u.1 = s ∧ (u.2 = true ↔ ∃ j, j < i ∧ s.materialID[j]? = some X))
    hbody s.materialID.length 0 (s, false) ⟨rfl, by simp⟩ (by simp)
  obtain ⟨t1, d⟩ := t
  simp only at e1 e5 hk
  subst e1
  refine ⟨d, ht, ?_⟩
  rw [e5]
  constructor
  · rintro ⟨j, -, hjX⟩
    exact vecAt_mem hjX
  · intro hmem
    obtain ⟨j, hj, hjX⟩ := List.getElem_of_mem hmem
    exact ⟨j, by omega, by rw [List.getElem?_eq_getElem hj, hjX]⟩

/-- A material ADD whose id X is in no entry: the new material is pushed back. -/
theorem recvMaterialAdd_new (s : State) (h : sHeader) (msg : Buf) (X : List Byte)
    (sm : sMaterial) (m : Material) (hid : cstr h.nodeID = some X) (hX : X ∉ s.materialID)
    (hrm : readMaterial msg = some sm)
    (hap : applyMaterial sm { LoadMaterialDefault with shader := true } = some m) :
    recvMaterialAdd s h msg = some { s with
      materialID := s.materialID ++ [X], materialArr := s.materialArr ++ [m] } := by
  obtain ⟨d, hl, hd⟩ := materialAddScan_run h X s hid
  have hdf : d = false := by
    cases d with
    | false => rfl
    | true => exact absurd (hd.mp rfl) hX
  subst hdf
  simp only [recvMaterialAdd, hrm, hl, Option.bind_eq_bind, Option.some_bind]
  simp [materialPushNew, hid, hap]

/-- A material ADD whose id X is already in an entry changes nothing. -/
theorem recvMaterialAdd_duplicate (s : State) (h : sHeader) (msg : Buf) (X : List Byte)
    (sm : sMaterial) (hid : cstr h.nodeID = some X) (hX : X ∈ s.materialID)
    (hrm : readMaterial msg = some sm) :
    recvMaterialAdd s h msg = some s := by
  obtain ⟨d, hl, hd⟩ := materialAddScan_run h X s hid
  have hdt : d = true := hd.mpr hX
  subst hdt
  simp only [recvMaterialAdd, hrm, hl, Option.bind_eq_bind, Option.some_bind]
  simp

/-- The material scan of mesh UPDATE when no material has the id M: nothing is
set and `foundMat` stays false. -/
theorem meshUpdateScan_unknown (C M : List Byte) (i : Nat) (s : State)
    (hlen : s.materialID.length = s.materialArr.length) (hC : cstr C = some M)
    (hM : M ∉ s.materialID) :
    forLoop (fun (t : State × Bool) => t.1.materialArr.length) (meshUpdateScanBody C i)
      s.materialArr.length 0 (s, false) = some (s, false) := by
  apply forLoop_id
  · intro j hj
    have hj2 : j < s.materialID.length := by rw [hlen]; exact hj
    have hne : s.materialID[j] ≠ M := fun e => hM (e ▸ List.getElem_mem hj2)
    simp [meshUpdateScanBody, vecAt_some _ _ hj2, hC, hne]
  · simp

/-- The mesh UPDATE loop on aligned stores when the message decodes and its
connected-material id M is in no material entry: it exits, every entry with id
X holds the new model and the number of materials as its index, and the
other entries are untouched. -/
theorem meshUpdate_run_unknown (h : sHeader) (msg : Buf) (X M : List Byte) (mh : sMeshHeader)
    (md : sMeshData) (s : State) (hal : Aligned s) (hid : cstr h.nodeID = some X)
    (hrm : readMesh msg = some (mh, md)) (hC : cstr mh.connectedMatID = some M)
    (hM : M ∉ s.materialID) :
    ∃ t : State, forLoop (fun t => t.modelID.length) (meshUpdateBody h msg)
        s.modelID.length 0 s = some t ∧
      t.modelID = s.modelID ∧
      (∀ j : Nat, s.modelID[j]? = some X →
        t.materialIndexArr[j]? = some (s.materialArr.length : Int) ∧
        t.modelArr[j]? = some (updatedModel (tempMeshOf mh md))) ∧
      (∀ j : Nat, s.modelID[j]? ≠ some X →
        t.materialIndexArr[j]? = s.materialIndexArr[j]? ∧ t.modelArr[j]? = s.modelArr[j]?) := by
  obtain ⟨a1, a2, a3, a4⟩ := hal
  have hbody : ∀ i (u : State), i < u.modelID.length →
      (u.modelID = s.modelID ∧ u.materialID = s.materialID ∧ u.materialArr = s.materialArr ∧
        u.modelArr.length = s.modelArr.length ∧
        u.materialIndexArr.length = s.materialIndexArr.length ∧
        (∀ j, j < i → s.modelID[j]? = some X →
          u.materialIndexArr[j]? = some (s.materialArr.length : Int) ∧
          u.modelArr[j]? = some (updatedModel (tempMeshOf mh md))) ∧
        (∀ j, (i ≤ j ∨ s.modelID[j]? ≠ some X) →
          u.materialIndexArr[j]? = s.materialIndexArr[j]? ∧ u.modelArr[j]? = s.modelArr[j]?)) →
      ∃ w, meshUpdateBody h msg i u = some w ∧
        (w.modelID = s.modelID ∧ w.materialID = s.materialID ∧ w.materialArr = s.materialArr ∧
          w.modelArr.length = s.modelArr.length ∧
          w.materialIndexArr.length = s.materialIndexArr.length ∧
          (∀ j, j < i + 1 → s.modelID[j]? = some X →
            w.materialIndexArr[j]? = some (s.materialArr.length : Int) ∧
            w.modelArr[j]? = some (updatedModel (tempMeshOf mh md))) ∧
          (∀ j, (i + 1 ≤ j ∨ s.modelID[j]? ≠ some X) →
            w.materialIndexArr[j]? = s.materialIndexArr[j]? ∧
            w.modelArr[j]? = s.modelArr[j]?)) ∧
        w.modelID.length ≤ u.modelID.length := by
    intro i u hi ⟨e1, e2, e3, e4, e5, e6, e7⟩
    have hiA : i < u.modelArr.length := by rw [e4, ← a1, ← e1]; exact hi
    have hiK : i < u.materialIndexArr.length := by rw [e5, ← a2, ← a1, ← e1]; exact hi
    have hsi : s.modelID[i]? = some u.modelID[i] := by
      rw [← e1, List.getElem?_eq_getElem hi]
    simp only [meshUpdateBody, vecAt_some _ _ hi, hid, Option.bind_eq_bind, Option.some_bind]
    by_cases hm : u.modelID[i] = X
    · rw [if_pos hm]
      have hscan := meshUpdateScan_unknown mh.connectedMatID M i
        { u with modelArr := u.modelArr.set i (updatedModel (tempMeshOf mh md)) }
        (by simp only [e2, e3]; exact a4) hC (by simp only [e2]; exact hM)
      simp only [hrm, Option.some_bind, vecSet_some _ _ _ hiA, hscan, Bool.not_false, if_true,
        vecSet_some _ _ _ hiK]
      refine ⟨_, rfl, ⟨e1, e2, e3, by simpa using e4, by simpa using e5, ?_, ?_⟩, le_refl _⟩
      · intro j hj hjX
        by_cases hji : j = i
        · subst hji
          simp [List.getElem?_set, hiA, hiK, e3]
        · have hne : i ≠ j := fun e => hji e.symm
          simp only [List.getElem?_set_ne hne]
          exact e6 j (by omega) hjX
      · intro j hj
        have hji : i ≠ j := by
          rintro rfl
          rcases hj with hj | hj
          · omega
          · apply hj; rw [hsi, hm]
        simp only [List.getElem?_set_ne hji]
        exact e7 j (by rcases hj with hj | hj; exact Or.inl (by omega); exact Or.inr hj)
    · rw [if_neg hm]
      refine ⟨u, rfl, ⟨e1, e2, e3, e4, e5, ?_, ?_⟩, le_refl _⟩
      · intro j hj hjX
        by_cases hji : j = i
        · subst hji
          exfalso; apply hm
          rw [hsi] at hjX
          exact Option.some.inj hjX
        · exact e6 j (by omega) hjX
      · intro j hj
        exact e7 j (by rcases hj with hj | hj; exact Or.inl (by omega); exact Or.inr hj)
  obtain ⟨t, k, ht, ⟨e1, e2, e3, e4, e5, e6, e7⟩, hk⟩ := forLoop_run
    (fun (t : State) => t.modelID.length) (meshUpdateBody h msg)
    (fun i u => u.modelID = s.modelID ∧ u.materialID = s.materialID ∧
      u.materialArr = s.materialArr ∧ u.modelArr.length = s.modelArr.length ∧
      u.materialIndexArr.length = s.materialIndexArr.length ∧
      (∀ j, j < i → s.modelID[j]? = some X →
        u.materialIndexArr[j]? = some (s.materialArr.length : Int) ∧
        u.modelArr[j]? = some (updatedModel (tempMeshOf mh md))) ∧
      (∀ j, (i ≤ j ∨ s.modelID[j]? ≠ some X) →
        u.materialIndexArr[j]? = s.materialIndexArr[j]? ∧ u.modelArr[j]? = s.modelArr[j]?))
    hbody s.modelID.length 0 s
    ⟨rfl, rfl, rfl, rfl, rfl, fun j hj => absurd hj (Nat.not_lt_zero j), fun j _ => ⟨rfl, rfl⟩⟩
    (by simp)
  refine ⟨t, ht, e1, ?_, fun j hj => e7 j (Or.inr hj)⟩
  intro j hjX
  have hjlt : j < s.modelID.length := by
    by_contra hge
    rw [List.getElem?_eq_none (by omega)] at hjX
    cases hjX
  exact e6 j (by simp only [e1] at hk; omega) hjX

/-! ### The producer's buffer and the bytes sent -/

/-- After a `memcpy` to offset `off`, the buffer up to the end of the copy is
what it held before `off`, followed by the bytes copied. -/
theorem prefix_memcpyTo {msg msg2 : Buf} {off : Nat} {src : List Byte}
    (h : memcpyTo msg off src = some msg2) :
    (List.range (off + src.length)).map msg2 = (List.range off).map msg ++ src := by
  unfold memcpyTo at h
  split at h
  next hle =>
    cases h
    apply List.ext_getElem
    · simp
    · intro k h1 h2
      simp only [List.length_map, List.length_range] at h1
      simp only [List.getElem_map, List.getElem_range]
      by_cases hk : k < off
      · rw [List.getElem_append_left (by simpa using hk)]
        simp [hk, Nat.not_le.mpr hk]
      · rw [List.getElem_append_right (by simpa using hk)]
        have : off ≤ k ∧ k < off + src.length := by omega
        simp only [this, and_self, if_true, List.length_map, List.length_range]
        rw [List.getD_eq_getElem?_getD, List.getElem?_eq_getElem (by omega)]
        rfl
  next => cases h

/-- The bytes of a range of a delivered message. -/
theorem readBytes_delivered (a b c : List Byte) (old : Buf)
    (hle : a.length + b.length ≤ MSGSIZE) :
    readBytes (comlibTransfer (bufOf (a ++ b ++ c)) (a ++ b ++ c).length old) a.length b.length
      = some b := by
  simp only [readBytes, hle, if_true, Option.some.injEq]
  apply List.ext_getElem
  · simp
  · intro k h1 h2
    have h3 : a.length + k < (a ++ b ++ c).length := by simp; omega
    simp only [List.getElem_map, List.getElem_range, comlibTransfer, h3, if_true, bufOf]
    rw [List.getD_eq_getElem?_getD, List.getElem?_eq_getElem h3]
    simp only [Option.getD_some]
    rw [List.getElem_append_left (by simp; omega), List.getElem_append_right (by omega)]
    simp

/-- The header read from a buffer that starts with the bytes of a header. -/
theorem readHeader_of_bytes (msg : Buf) (a t : Int) (id pad : List Byte)
    (ha : -2147483648 ≤ a ∧ a < 2147483648) (ht : -2147483648 ≤ t ∧ t < 2147483648)
    (hid : id.length = 37)
    (h : readBytes msg 0 sizeof_sHeader = some ((sHeader.mk a t id).bytes pad)) :
    readHeader msg = some ⟨a, t, id⟩ := by
  have d1 : decodeInt ((sHeader.mk a t id).bytes pad) = a := by
    simp only [sHeader.bytes, List.append_assoc]
    exact decodeInt_encodeInt _ ha.1 ha.2 _
  have d2 : decodeInt (((sHeader.mk a t id).bytes pad).drop 4) = t := by
    simp only [sHeader.bytes, List.append_assoc]
    rw [List.drop_append_of_le_length (by simp [encodeInt_length])]
    rw [List.drop_of_length_le (by simp [encodeInt_length]), List.nil_append]
    exact decodeInt_encodeInt _ ht.1 ht.2 _
  have d3 : (((sHeader.mk a t id).bytes pad).drop 8).take 37 = id := by
    simp only [sHeader.bytes, List.append_assoc]
    rw [← List.append_assoc (encodeInt _) (encodeInt _), List.drop_append_of_le_length
      (by simp [encodeInt_length])]
    rw [List.drop_of_length_le (by simp [encodeInt_length]), List.nil_append]
    exact take37_pad _ hid _
  simp only [readHeader, h, Option.bind_eq_bind, Option.some_bind, d1, d2, d3]

theorem char37_length (s : List Byte) : (char37 s).length = 37 := by
  simp [char37]

theorem sTransform_bytes_length (t : sTransform) : t.bytes.length = 64 := by
  simp [sTransform.bytes, encodeFloats_length]

/-- Reading back the bytes of an `sTransform` gives the struct. -/
theorem readTransform_of_bytes (msg : Buf) (t : sTransform)
    (h : readBytes msg sizeof_sHeader sizeof_sTransform = some t.bytes) :
    readTransform msg = some t := by
  simp only [readTransform, h, Option.bind_eq_bind, Option.some_bind, sTransform.bytes,
    decodeFloats_encodeFloats]
  rfl

/-- `transformSend` cannot fault: it appends the 112 bytes of the message to
what was sent. -/
theorem transformSend_sent (activity : Int) (uuid : List Byte) (matrix : Fin 4 → Fin 4 → F32)
    (pad : List Byte) (p : Producer) :
    ∃ q, transformSend activity uuid matrix pad p = some q ∧
      q.sent = p.sent ++ [transformBytes activity uuid matrix pad] := by
  have l1 := sHeader_bytes_length ⟨activity, TRANSFORM, char37 uuid⟩ pad
  have l2 := sTransform_bytes_length (transformDataOf matrix)
  have hM : MSGSIZE = 5242880 := by decide
  obtain ⟨m1, h1⟩ := memcpyTo_some p.msg 0
    (sHeader.bytes ⟨activity, TRANSFORM, char37 uuid⟩ pad) (by omega)
  obtain ⟨m2, h2⟩ := memcpyTo_some m1 48 (transformDataOf matrix).bytes (by omega)
  have e1 := prefix_memcpyTo h1
  have e2 := prefix_memcpyTo h2
  rw [l1] at e1
  rw [l2] at e2
  simp only [Nat.zero_add, List.range_zero, List.map_nil, List.nil_append] at e1
  rw [e1] at e2
  refine ⟨comlibSend { p with msg := m2 } (48 + 64), ?_, ?_⟩
  · simp only [transformSend, sizeof_sHeader, sizeof_sTransform, Nat.zero_add, h1, h2,
      Option.bind_eq_bind, Option.some_bind]
  · simp only [comlibSend, transformBytes]
    rw [e2]

/-- The consumer's decoding of a delivered transform message. -/
theorem transformBytes_decode (activity : Int) (uuid : List Byte) (matrix : Fin 4 → Fin 4 → F32)
    (pad : List Byte) (old : Buf) :
    readTransform (comlibTransfer (bufOf (transformBytes activity uuid matrix pad))
      (transformBytes activity uuid matrix pad).length old) = some (transformDataOf matrix) := by
  apply readTransform_of_bytes
  have l1 := sHeader_bytes_length ⟨activity, TRANSFORM, char37 uuid⟩ pad
  have l2 := sTransform_bytes_length (transformDataOf matrix)
  have := readBytes_delivered (sHeader.bytes ⟨activity, TRANSFORM, char37 uuid⟩ pad)
    (transformDataOf matrix).bytes [] old (by rw [l1, l2]; decide)
  rw [l1, l2, List.append_nil] at this
  exact this

/-- The header the consumer reads from a delivered transform message. -/
theorem transformBytes_header (activity : Int) (uuid : List Byte) (matrix : Fin 4 → Fin 4 → F32)
    (pad : List Byte) (old : Buf)
    (ha : -2147483648 ≤ activity ∧ activity < 2147483648) :
    readHeader (comlibTransfer (bufOf (transformBytes activity uuid matrix pad))
      (transformBytes activity uuid matrix pad).length old)
      = some ⟨activity, TRANSFORM, char37 uuid⟩ := by
  apply readHeader_of_bytes _ _ _ _ pad ha (by decide) (char37_length uuid)
  have l1 := sHeader_bytes_length ⟨activity, TRANSFORM, char37 uuid⟩ pad
  have := readBytes_delivered [] (sHeader.bytes ⟨activity, TRANSFORM, char37 uuid⟩ pad)
    (transformDataOf matrix).bytes old (by rw [l1]; decide)
  rw [l1, List.nil_append] at this
  exact this

/-- The fields of the matrix the consumer builds from the producer's
`transformData`: field `m(4 r + c)` is `matrix[r][c]`. -/
theorem matrixOf_transformDataOf (matrix : Fin 4 → Fin 4 → F32) (r c : Fin 4) :
    (matrixOf (transformDataOf matrix)).field (4 * r.val + c.val) = matrix r c := by
  fin_cases r <;> fin_cases c <;> rfl

theorem and_sum_ne_zero_left (m : Nat) (h : m &&& kAttributeEval ≠ 0) :
    m &&& (kAttributeEval + kIncomingDirection) ≠ 0 := by
  intro h0
  apply h
  apply Nat.eq_of_testBit_eq
  intro i
  have := congrArg (fun x => Nat.testBit x i) h0
  simp only [Nat.testBit_and, Nat.zero_testBit, Bool.and_eq_false_imp] at this ⊢
  intro hm
  have h2 := this hm
  by_cases hi : i = 2
  · subst hi; revert h2; decide
  · have : Nat.testBit kAttributeEval i = false := by
      show Nat.testBit 4 i = false
      rw [show (4 : Nat) = 2 ^ 2 from rfl, Nat.testBit_two_pow]
      simp; omega
    exact this

theorem decodeInt_append (v : Int) (rest : List Byte) :
    decodeInt (encodeInt v ++ rest) = decodeInt (encodeInt v) := by
  simp [decodeInt, encodeInt]

theorem comlibTransfer_bufOf_range (sent old : Buf) (size : Nat) :
    comlibTransfer (bufOf ((List.range size).map sent)) ((List.range size).map sent).length old
      = comlibTransfer sent size old := by
  funext i
  simp only [comlibTransfer, List.length_map, List.length_range, bufOf]
  split
  next h => simp [List.getD_eq_getElem?_getD, h]
  next => rfl

/-! ### Transform propagation -/

mutual
/-- `transformUpdate` cannot fault: it sends one UPDATE for each transform due,
in order. -/
theorem transformUpdate_sent : ∀ (node : DagNode) (pad : List Byte) (p : Producer),
    ∃ q, transformUpdate node pad p = some q ∧
      q.sent = p.sent ++ (transformsBelow node).map
        (fun e => transformBytes UPDATE e.1 e.2 pad)
  | .transform uuid matrix children, pad, p => by
    obtain ⟨q1, h1, e1⟩ := transformSend_sent UPDATE uuid matrix pad p
    obtain ⟨q2, h2, e2⟩ := transformUpdateChildren_sent children pad q1
    refine ⟨q2, ?_, ?_⟩
    · simp only [transformUpdate, h1, Option.some_bind, h2]
    · rw [e2, e1]
      simp [transformsBelow]
  | .other, pad, p => ⟨p, by simp [transformUpdate, transformsBelow]⟩
/-- The loop over the children cannot fault either. -/
theorem transformUpdateChildren_sent : ∀ (cs : List DagNode) (pad : List Byte) (p : Producer),
    ∃ q, transformUpdateChildren cs pad p = some q ∧
      q.sent = p.sent ++ (transformsBelowAll cs).map
        (fun e => transformBytes UPDATE e.1 e.2 pad)
  | [], pad, p => ⟨p, by simp [transformUpdateChildren, transformsBelowAll]⟩
  | c :: cs, pad, p => by
    obtain ⟨q1, h1, e1⟩ := transformUpdate_sent c pad p
    obtain ⟨q2, h2, e2⟩ := transformUpdateChildren_sent cs pad q1
    refine ⟨q2, ?_, ?_⟩
    · simp only [transformUpdateChildren, h1, Option.some_bind, h2]
    · rw [e2, e1]
      simp [transformsBelowAll]
end

/-! ### Removal -/

/-- `removeSend` cannot fault: it appends the 48 bytes of the header. -/
theorem removeSend_sent (type : Int) (uuid pad : List Byte) (p : Producer) :
    ∃ q, removeSend type uuid pad p = some q ∧
      q.sent = p.sent ++ [(sHeader.mk REMOVE type (char37 uuid)).bytes pad] := by
  have l1 := sHeader_bytes_length ⟨REMOVE, type, char37 uuid⟩ pad
  have hM : MSGSIZE = 5242880 := by decide
  obtain ⟨m1, h1⟩ := memcpyTo_some p.msg 0
    (sHeader.bytes ⟨REMOVE, type, char37 uuid⟩ pad) (by omega)
  have e1 := prefix_memcpyTo h1
  rw [l1] at e1
  simp only [Nat.zero_add, List.range_zero, List.map_nil, List.nil_append] at e1
  refine ⟨comlibSend { p with msg := m1 } 48, ?_, ?_⟩
  · simp only [removeSend, sizeof_sHeader, h1, Option.bind_eq_bind, Option.some_bind]
  · simp only [comlibSend]
    rw [e1]

/-- The loop of `meshRemove` over the shading groups cannot fault: it sends one
material REMOVE, bearing the shading group's own UUID, for every shading group
`MMaterial` attaches to. -/
theorem materialRemoveAll_sent : ∀ (ses : List ShadingNode) (pad : List Byte) (p : Producer),
    ∃ q, materialRemoveAll ses pad p = some q ∧
      q.sent = p.sent ++ (ses.filter (fun se => se.mmaterial)).map
        (fun se => (sHeader.mk REMOVE MATERIAL (char37 se.uuid)).bytes pad)
  | [], pad, p => ⟨p, by simp [materialRemoveAll]⟩
  | se :: ses, pad, p => by
    by_cases hm : se.mmaterial = true
    · obtain ⟨q1, h1, e1⟩ := removeSend_sent MATERIAL se.uuid pad p
      obtain ⟨q2, h2, e2⟩ := materialRemoveAll_sent ses pad q1
      refine ⟨q2, ?_, ?_⟩
      · simp only [materialRemoveAll, materialRemove, hm, if_true, h1, Option.some_bind, h2]
      · rw [e2, e1]
        simp [List.filter_cons, hm]
    · obtain ⟨q2, h2, e2⟩ := materialRemoveAll_sent ses pad p
      refine ⟨q2, ?_, ?_⟩
      · simp only [materialRemoveAll, materialRemove, hm, if_false, Option.some_bind, h2]
        simp [h2]
      · rw [e2]
        simp [List.filter_cons, hm]

/-! ### Geometry extraction -/

theorem fetchPoints_fold (face : Face) : ∀ (pts : List Corner) (acc : MeshFetch),
    (pts.foldl (fetchPoint face) acc).numPoints = acc.numPoints ∧
    (pts.foldl (fetchPoint face) acc).numTriangles = acc.numTriangles ∧
    (pts.foldl (fetchPoint face) acc).posArr.length = acc.posArr.length + 3 * pts.length ∧
    (pts.foldl (fetchPoint face) acc).uvArr.length = acc.uvArr.length + 2 * pts.length ∧
    (pts.foldl (fetchPoint face) acc).norArr.length = acc.norArr.length + 3 * pts.length
  | [], acc => by simp
  | pt :: pts, acc => by
    obtain ⟨h1, h2, h3, h4, h5⟩ := fetchPoints_fold face pts (fetchPoint face acc pt)
    simp only [List.foldl_cons, List.length_cons]
    rw [h1, h2, h3, h4, h5]
    simp only [fetchPoint, List.length_append, List.length_cons, List.length_nil]
    refine ⟨trivial, trivial, ?_, ?_, ?_⟩ <;> omega

theorem fetchFace_counts (acc : MeshFetch) (face : Face) :
    (fetchFace acc face).numPoints = acc.numPoints + (face.points.length : Int) ∧
    (fetchFace acc face).posArr.length = acc.posArr.length + 3 * face.points.length ∧
    (fetchFace acc face).uvArr.length = acc.uvArr.length + 2 * face.points.length ∧
    (fetchFace acc face).norArr.length = acc.norArr.length + 3 * face.points.length := by
  obtain ⟨h1, -, h3, h4, h5⟩ := fetchPoints_fold face face.points
    { acc with numTriangles := acc.numTriangles + face.numTriangles
               numPoints := acc.numPoints + (face.points.length : Int) }
  exact ⟨h1, h3, h4, h5⟩

theorem fetchFaces_fold : ∀ (faces : List Face) (acc : MeshFetch),
    (faces.foldl fetchFace acc).numPoints = acc.numPoints + (totalCorners faces : Int) ∧
    (faces.foldl fetchFace acc).posArr.length = acc.posArr.length + 3 * totalCorners faces ∧
    (faces.foldl fetchFace acc).uvArr.length = acc.uvArr.length + 2 * totalCorners faces ∧
    (faces.foldl fetchFace acc).norArr.length = acc.norArr.length + 3 * totalCorners faces
  | [], acc => by simp [totalCorners]
  | face :: faces, acc => by
    obtain ⟨h1, h2, h3, h4⟩ := fetchFaces_fold faces (fetchFace acc face)
    obtain ⟨g1, g2, g3, g4⟩ := fetchFace_counts acc face
    have ht : totalCorners (face :: faces) = face.points.length + totalCorners faces := by
      simp [totalCorners]
    simp only [List.foldl_cons]
    rw [h1, h2, h3, h4, g1, g2, g3, g4, ht]
    refine ⟨?_, ?_, ?_, ?_⟩
    · push_cast; omega
    · omega
    · omega
    · omega

/-- What the face loop leaves: `numPoints` is the number of corners, and the
arrays hold 3, 2 and 3 floats per corner. -/
theorem meshFetch_counts (faces : List Face) :
    (meshFetch faces).numPoints = (totalCorners faces : Int) ∧
    (meshFetch faces).posArr.length = 3 * totalCorners faces ∧
    (meshFetch faces).uvArr.length = 2 * totalCorners faces ∧
    (meshFetch faces).norArr.length = 3 * totalCorners faces := by
  obtain ⟨h1, h2, h3, h4⟩ := fetchFaces_fold faces ⟨0, 0, [], [], []⟩
  simp only [meshFetch]
  rw [h1, h2, h3, h4]
  simp

theorem fetchMaterialID_fold : ∀ (ses : List ShadingNode) (id : List Byte), id.length = 37 →
    (ses.foldl (fun materialID se =>
      match se.surfaceShader with
      | some mat => char37 mat.uuid
      | none => materialID) id).length = 37
  | [], id, h => by simpa using h
  | se :: ses, id, h => by
    simp only [List.foldl_cons]
    apply fetchMaterialID_fold ses
    cases se.surfaceShader with
    | none => exact h
    | some mat => exact char37_length _

theorem fetchMaterialID_length (ses : List ShadingNode) : (fetchMaterialID ses).length = 37 :=
  fetchMaterialID_fold ses _ (by simp)

/-! ### The mesh message -/

/-- Within the buffer, the layout shared by `meshAdd` and `meshUpdate` succeeds
and the consumer's decoding returns what was laid out (the triangle count as
the `int` its four bytes hold). -/
theorem meshLayout_roundtrip (activity : Int) (msg old : Buf) (uuid materialID : List Byte)
    (n : Nat) (numTriangles : Int) (posArr uvArr norArr : List F32) (pad1 pad2 : List Byte)
    (hfit : sizeof_sHeader + sizeof_sMeshHeader + sizeof_float * (3 + 2 + 3) * n ≤ MSGSIZE)
    (hmat : materialID.length = 37)
    (hpos : posArr.length = 3 * n) (huv : uvArr.length = 2 * n) (hnor : norArr.length = 3 * n) :
    ∃ sent,
      meshLayout activity msg uuid n numTriangles materialID posArr uvArr norArr pad1 pad2
        = some (sent, sizeof_sHeader + sizeof_sMeshHeader + sizeof_float * (3 + 2 + 3) * n) ∧
      readMesh (comlibTransfer sent
          (sizeof_sHeader + sizeof_sMeshHeader + sizeof_float * (3 + 2 + 3) * n) old)
        = some (⟨n, decodeInt (encodeInt numTriangles), materialID⟩,
            ⟨posArr, uvArr, norArr⟩) := by
  have hM : MSGSIZE = 5242880 := by decide
  simp only [sizeof_sHeader, sizeof_sMeshHeader, sizeof_float] at hfit ⊢
  have lp := encodeFloats_length posArr
  have lu := encodeFloats_length uvArr
  have ln := encodeFloats_length norArr
  have l1 := sHeader_bytes_length ⟨activity, MESH, char37 uuid⟩ pad1
  have l2 := sMeshHeader_bytes_length ⟨n, numTriangles, materialID⟩ pad2
  obtain ⟨m1, h1⟩ := memcpyTo_some msg 0 (sHeader.bytes ⟨activity, MESH, char37 uuid⟩ pad1)
    (by omega)
  obtain ⟨m2, h2⟩ := memcpyTo_some m1 48
    (sMeshHeader.bytes ⟨n, numTriangles, materialID⟩ pad2) (by omega)
  obtain ⟨m3, h3⟩ := memcpyTo_some m2 (48 + 48) (encodeFloats posArr) (by omega)
  obtain ⟨m4, h4⟩ := memcpyTo_some m3 (48 + 48 + 4 * posArr.length) (encodeFloats uvArr)
    (by omega)
  obtain ⟨m5, h5⟩ := memcpyTo_some m4 (48 + 48 + 4 * posArr.length + 4 * uvArr.length)
    (encodeFloats norArr) (by omega)
  refine ⟨m5, ?_, ?_⟩
  · simp only [meshLayout, sizeof_sHeader, sizeof_sMeshHeader, sizeof_float, Nat.zero_add, h1,
      h2, h3, h4, h5, Option.bind_eq_bind, Option.some_bind, Option.some.injEq, Prod.mk.injEq,
      true_and]
    omega
  · have r2 : readBytes (comlibTransfer m5 (48 + 48 + 4 * (3 + 2 + 3) * n) old) 48 48
        = some (sMeshHeader.bytes ⟨n, numTriangles, materialID⟩ pad2) := by
      rw [readBytes_comlibTransfer _ _ _ _ _ (by omega),
        readBytes_memcpyTo_other h5 _ _ (by omega), readBytes_memcpyTo_other h4 _ _ (by omega),
        readBytes_memcpyTo_other h3 _ _ (by omega)]
      have := readBytes_memcpyTo_same h2
      rwa [l2] at this
    have r3 : readBytes (comlibTransfer m5 (48 + 48 + 4 * (3 + 2 + 3) * n) old) (48 + 48)
        (4 * n * 3) = some (encodeFloats posArr) := by
      rw [readBytes_comlibTransfer _ _ _ _ _ (by omega),
        readBytes_memcpyTo_other h5 _ _ (by omega), readBytes_memcpyTo_other h4 _ _ (by omega)]
      have := readBytes_memcpyTo_same h3
      rwa [lp, hpos, show 4 * (3 * n) = 4 * n * 3 by omega] at this
    have r4 : readBytes (comlibTransfer m5 (48 + 48 + 4 * (3 + 2 + 3) * n) old)
        (48 + 48 + 4 * n * 3) (4 * n * 2) = some (encodeFloats uvArr) := by
      rw [readBytes_comlibTransfer _ _ _ _ _ (by omega),
        readBytes_memcpyTo_other h5 _ _ (by omega)]
      have := readBytes_memcpyTo_same h4
      rwa [lu, huv, hpos, show 4 * (2 * n) = 4 * n * 2 by omega,
        show 4 * (3 * n) = 4 * n * 3 by omega] at this
    have r5 : readBytes (comlibTransfer m5 (48 + 48 + 4 * (3 + 2 + 3) * n) old)
        (48 + 48 + 4 * n * 3 + 4 * n * 2) (4 * n * 3) = some (encodeFloats norArr) := by
      rw [readBytes_comlibTransfer _ _ _ _ _ (by omega)]
      have := readBytes_memcpyTo_same h5
      rwa [ln, hnor, huv, hpos, show 4 * (2 * n) = 4 * n * 2 by omega,
        show 4 * (3 * n) = 4 * n * 3 by omega] at this
    have d1 : decodeInt (sMeshHeader.bytes ⟨n, numTriangles, materialID⟩ pad2) = (n : Int) := by
      simp only [sMeshHeader.bytes, List.append_assoc]
      exact decodeInt_encodeInt _ (by omega) (by omega) _
    have d2 : decodeInt ((sMeshHeader.bytes ⟨n, numTriangles, materialID⟩ pad2).drop 4)
        = decodeInt (encodeInt numTriangles) := by
      simp only [sMeshHeader.bytes, List.append_assoc]
      rw [List.drop_append_of_le_length (by simp [encodeInt_length])]
      rw [List.drop_of_length_le (by simp [encodeInt_length]), List.nil_append]
      exact decodeInt_append _ _
    have d3 : ((sMeshHeader.bytes ⟨n, numTriangles, materialID⟩ pad2).drop 8).take 37
        = materialID := by
      simp only [sMeshHeader.bytes, List.append_assoc]
      rw [← List.append_assoc (encodeInt _) (encodeInt _), List.drop_append_of_le_length
        (by simp [encodeInt_length])]
      rw [List.drop_of_length_le (by simp [encodeInt_length]), List.nil_append]
      exact take37_pad _ hmat _
    simp only [readMesh, sizeof_sHeader, sizeof_sMeshHeader, sizeof_float, r2, d1, d2, d3,
      Option.bind_eq_bind, Option.some_bind, Int.toNat_ofNat, r3, r4, r5,
      decodeFloats_encodeFloats]
    simp

/-- The mesh message of a mesh whose corners fit the buffer: the layout
succeeds, and the consumer decodes a vertex count equal to the number of
corners and the three fetched arrays. -/
theorem meshLayout_of_fetch (activity : Int) (msg old : Buf) (node : MeshNode)
    (pad1 pad2 : List Byte)
    (hfit : sizeof_sHeader + sizeof_sMeshHeader
      + sizeof_float * (3 + 2 + 3) * totalCorners node.faces ≤ MSGSIZE) :
    ∃ sent,
      meshLayout activity msg node.uuid (meshFetch node.faces).numPoints
        (meshFetch node.faces).numTriangles (fetchMaterialID node.shadingEngines)
        (meshFetch node.faces).posArr (meshFetch node.faces).uvArr (meshFetch node.faces).norArr
        pad1 pad2
        = some (sent, sizeof_sHeader + sizeof_sMeshHeader
            + sizeof_float * (3 + 2 + 3) * totalCorners node.faces) ∧
      readMesh (comlibTransfer (bufOf ((List.range (sizeof_sHeader + sizeof_sMeshHeader
            + sizeof_float * (3 + 2 + 3) * totalCorners node.faces)).map sent))
          ((List.range (sizeof_sHeader + sizeof_sMeshHeader
            + sizeof_float * (3 + 2 + 3) * totalCorners node.faces)).map sent).length old)
        = some (⟨(totalCorners node.faces : Int),
              decodeInt (encodeInt (meshFetch node.faces).numTriangles),
              fetchMaterialID node.shadingEngines⟩,
            ⟨(meshFetch node.faces).posArr, (meshFetch node.faces).uvArr,
              (meshFetch node.faces).norArr⟩) := by
  obtain ⟨c1, c2, c3, c4⟩ := meshFetch_counts node.faces
  obtain ⟨sent, h1, h2⟩ := meshLayout_roundtrip activity msg old node.uuid
    (fetchMaterialID node.shadingEngines) (totalCorners node.faces)
    (meshFetch node.faces).numTriangles (meshFetch node.faces).posArr
    (meshFetch node.faces).uvArr (meshFetch node.faces).norArr pad1 pad2 hfit
    (fetchMaterialID_length _) c2 c3 c4
  refine ⟨sent, ?_, ?_⟩
  · rw [c1]; exact h1
  · rw [comlibTransfer_bufOf_range]; exact h2

/-! ### The render loop -/

/-- One iteration of the render loop on a model `m` at position `i`. -/
theorem renderBody_eq (i : Nat) (sd : State × List Model) (m : Model)
    (hm : sd.1.modelArr[i]? = some m) :
    renderBody i sd = some ({ sd.1 with modelArr := sd.1.modelArr.set i (drawnModel sd.1 i m) },
      sd.2 ++ [drawnModel sd.1 i m]) := by
  obtain ⟨hi, hget⟩ := List.getElem?_eq_some.mp hm
  have hset : ∀ x : Model, (sd.1.modelArr.set i x)[i]? = some x := by
    intro x; simp [hi]
  have hself : sd.1.modelArr.set i m = sd.1.modelArr := by
    apply List.ext_getElem?
    intro j
    rw [List.getElem?_set]
    split
    next e => subst e; simp [hi, hm]
    next => rfl
  cases ht : sd.1.transformArr[i]? with
  | none =>
    cases hk : (sd.1.materialIndexArr[i]?).bind (fun k => vecAtInt sd.1.materialArr k) with
    | none =>
      have hd : drawnModel sd.1 i m = m := by
        simp [drawnModel, vecAt, ht, hk]
      simp only [renderBody, tryTransform, tryMaterial, vecAt, ht, hk, hm, hd, hself,
        Option.bind_eq_bind, Option.some_bind]
    | some mat =>
      have hd : drawnModel sd.1 i m = { m with material := mat } := by
        simp [drawnModel, vecAt, ht, hk]
      simp only [renderBody, tryTransform, tryMaterial, vecAt, ht, hk, hm, hd, hset,
        Option.bind_eq_bind, Option.some_bind]
  | some tr =>
    cases hk : (sd.1.materialIndexArr[i]?).bind (fun k => vecAtInt sd.1.materialArr k) with
    | none =>
      have hd : drawnModel sd.1 i m = { m with transform := tr } := by
        simp [drawnModel, vecAt, ht, hk]
      simp only [renderBody, tryTransform, tryMaterial, vecAt, ht, hk, hm, hd, hset,
        Option.bind_eq_bind, Option.some_bind]
    | some mat =>
      have hd : drawnModel sd.1 i m = { m with transform := tr, material := mat } := by
        simp [drawnModel, vecAt, ht, hk]
      simp only [renderBody, tryTransform, tryMaterial, vecAt, ht, hk, hm, hd, hset,
        Option.bind_eq_bind, Option.some_bind, List.set_set]

/-- The render loop returns: the models drawn are the models of the store
after the loop, model `j` being what iteration `j` made of the model that was
at position `j`, and nothing but the models changes. -/
theorem renderPass_spec (s : State) :
    ∃ d : List Model, renderPass s = some ({ s with modelArr := d }, d) ∧
      d.length = s.modelArr.length ∧
      ∀ j : Nat, d[j]? = (s.modelArr[j]?).map (drawnModel s j) := by
  obtain ⟨t, k, hrun, hP, hk⟩ := forLoop_run
    (fun (t : State × List Model) => t.1.modelArr.length) renderBody
    (fun k (t : State × List Model) =>
      t.1 = { s with modelArr := t.1.modelArr } ∧ t.1.modelArr.length = s.modelArr.length ∧
      t.2 = t.1.modelArr.take k ∧
      (∀ j : Nat, j < k → t.1.modelArr[j]? = (s.modelArr[j]?).map (drawnModel s j)) ∧
      (∀ j : Nat, k ≤ j → t.1.modelArr[j]? = s.modelArr[j]?))
    (by
      intro i t hi ⟨h1, h2, h3, h4, h5⟩
      have hi2 : i < s.modelArr.length := by rw [← h2]; exact hi
      have hm : t.1.modelArr[i]? = some s.modelArr[i] := by
        rw [h5 i (Nat.le_refl _), List.getElem?_eq_getElem hi2]
      have hdr : drawnModel t.1 i s.modelArr[i] = drawnModel s i s.modelArr[i] := by
        rw [h1]; rfl
      refine ⟨_, renderBody_eq i t _ hm, ⟨?_, ?_, ?_, ?_, ?_⟩, ?_⟩
      · show ({ t.1 with modelArr := _ } : State) = _
        rw [h1]
      · simp [h2]
      · show t.2 ++ [_] = List.take (i + 1) (t.1.modelArr.set i _)
        rw [h3, List.take_succ]
        simp only [List.getElem?_set, hi, if_true, Option.toList_some]
        congr 1
        apply List.ext_getElem?
        intro j
        rw [List.getElem?_take, List.getElem?_take, List.getElem?_set]
        split
        next hj =>
          split
          next e => omega
          next => rfl
        next => rfl
      · intro j hj
        show (t.1.modelArr.set i _)[j]? = _
        rw [List.getElem?_set, hdr]
        split
        next e => subst e; simp [hi, List.getElem?_eq_getElem hi2]
        next ne => exact h4 j (by omega)
      · intro j hj
        show (t.1.modelArr.set i _)[j]? = _
        rw [List.getElem?_set]
        split
        next e => omega
        next ne => exact h5 j (by omega)
      · simp)
    s.modelArr.length 0 (s, []) ⟨rfl, rfl, by simp, by intro j hj; omega, fun _ _ => rfl⟩
    (by simp)
  obtain ⟨h1, h2, h3, h4, h5⟩ := hP
  have hk2 : t.1.modelArr.length ≤ k := hk
  have hd : t.2 = t.1.modelArr := by rw [h3, List.take_of_length_le hk2]
  refine ⟨t.2, ?_, by rw [hd, h2], ?_⟩
  · have e : renderPass s = some t := hrun
    rw [e, hd]
    congr 1
    exact Prod.ext h1 hd
  · intro j
    rw [hd]
    by_cases hj : j < k
    · exact h4 j hj
    · rw [h5 j (by omega), List.getElem?_eq_none (by omega)]
      rfl

/-! ### Transform ADD, material UPDATE of an unknown id -/

theorem recvTransformAdd_eq (s : State) (h : sHeader) (msg : Buf) (X : List Byte)
    (tr : sTransform) (hid : cstr h.nodeID = some X) (htr : readTransform msg = some tr) :
    recvTransformAdd s h msg = some { s with
      transformID := s.transformID ++ [X], transformArr := s.transformArr ++ [matrixOf tr] } := by
  simp only [recvTransformAdd, hid, htr, Option.bind_eq_bind, Option.some_bind]

/-- The loop of material UPDATE for an id no entry has: nothing changes and
`duplicate` stays false. -/
theorem materialUpdate_unknown (h : sHeader) (sm : sMaterial) (X : List Byte) (s : State)
    (hid : cstr h.nodeID = some X) (hX : X ∉ s.materialID) :
    forLoop (fun (t : State × Bool) => t.1.materialID.length) (materialUpdateBody h sm)
      s.materialID.length 0 (s, false) = some (s, false) := by
  apply forLoop_id
  · intro j hj
    have hj2 : j < s.materialID.length := hj
    have hne : s.materialID[j] ≠ X := fun e => hX (e ▸ List.getElem_mem hj2)
    simp [materialUpdateBody, vecAt_some _ _ hj2, hid, hne]
  · simp

/-! ### The ids of the material store stay distinct -/

theorem materialPushNew_ids (h : sHeader) (sm : sMaterial) (s t : State)
    (hr : materialPushNew h sm s = some t) :
    ∃ X, cstr h.nodeID = some X ∧ t.materialID = s.materialID ++ [X] := by
  simp only [materialPushNew, Option.bind_eq_bind, Option.bind_eq_some, Option.some.injEq] at hr
  obtain ⟨X, hX, m, -, rfl⟩ := hr
  exact ⟨X, hX, rfl⟩

theorem recvMaterialAdd_nodup (s t : State) (h : sHeader) (msg : Buf)
    (hn : s.materialID.Nodup) (hr : recvMaterialAdd s h msg = some t) : t.materialID.Nodup := by
  simp only [recvMaterialAdd, Option.bind_eq_bind, Option.bind_eq_some] at hr
  obtain ⟨sm, -, ⟨u, d⟩, hl, hr⟩ := hr
  have hu : u = s := materialAddScan_step h _ _ (s, false) (u, d) hl
  subst hu
  simp only at hr
  cases d with
  | true => simp at hr; subst hr; exact hn
  | false =>
    simp only [Bool.not_false, if_true] at hr
    obtain ⟨X, hX, e⟩ := materialPushNew_ids h sm u t hr
    obtain ⟨d2, hl2, hd2⟩ := materialAddScan_run h X u hX
    rw [hl2] at hl
    have hd : d2 = false := by
      have := congrArg Prod.snd (Option.some.inj hl)
      exact this
    rw [e, List.nodup_append]
    refine ⟨hn, List.nodup_singleton X, ?_⟩
    intro a ha hb
    have hax : a = X := by simpa using hb
    subst hax
    have := hd2.mpr ha
    rw [hd] at this
    cases this

/-- The loop of material UPDATE leaves the ids, and leaves `duplicate` false
only when no entry has the id. -/
theorem materialUpdate_flag (h : sHeader) (sm : sMaterial) (X : List Byte) (s u : State)
    (d : Bool) (hid : cstr h.nodeID = some X)
    (hl : forLoop (fun (t : State × Bool) => t.1.materialID.length) (materialUpdateBody h sm)
      s.materialID.length 0 (s, false) = some (u, d)) :
    u.materialID = s.materialID ∧ (d = false → X ∉ s.materialID) := by
  obtain ⟨k, ⟨h1, h2⟩, hk⟩ := forLoop_inv_idx
    (fun (t : State × Bool) => t.1.materialID.length) (materialUpdateBody h sm)
    (fun k (t : State × Bool) => t.1.materialID = s.materialID ∧
      (t.2 = false → ∀ j : Nat, j < k → s.materialID[j]? ≠ some X))
    (by
      intro i t w hi ⟨h1, h2⟩ hb
      have hi2 : i < t.1.materialID.length := hi
      obtain ⟨-, e, -⟩ := materialUpdateBody_step h sm i t w hb
      refine ⟨by rw [e, h1], ?_⟩
      intro hw j hj
      simp only [materialUpdateBody, vecAt_some _ _ hi2, hid, Option.bind_eq_bind,
        Option.some_bind] at hb
      split at hb
      next heq =>
        simp only [Option.bind_eq_some, Option.some.injEq] at hb
        obtain ⟨m, -, m2, -, arr, -, rfl⟩ := hb
        cases hw
      next hne =>
        cases hb
        by_cases hji : j = i
        · subst hji
          rw [← h1, List.getElem?_eq_getElem hi2]
          simpa using hne
        · exact h2 hw j (by omega))
    s.materialID.length 0 (s, false) (u, d) ⟨rfl, fun _ j hj => by omega⟩ hl
  refine ⟨h1, ?_⟩
  intro hd hmem
  obtain ⟨j, hj, hjX⟩ := List.getElem_of_mem hmem
  have hk2 : u.materialID.length ≤ k := hk
  rw [h1] at hk2
  exact h2 hd j (by omega) (by rw [List.getElem?_eq_getElem hj, hjX])

theorem recvMaterialUpdate_nodup (s t : State) (h : sHeader) (msg : Buf)
    (hn : s.materialID.Nodup) (hr : recvMaterialUpdate s h msg = some t) :
    t.materialID.Nodup := by
  simp only [recvMaterialUpdate, Option.bind_eq_bind, Option.bind_eq_some] at hr
  obtain ⟨sm, -, ⟨u, d⟩, hl, hr⟩ := hr
  obtain ⟨-, e1, -⟩ := materialUpdate_step h sm _ _ (s, false) (u, d) hl
  simp only at hr e1
  cases d with
  | true => simp at hr; subst hr; rw [e1]; exact hn
  | false =>
    simp only [Bool.not_false, if_true] at hr
    obtain ⟨X, hX, e⟩ := materialPushNew_ids h sm u t hr
    obtain ⟨-, h2⟩ := materialUpdate_flag h sm X s u false hX hl
    rw [e, e1, List.nodup_append]
    refine ⟨hn, List.nodup_singleton X, ?_⟩
    intro a ha hb
    have hax : a = X := by simpa using hb
    subst hax
    exact h2 rfl ha

theorem materialRemove_nodup (h : sHeader) (fuel i : Nat) (s t : State)
    (hn : s.materialID.Nodup)
    (hl : forLoop (fun t => t.materialID.length) (materialRemoveBody h) fuel i s = some t) :
    t.materialID.Nodup := by
  refine forLoop_inv (fun (t : State) => t.materialID.length) (materialRemoveBody h)
    (fun t => t.materialID.Nodup) ?_ fuel i s t hn hl
  intro j u w _ hu hb
  simp only [materialRemoveBody, Option.bind_eq_bind, Option.bind_eq_some] at hb
  obtain ⟨idI, -, X, -, hb⟩ := hb
  split at hb
  next =>
    simp only [Option.bind_eq_some, Option.some.injEq] at hb
    obtain ⟨a, -, b, hb1, rfl⟩ := hb
    obtain ⟨-, rfl⟩ := vecErase_eq hb1
    exact hu.sublist (List.eraseIdx_sublist _ _)
  next => cases hb; exact hu

theorem recvMaterial_nodup (s t : State) (h : sHeader) (msg : Buf)
    (hn : s.materialID.Nodup) (hr : recvMaterial s h msg = some t) : t.materialID.Nodup := by
  simp only [recvMaterial, Option.bind_eq_bind, Option.bind_eq_some, Option.some.injEq] at hr
  obtain ⟨s1, h1, s2, h2, s3, h3, rfl⟩ := hr
  have e1 : s1.materialID.Nodup := by
    split at h1
    · exact recvMaterialAdd_nodup s s1 h msg hn h1
    · cases h1; exact hn
  have e2 : s2.materialID.Nodup := by
    split at h2
    · exact recvMaterialUpdate_nodup s1 s2 h msg e1 h2
    · cases h2; exact e1
  split at h3
  · exact materialRemove_nodup h _ _ s2 s3 e2 h3
  · cases h3; exact e2

/-- The message loop body keeps the ids of the material store distinct. -/
theorem consume_nodup (s t : State) (msg : Buf) (hal : Aligned s) (hn : s.materialID.Nodup)
    (hc : consume s msg = some t) : t.materialID.Nodup := by
  obtain ⟨h, -, hcase⟩ := consume_cases s t msg hc
  rcases hcase with ⟨-, hr⟩ | ⟨-, hr⟩ | ⟨-, hr⟩ | ⟨-, hr⟩ | rfl
  · obtain ⟨-, -, -, -, -, e6, -⟩ := recvCamera_step s t msg hr
    rw [e6]; exact hn
  · obtain ⟨X, hs⟩ := recvMesh_step_ex s t h msg hal hr
    rw [hs.1.2.2.2.1]; exact hn
  · have := recvTransform_step s t h msg hr
    rw [this.2.2.2.2.1]; exact hn
  · exact recvMaterial_nodup s t h msg hn hr
  · exact hn

theorem ReachableVia_nodup (allowed : Buf → Prop) (s : State)
    (h : ReachableVia allowed s) : s.materialID.Nodup := by
  induction h with
  | init => exact List.nodup_nil
  | step msg hs _ hc ih => exact consume_nodup _ _ msg (ReachableVia_aligned allowed _ hs) ih hc

/-! ### The deferred Add -/

/-- From a state in which as many idle callbacks are registered as nodes are
queued, every sequence of events is handled without fault, the two numbers
stay equal, and the nodes handled followed by the nodes queued are the nodes
handled and queued before followed by the nodes reported, in order. -/
theorem runEvents_inv {α : Type} : ∀ (es : List (Event α)) (d : Deferred α) (done : List α),
    d.idleCallbacks = d.addedNodeList.length →
    ∃ (e : Deferred α) (done2 : List α), runEvents es d done = some (e, done2) ∧
      e.idleCallbacks = e.addedNodeList.length ∧
      done2 ++ e.addedNodeList = done ++ d.addedNodeList ++ addedNodes es
  | [], d, done, h => ⟨d, done, rfl, h, by simp [addedNodes]⟩
  | .added node :: es, d, done, h => by
    obtain ⟨e, done2, h1, h2, h3⟩ := runEvents_inv es (nodeAdded node d) done
      (by simp [nodeAdded, h])
    refine ⟨e, done2, by simpa [runEvents] using h1, h2, ?_⟩
    rw [h3]
    simp [nodeAdded, addedNodes]
  | .idle :: es, d, done, h => by
    by_cases h0 : d.idleCallbacks = 0
    · obtain ⟨e, done2, h1, h2, h3⟩ := runEvents_inv es d done h
      refine ⟨e, done2, by simpa [runEvents, h0] using h1, h2, ?_⟩
      rw [h3]
      simp [addedNodes]
    · cases hq : d.addedNodeList with
      | nil => rw [hq] at h; exact absurd h h0
      | cons node rest =>
        have hev : eventCallback d = some (⟨rest, d.idleCallbacks - 1⟩, node) := by
          simp [eventCallback, hq]
        obtain ⟨e, done2, h1, h2, h3⟩ := runEvents_inv es ⟨rest, d.idleCallbacks - 1⟩
          (done ++ [node]) (by rw [h, hq]; simp)
        refine ⟨e, done2, ?_, h2, ?_⟩
        · simp only [runEvents, h0, if_false, hev, Option.some_bind]
          exact h1
        · rw [h3]
          simp [addedNodes]

/-! ### The connected-material id and the texture path -/

theorem fetchTexture_nil : fetchTexture [] = (0, []) := rfl

theorem fetchTexture_concat (ps : List (List Byte)) (name : List Byte) :
    fetchTexture (ps ++ [name]) = ((name.length : Int) + 1, name ++ [0]) := by
  simp [fetchTexture, List.foldl_append]

/-- The size and the array the texture loop leaves agree. -/
theorem fetchTexture_size (paths : List (List Byte)) :
    0 ≤ (fetchTexture paths).1 ∧ (fetchTexture paths).2.length = (fetchTexture paths).1.toNat := by
  rcases List.eq_nil_or_concat paths with h | ⟨ps, name, h⟩
  · subst h; simp [fetchTexture_nil]
  · subst h
    rw [List.concat_eq_append, fetchTexture_concat]
    refine ⟨by omega, ?_⟩
    simp only [List.length_append, List.length_cons, List.length_nil]
    omega

theorem fetchMaterialID_nil : fetchMaterialID [] = List.replicate 37 0 := rfl

theorem fetchMaterialID_concat (ses : List ShadingNode) (se : ShadingNode) :
    fetchMaterialID (ses ++ [se]) =
      match se.surfaceShader with
      | some mat => char37 mat.uuid
      | none => fetchMaterialID ses := by
  show List.foldl _ _ (ses ++ [se]) = _
  rw [List.foldl_append]
  rfl

/-- The connected-material id is that of the shader of the last shading group
that has one. -/
theorem fetchMaterialID_last (ses : List ShadingNode) :
    fetchMaterialID ses
      = (((ses.filterMap (fun se => se.surfaceShader)).getLast?).map
          (fun mat => char37 mat.uuid)).getD (List.replicate 37 0) := by
  induction ses using List.reverseRecOn with
  | nil => rfl
  | append_singleton ses se ih =>
    rw [fetchMaterialID_concat, List.filterMap_append]
    cases hs : se.surfaceShader with
    | none => simp [List.filterMap_cons, hs, ih]
    | some mat => simp [List.filterMap_cons, hs]

/-! ### The material message -/

theorem sMaterial_bytes_length (m : sMaterial) (ptr : List Byte) (h : 3 ≤ m.color.length) :
    (m.bytes ptr).length = 24 := by
  simp only [sMaterial.bytes, List.length_append, encodeFloats_length, encodeInt_length,
    List.length_take, padding, List.length_replicate]
  omega

/-- Within the buffer, `materialAdd` and `materialUpdate` send the header, the
fixed part and the `pathSize` path bytes, and the consumer's decoding returns
the three colour values, `pathSize` and the path bytes. -/
theorem materialSend_roundtrip (activity : Int) (node : ShadingNode) (material : ShaderNode)
    (pad ptr : List Byte) (p : Producer) (old : Buf)
    (ha : -2147483648 ≤ activity ∧ activity < 2147483648)
    (hm : node.mmaterial = true) (hs : node.surfaceShader = some material)
    (hfit : sizeof_sHeader + sizeof_sMaterial + (fetchTexture material.texturePaths).1.toNat
      ≤ MSGSIZE) :
    ∃ (q : Producer) (bytes : List Byte),
      materialSend activity node pad ptr p = some q ∧ q.sent = p.sent ++ [bytes] ∧
      bytes.length = sizeof_sHeader + sizeof_sMaterial
        + (fetchTexture material.texturePaths).1.toNat ∧
      readHeader (comlibTransfer (bufOf bytes) bytes.length old)
        = some ⟨activity, MATERIAL, char37 material.uuid⟩ ∧
      readMaterial (comlibTransfer (bufOf bytes) bytes.length old)
        = some ⟨[material.color0, material.color1, material.color2],
            (fetchTexture material.texturePaths).1, (fetchTexture material.texturePaths).2⟩ := by
  have hM : MSGSIZE = 5242880 := by decide
  obtain ⟨hpos, hlen⟩ := fetchTexture_size material.texturePaths
  rcases hft : fetchTexture material.texturePaths with ⟨pathSize, texturePath⟩
  rw [hft] at hpos hlen hfit
  simp only [sizeof_sHeader, sizeof_sMaterial] at hfit ⊢
  simp only at hpos hlen hfit ⊢
  have hT : texturePath.take pathSize.toNat = texturePath := by
    rw [List.take_of_length_le (by omega)]
  have l1 := sHeader_bytes_length ⟨activity, MATERIAL, char37 material.uuid⟩ pad
  have l2 := sMaterial_bytes_length
    ⟨[material.color0, material.color1, material.color2], pathSize, texturePath⟩ ptr (by simp)
  obtain ⟨m1, h1⟩ := memcpyTo_some p.msg 0
    (sHeader.bytes ⟨activity, MATERIAL, char37 material.uuid⟩ pad) (by omega)
  obtain ⟨m2, h2⟩ := memcpyTo_some m1 48 (sMaterial.bytes
    ⟨[material.color0, material.color1, material.color2], pathSize, texturePath⟩ ptr) (by omega)
  obtain ⟨m3, h3⟩ := memcpyTo_some m2 (48 + 24) texturePath (by omega)
  have e1 := prefix_memcpyTo h1
  have e2 := prefix_memcpyTo h2
  have e3 := prefix_memcpyTo h3
  rw [l1] at e1
  rw [l2] at e2
  simp only [Nat.zero_add, List.range_zero, List.map_nil, List.nil_append] at e1
  rw [e1] at e2
  rw [e2, hlen] at e3
  refine ⟨comlibSend { p with msg := m3 } (48 + 24 + pathSize.toNat),
    sHeader.bytes ⟨activity, MATERIAL, char37 material.uuid⟩ pad
      ++ sMaterial.bytes ⟨[material.color0, material.color1, material.color2], pathSize,
        texturePath⟩ ptr ++ texturePath, ?_, ?_, ?_, ?_, ?_⟩
  · simp only [materialSend, hm, if_true, hs, hft, sizeof_sHeader, sizeof_sMaterial,
      Nat.zero_add, h1, h2, hT, h3, Option.bind_eq_bind, Option.some_bind]
  · simp only [comlibSend]
    rw [e3]
  · simp only [List.length_append, l1, l2, hlen]
  · apply readHeader_of_bytes _ _ _ _ pad ha (by decide) (char37_length _)
    have := readBytes_delivered [] (sHeader.bytes ⟨activity, MATERIAL, char37 material.uuid⟩ pad)
      (sMaterial.bytes ⟨[material.color0, material.color1, material.color2], pathSize,
        texturePath⟩ ptr ++ texturePath) old (by rw [l1]; decide)
    rw [l1, List.nil_append, ← List.append_assoc] at this
    exact this
  · have r1 := readBytes_delivered (sHeader.bytes ⟨activity, MATERIAL, char37 material.uuid⟩ pad)
      (sMaterial.bytes ⟨[material.color0, material.color1, material.color2], pathSize,
        texturePath⟩ ptr) texturePath old (by rw [l1, l2]; decide)
    rw [l1, l2] at r1
    have la : (sHeader.bytes ⟨activity, MATERIAL, char37 material.uuid⟩ pad
        ++ sMaterial.bytes ⟨[material.color0, material.color1, material.color2], pathSize,
          texturePath⟩ ptr).length = 72 := by
      rw [List.length_append, l1, l2]
    have r2 := readBytes_delivered (sHeader.bytes ⟨activity, MATERIAL, char37 material.uuid⟩ pad
      ++ sMaterial.bytes ⟨[material.color0, material.color1, material.color2], pathSize,
        texturePath⟩ ptr) texturePath [] old
      (by rw [la, hlen]; omega)
    rw [la, hlen, List.append_nil] at r2
    have d1 : decodeFloats ((sMaterial.bytes ⟨[material.color0, material.color1,
        material.color2], pathSize, texturePath⟩ ptr).take 12)
        = [material.color0, material.color1, material.color2] := by
      simp only [sMaterial.bytes, List.append_assoc]
      rw [List.take_append_of_le_length (by simp [encodeFloats_length])]
      rw [List.take_of_length_le (by simp [encodeFloats_length])]
      simp [decodeFloats_encodeFloats]
    have d2 : decodeInt ((sMaterial.bytes ⟨[material.color0, material.color1,
        material.color2], pathSize, texturePath⟩ ptr).drop 12) = pathSize := by
      simp only [sMaterial.bytes, List.append_assoc]
      rw [List.drop_append_of_le_length (by simp [encodeFloats_length])]
      rw [List.drop_of_length_le (by simp [encodeFloats_length]), List.nil_append]
      exact decodeInt_encodeInt _ (by omega) (by omega) _
    simp only [readMaterial, sizeof_sHeader, sizeof_sMaterial, r1, d1, d2,
      Option.bind_eq_bind, Option.some_bind, if_neg (not_lt.mpr hpos), r2]

/-- A texture file name too long for the buffer: the last copy of
`materialAdd` and `materialUpdate` leaves `msg`. -/
theorem materialSend_none_of_long_path (activity : Int) (node : ShadingNode)
    (material : ShaderNode) (pad ptr : List Byte) (p : Producer) (ps : List (List Byte))
    (name : List Byte) (hm : node.mmaterial = true) (hs : node.surfaceShader = some material)
    (hp : material.texturePaths = ps ++ [name])
    (hlong : MSGSIZE < sizeof_sHeader + sizeof_sMaterial + (name.length + 1)) :
    materialSend activity node pad ptr p = none := by
  have hM : MSGSIZE = 5242880 := by decide
  have hft := fetchTexture_concat ps name
  rw [← hp] at hft
  simp only [sizeof_sHeader, sizeof_sMaterial] at hlong
  have l1 := sHeader_bytes_length ⟨activity, MATERIAL, char37 material.uuid⟩ pad
  have l2 := sMaterial_bytes_length ⟨[material.color0, material.color1, material.color2],
    (name.length : Int) + 1, name ++ [0]⟩ ptr (by simp)
  obtain ⟨m1, h1⟩ := memcpyTo_some p.msg 0
    (sHeader.bytes ⟨activity, MATERIAL, char37 material.uuid⟩ pad) (by omega)
  obtain ⟨m2, h2⟩ := memcpyTo_some m1 48 (sMaterial.bytes
    ⟨[material.color0, material.color1, material.color2], (name.length : Int) + 1,
      name ++ [0]⟩ ptr) (by omega)
  have hT : (name ++ [0]).take ((name.length : Int) + 1).toNat = name ++ [0] := by
    rw [List.take_of_length_le (by simp)]
  have h3 := memcpyTo_none m2 (48 + 24) (name ++ [0]) (by simp; omega)
  simp only [materialSend, hm, if_true, hs, hft, sizeof_sHeader, sizeof_sMaterial,
    Nat.zero_add, h1, h2, hT, h3, Option.bind_eq_bind, Option.some_bind, Option.none_bind]

/-! ### The mesh message and the buffer -/

/-- A mesh message larger than `MSGSIZE` cannot be laid out. -/
theorem meshLayout_none_of_large (activity : Int) (msg : Buf) (uuid : List Byte)
    (numPoints numTriangles : Int) (materialID : List Byte) (posArr uvArr norArr : List F32)
    (pad1 pad2 : List Byte)
    (h : MSGSIZE < sizeof_sHeader + sizeof_sMeshHeader + sizeof_float * posArr.length
      + sizeof_float * uvArr.length + sizeof_float * norArr.length) :
    meshLayout activity msg uuid numPoints numTriangles materialID posArr uvArr norArr pad1 pad2
      = none := by
  cases hm : meshLayout activity msg uuid numPoints numTriangles materialID posArr uvArr norArr
      pad1 pad2 with
  | none => rfl
  | some r =>
    simp only [meshLayout, Option.bind_eq_bind, Option.bind_eq_some, Option.some.injEq] at hm
    obtain ⟨m1, h1, m2, h2, m3, h3, m4, h4, m5, h5, -⟩ := hm
    simp only [memcpyTo] at h5
    split at h5
    next hle =>
      simp only [encodeFloats_length, sizeof_sHeader, sizeof_sMeshHeader, sizeof_float] at hle h
      omega
    next => cases h5

theorem totalCorners_single (face : Face) : totalCorners [face] = face.points.length := by
  simp [totalCorners]

/-- For a mesh whose corners do not fit the buffer, `meshUpdate` and `meshAdd`
fault. -/
theorem meshNode_none_of_large (node : MeshNode) (pad1 pad2 pad3 ptr : List Byte)
    (p : Producer) (hmesh : node.isMesh = true)
    (hlarge : MSGSIZE < sizeof_sHeader + sizeof_sMeshHeader
      + sizeof_float * (3 + 2 + 3) * totalCorners node.faces) :
    meshUpdateNode node pad1 pad2 p = none ∧ meshAddNode node pad1 pad2 pad3 ptr p = none := by
  obtain ⟨-, c2, c3, c4⟩ := meshFetch_counts node.faces
  have hl : ∀ (activity : Int) (msg : Buf),
      meshLayout activity msg node.uuid (meshFetch node.faces).numPoints
        (meshFetch node.faces).numTriangles (fetchMaterialID node.shadingEngines)
        (meshFetch node.faces).posArr (meshFetch node.faces).uvArr (meshFetch node.faces).norArr
        pad1 pad2 = none := by
    intro activity msg
    apply meshLayout_none_of_large
    rw [c2, c3, c4]
    simp only [sizeof_sHeader, sizeof_sMeshHeader, sizeof_float] at hlarge ⊢
    omega
  constructor
  · simp only [meshUpdateNode, hmesh, if_true, meshUpdate, hl, Option.bind_eq_bind,
      Option.none_bind]
  · have hl2 : ∀ msg : Buf, meshAdd msg node.uuid (meshFetch node.faces).numPoints
        (meshFetch node.faces).numTriangles (fetchMaterialID node.shadingEngines)
        (meshFetch node.faces).posArr (meshFetch node.faces).uvArr (meshFetch node.faces).norArr
        pad1 pad2 = none := fun msg => hl ADD msg
    cases hmat : meshAddMaterials node.shadingEngines pad3 ptr p with
    | none => simp only [meshAddNode, hmesh, if_true, hmat, Option.bind_eq_bind, Option.none_bind]
    | some p1 =>
      simp only [meshAddNode, hmesh, if_true, hmat, hl2, Option.bind_eq_bind, Option.some_bind,
        Option.none_bind]

/-- For a mesh whose corners fit the buffer, `meshUpdate` sends one message of
`sizeof(sHeader) + sizeof(sMeshHeader) + 4 * (3 + 2 + 3) * vertexCount` bytes,
and so does `meshAdd` once the materials are sent. -/
theorem meshNode_sent_of_fit (node : MeshNode) (pad1 pad2 pad3 ptr : List Byte)
    (p : Producer) (old : Buf) (hmesh : node.isMesh = true)
    (hfit : sizeof_sHeader + sizeof_sMeshHeader
      + sizeof_float * (3 + 2 + 3) * totalCorners node.faces ≤ MSGSIZE) :
    (∃ (q : Producer) (bytes : List Byte), meshUpdateNode node pad1 pad2 p = some q ∧
      q.sent = p.sent ++ [bytes] ∧
      bytes.length = sizeof_sHeader + sizeof_sMeshHeader
        + sizeof_float * (3 + 2 + 3) * totalCorners node.faces ∧
      (readMesh (comlibTransfer (bufOf bytes) bytes.length old)).map
        (fun r => r.1.connectedMatID) = some (fetchMaterialID node.shadingEngines)) ∧
    (∀ p1 : Producer, meshAddMaterials node.shadingEngines pad3 ptr p = some p1 →
      ∃ (q : Producer) (bytes : List Byte), meshAddNode node pad1 pad2 pad3 ptr p = some q ∧
        q.sent = p1.sent ++ [bytes] ∧
        bytes.length = sizeof_sHeader + sizeof_sMeshHeader
          + sizeof_float * (3 + 2 + 3) * totalCorners node.faces ∧
        (readMesh (comlibTransfer (bufOf bytes) bytes.length old)).map
          (fun r => r.1.connectedMatID) = some (fetchMaterialID node.shadingEngines)) := by
  constructor
  · obtain ⟨sent, h1, h2⟩ := meshLayout_of_fetch UPDATE p.msg old node pad1 pad2 hfit
    refine ⟨comlibSend { p with msg := sent } (sizeof_sHeader + sizeof_sMeshHeader
      + sizeof_float * (3 + 2 + 3) * totalCorners node.faces), _, ?_, rfl, by simp, ?_⟩
    · simp only [meshUpdateNode, hmesh, if_true, meshUpdate, h1, Option.bind_eq_bind,
        Option.some_bind, comlibSend]
    · rw [h2]; rfl
  · intro p1 hp1
    obtain ⟨sent, h1, h2⟩ := meshLayout_of_fetch ADD p1.msg old node pad1 pad2 hfit
    have h1a : meshAdd p1.msg node.uuid (meshFetch node.faces).numPoints
        (meshFetch node.faces).numTriangles (fetchMaterialID node.shadingEngines)
        (meshFetch node.faces).posArr (meshFetch node.faces).uvArr (meshFetch node.faces).norArr
        pad1 pad2 = some (sent, sizeof_sHeader + sizeof_sMeshHeader
          + sizeof_float * (3 + 2 + 3) * totalCorners node.faces) := h1
    refine ⟨comlibSend { p1 with msg := sent } (sizeof_sHeader + sizeof_sMeshHeader
      + sizeof_float * (3 + 2 + 3) * totalCorners node.faces), _, ?_, rfl, by simp, ?_⟩
    · simp only [meshAddNode, hmesh, if_true, hp1, h1a, Option.bind_eq_bind,
        Option.some_bind, comlibSend]
    · rw [h2]; rfl

/-! ### Messages given by their bytes -/

/-- The header the consumer reads from a delivered message that starts with
the bytes of a header. -/
theorem readHeader_delivered (a t : Int) (id pad rest : List Byte) (old : Buf)
    (ha : -2147483648 ≤ a ∧ a < 2147483648) (ht : -2147483648 ≤ t ∧ t < 2147483648)
    (hid : id.length = 37) :
    readHeader (comlibTransfer (bufOf ((sHeader.mk a t id).bytes pad ++ rest))
      ((sHeader.mk a t id).bytes pad ++ rest).length old) = some ⟨a, t, id⟩ := by
  apply readHeader_of_bytes _ _ _ _ pad ha ht hid
  have l1 := sHeader_bytes_length ⟨a, t, id⟩ pad
  have := readBytes_delivered [] (sHeader.bytes ⟨a, t, id⟩ pad) rest old (by rw [l1]; decide)
  rw [l1, List.nil_append] at this
  exact this

/-- The transform the consumer reads from a delivered message whose bytes 48
to 111 are those of `tr`. -/
theorem readTransform_delivered (hd : sHeader) (pad rest : List Byte) (tr : sTransform)
    (old : Buf) :
    readTransform (comlibTransfer (bufOf (hd.bytes pad ++ tr.bytes ++ rest))
      (hd.bytes pad ++ tr.bytes ++ rest).length old) = some tr := by
  apply readTransform_of_bytes
  have l1 := sHeader_bytes_length hd pad
  have l2 := sTransform_bytes_length tr
  have := readBytes_delivered (hd.bytes pad) tr.bytes rest old (by rw [l1, l2]; decide)
  rw [l1, l2] at this
  exact this

theorem sCamera_bytes_length (position target up : Vector3) (fovy : F32) (projection : Byte)
    (pad : List Byte) :
    ((sCamera.mk [position.x, position.y, position.z] [target.x, target.y, target.z]
      [up.x, up.y, up.z] fovy projection).bytes pad).length = 44 := by
  simp [sCamera.bytes, encodeFloats_length, padding]

/-- The camera payload the consumer reads from a delivered message whose bytes
48 to 91 are those of an `sCamera`. -/
theorem readCamera_delivered (hd : sHeader) (pad1 pad2 rest : List Byte)
    (position target up : Vector3) (fovy : F32) (projection : Byte) (old : Buf) :
    readCamera (comlibTransfer
      (bufOf (hd.bytes pad1 ++ (sCamera.mk [position.x, position.y, position.z]
        [target.x, target.y, target.z] [up.x, up.y, up.z] fovy projection).bytes pad2 ++ rest))
      (hd.bytes pad1 ++ (sCamera.mk [position.x, position.y, position.z]
        [target.x, target.y, target.z] [up.x, up.y, up.z] fovy projection).bytes pad2
        ++ rest).length old)
      = some ⟨[position.x, position.y, position.z], [target.x, target.y, target.z],
          [up.x, up.y, up.z], fovy, projection⟩ := by
  have l1 := sHeader_bytes_length hd pad1
  have l2 := sCamera_bytes_length position target up fovy projection pad2
  have r := readBytes_delivered (hd.bytes pad1)
    ((sCamera.mk [position.x, position.y, position.z] [target.x, target.y, target.z]
      [up.x, up.y, up.z] fovy projection).bytes pad2) rest old (by rw [l1, l2]; decide)
  rw [l1, l2] at r
  simp only [readCamera, sizeof_sHeader, sizeof_sCamera, r, Option.bind_eq_bind,
    Option.some_bind]
  simp [sCamera.bytes, encodeFloats, F32.bytes, decodeFloats, padding]

/-- `updateCamera` cannot fault: it sends the 92 bytes of the header and the
camera payload. -/
theorem updateCamera_sent (uuid : List Byte) (position target up : Vector3) (fovy : F32)
    (projection : Bool) (pad1 pad2 : List Byte) (p : Producer) :
    ∃ q, updateCamera uuid position target up fovy projection pad1 pad2 p = some q ∧
      q.sent = p.sent ++ [(sHeader.mk UPDATE CAMERA (char37 uuid)).bytes pad1
        ++ (sCamera.mk [position.x, position.y, position.z] [target.x, target.y, target.z]
          [up.x, up.y, up.z] fovy (if projection then 1 else 0)).bytes pad2] := by
  have l1 := sHeader_bytes_length ⟨UPDATE, CAMERA, char37 uuid⟩ pad1
  have l2 := sCamera_bytes_length position target up fovy (if projection then 1 else 0) pad2
  have hM : MSGSIZE = 5242880 := by decide
  obtain ⟨m1, h1⟩ := memcpyTo_some p.msg 0
    (sHeader.bytes ⟨UPDATE, CAMERA, char37 uuid⟩ pad1) (by omega)
  obtain ⟨m2, h2⟩ := memcpyTo_some m1 48
    ((sCamera.mk [position.x, position.y, position.z] [target.x, target.y, target.z]
      [up.x, up.y, up.z] fovy (if projection then 1 else 0)).bytes pad2) (by omega)
  have e1 := prefix_memcpyTo h1
  have e2 := prefix_memcpyTo h2
  rw [l1] at e1
  rw [l2] at e2
  simp only [Nat.zero_add, List.range_zero, List.map_nil, List.nil_append] at e1
  rw [e1] at e2
  refine ⟨comlibSend { p with msg := m2 } (48 + 44), ?_, ?_⟩
  · simp only [updateCamera, sizeof_sHeader, sizeof_sCamera, h1, h2,
      Option.bind_eq_bind, Option.some_bind]
  · simp only [comlibSend]
    rw [e2]

/-! ### The materials `meshAdd` sends -/

/-- C1 (as stated, refuted): for the vertex count n = 163838, with arrays of
3n, 2n and 3n floats, `meshAdd` cannot lay the message out: its 5242912 bytes
do not fit the `MSGSIZE` = 5242880 bytes of `msg`, the last `memcpy` leaves the
buffer, and nothing is there to be decoded. -/
theorem meshAdd_roundtrip_fails_beyond_MSGSIZE :
    meshAdd zeroBuf idA 163838 54612 (char37 idB) (List.replicate (3 * 163838) f32_zero)
      (List.replicate (2 * 163838) f32_zero) (List.replicate (3 * 163838) f32_zero) [] []
      = none := by
  apply meshAdd_none_of_large
  rw [List.length_replicate, List.length_replicate]
  decide

/-- C1 (amended): for every vertex count n ≥ 0 whose message fits the buffer
(`sizeof(sHeader) + sizeof(sMeshHeader) + 4 * (3 + 2 + 3) * n ≤ MSGSIZE`), every
`int` triangle count, every connected-material id (the 37 bytes of the array)
and float arrays of lengths 3n, 2n and 3n: `meshAdd` lays the message out
(header, mesh header, positions, UVs, normals), and once the transport has
carried its `msgSize` bytes into the consumer's buffer (whatever that buffer
held), the decoding of the consumer's mesh branch yields the same vertex count,
triangle count, connected-material id and the three arrays, element for
element. -/
theorem meshAdd_roundtrip (msg old : Buf) (uuid materialID : List Byte) (n : Nat)
    (numTriangles : Int) (posArr uvArr norArr : List F32) (pad1 pad2 : List Byte)
    (hfit : sizeof_sHeader + sizeof_sMeshHeader + sizeof_float * (3 + 2 + 3) * n ≤ MSGSIZE)
    (htri : -2147483648 ≤ numTriangles ∧ numTriangles < 2147483648)
    (hmat : materialID.length = 37)
    (hpos : posArr.length = 3 * n) (huv : uvArr.length = 2 * n) (hnor : norArr.length = 3 * n) :
    ∃ sent,
      meshAdd msg uuid n numTriangles materialID posArr uvArr norArr pad1 pad2
        = some (sent, sizeof_sHeader + sizeof_sMeshHeader + sizeof_float * (3 + 2 + 3) * n) ∧
      readMesh (comlibTransfer sent
          (sizeof_sHeader + sizeof_sMeshHeader + sizeof_float * (3 + 2 + 3) * n) old)
        = some (⟨n, numTriangles, materialID⟩, ⟨posArr, uvArr, norArr⟩) :=
  meshAdd_roundtrip_aux msg old uuid materialID n numTriangles posArr uvArr norArr pad1 pad2
    hfit htri hmat hpos huv hnor

/-- Witness of C1: one triangle, `vertexCount = 3`. -/
theorem meshAdd_roundtrip_witness :
    sizeof_sHeader + sizeof_sMeshHeader + sizeof_float * (3 + 2 + 3) * 3 ≤ MSGSIZE ∧
    ∃ sent,
      meshAdd zeroBuf idA ((3 : Nat) : Int) 1 (char37 idB) exNine exSix exNine [] []
        = some (sent, sizeof_sHeader + sizeof_sMeshHeader + sizeof_float * (3 + 2 + 3) * 3) ∧
      readMesh (comlibTransfer sent
          (sizeof_sHeader + sizeof_sMeshHeader + sizeof_float * (3 + 2 + 3) * 3) zeroBuf)
        = some (⟨((3 : Nat) : Int), 1, char37 idB⟩, ⟨exNine, exSix, exNine⟩) :=
  ⟨by decide, meshAdd_roundtrip zeroBuf zeroBuf idA (char37 idB) 3 1 exNine exSix exNine [] []
    (by decide) (by decide) (by decide) (by decide) (by decide) (by decide)⟩

/-- C2 (as stated, refuted): a mesh ADD message of 96 bytes (header and mesh
header only) that declares `vertexCount = 1`, hence 32 bytes of arrays it does
not supply, is not rejected: consumed from the initial state it leaves a mesh
store of one entry, its three arrays read from the bytes the buffer held. -/
theorem short_mesh_add_mutates_store :
    ((exMesh ADD idA 1 0 idB []).length,
      (receive initState zeroBuf (exMesh ADD idA 1 0 idB [])).map
        (fun s => (s.modelID, s.modelArr.map (fun m => m.mesh.vertices.length))))
      = (96, some ([idA], [3])) := by
  decide

/-- C2 (amended): the consumer never compares the declared `vertexCount` with
the number of bytes supplied.  For every state and every message, a message is
handled exactly as the same message followed by the bytes the receive buffer
already held behind it; and for every state with aligned stores, a mesh ADD
message with terminated ids whose declared `vertexCount` is not negative and
whose declared arrays lie inside `MSGSIZE` is accepted however few bytes it
supplies: one entry with its id is appended to the mesh store, the arrays
decoded from the buffer, and the transform and material stores are unchanged. -/
theorem short_mesh_add_is_accepted (s : State) (old : Buf) (bytes : List Byte) (h : sHeader)
    (X M hb : List Byte) (hal : Aligned s)
    (hh : readHeader (comlibTransfer (fun i => bytes.getD i 0) bytes.length old) = some h)
    (htype : h.type = MESH) (hact : h.activity = ADD) (hid : cstr h.nodeID = some X)
    (hhb : readBytes (comlibTransfer (fun i => bytes.getD i 0) bytes.length old)
      sizeof_sHeader sizeof_sMeshHeader = some hb)
    (h0 : 0 ≤ decodeInt hb)
    (hfit : sizeof_sHeader + sizeof_sMeshHeader + sizeof_float * (3 + 2 + 3) * (decodeInt hb).toNat
      ≤ MSGSIZE)
    (hM : cstr ((hb.drop 8).take 37) = some M) :
    (∀ k, receive s old (bytes ++ (List.range k).map (fun j => old (bytes.length + j)))
      = receive s old bytes) ∧
    ∃ t md, receive s old bytes = some t ∧
      readMesh (comlibTransfer (fun i => bytes.getD i 0) bytes.length old)
        = some (⟨decodeInt hb, decodeInt (hb.drop 4), (hb.drop 8).take 37⟩, md) ∧
      md.posXYZ.length = 3 * (decodeInt hb).toNat ∧
      t.modelID = s.modelID ++ [X] ∧
      t.modelArr = s.modelArr ++ [addedModel (tempMeshOf
        ⟨decodeInt hb, decodeInt (hb.drop 4), (hb.drop 8).take 37⟩ md)] ∧
      t.transformID = s.transformID ∧ t.transformArr = s.transformArr ∧
      t.materialID = s.materialID ∧ t.materialArr = s.materialArr := by
  refine ⟨fun k => receive_append_stale s old bytes k, ?_⟩
  obtain ⟨md, hrm, lp, -, -⟩ := readMesh_some _ hb hhb h0 hfit
  obtain ⟨t, ht⟩ := recvMeshAdd_some s h _ X M _ md hal hid hrm hM
  obtain ⟨hs, e1, mh2, md2, hrm2, e2⟩ := recvMeshAdd_step s t h _ X hal hid ht
  rw [hrm] at hrm2
  cases hrm2
  refine ⟨t, md, ?_, hrm, lp, e1, e2, hs.1.2.1, hs.1.2.2.1, hs.1.2.2.2.1, hs.1.2.2.2.2⟩
  unfold receive
  rw [consume_mesh _ _ h hh htype, recvMesh_add _ _ _ hact]
  exact ht

/-- Witness of C2: the 96-byte mesh ADD that declares one vertex. -/
theorem short_mesh_add_is_accepted_witness :
    (exMesh ADD idA 1 0 idB []).length = 96 ∧
    ∃ t, receive initState zeroBuf (exMesh ADD idA 1 0 idB []) = some t ∧
      t.modelID = initState.modelID ++ [idA] := by
  obtain ⟨-, t, md, h1, -, -, h2, -⟩ := short_mesh_add_is_accepted initState zeroBuf
    (exMesh ADD idA 1 0 idB []) ⟨ADD, MESH, char37 idA⟩ idA idB
    ((sMeshHeader.mk 1 0 (char37 idB)).bytes []) initState_aligned (by decide) (by decide)
    (by decide) (by decide) (by decide) (by decide) (by decide) (by decide)
  exact ⟨by decide, t, h1, h2⟩

/-- C3 (as stated, refuted): consuming the same mesh ADD message twice from the
initial state leaves two entries with its id, one more than a single
application leaves. -/
theorem mesh_add_twice_leaves_two_entries :
    ((consumeAll initState [bufOf (exMesh ADD idA 0 0 idB [])]).map (fun s => s.modelID),
     (consumeAll initState [bufOf (exMesh ADD idA 0 0 idB []),
        bufOf (exMesh ADD idA 0 0 idB [])]).map (fun s => s.modelID))
      = (some [idA], some [idA, idA]) := by
  decide

/-- C3 (amended): for every state with aligned stores and every mesh ADD
message with id X that decodes (terminated ids, arrays inside the buffer),
applying the message twice in a row appends two entries with id X to the mesh
store, each holding the payload's data; the store is one entry longer than
after a single application. -/
theorem mesh_add_twice_appends_twice (s : State) (msg : Buf) (h : sHeader) (X M : List Byte)
    (mh : sMeshHeader) (md : sMeshData) (hal : Aligned s) (hh : readHeader msg = some h)
    (htype : h.type = MESH) (hact : h.activity = ADD) (hid : cstr h.nodeID = some X)
    (hrm : readMesh msg = some (mh, md)) (hM : cstr mh.connectedMatID = some M) :
    ∃ t1 t2, consume s msg = some t1 ∧ consume t1 msg = some t2 ∧
      t1.modelID = s.modelID ++ [X] ∧
      t2.modelID = s.modelID ++ [X, X] ∧
      t2.modelArr = s.modelArr ++ [addedModel (tempMeshOf mh md), addedModel (tempMeshOf mh md)] ∧
      t2.materialIndexArr.length = s.materialIndexArr.length + 2 := by
  obtain ⟨t1, ht1⟩ := recvMeshAdd_some s h msg X M mh md hal hid hrm hM
  obtain ⟨hs1, e1, mh1, md1, hrm1, f1⟩ := recvMeshAdd_step s t1 h msg X hal hid ht1
  rw [hrm] at hrm1; cases hrm1
  obtain ⟨t2, ht2⟩ := recvMeshAdd_some t1 h msg X M mh md hs1.2.1 hid hrm hM
  obtain ⟨hs2, e2, mh2, md2, hrm2, f2⟩ := recvMeshAdd_step t1 t2 h msg X hs1.2.1 hid ht2
  rw [hrm] at hrm2; cases hrm2
  refine ⟨t1, t2, ?_, ?_, e1, ?_, ?_, ?_⟩
  · rw [consume_mesh _ _ h hh htype, recvMesh_add _ _ _ hact]; exact ht1
  · rw [consume_mesh _ _ h hh htype, recvMesh_add _ _ _ hact]; exact ht2
  · rw [e2, e1]; simp
  · rw [f2, f1]; simp
  · have a2 := hs2.2.1
    have := hal.1.trans hal.2.1
    have l2 : t2.modelID.length = s.modelID.length + 2 := by rw [e2, e1]; simp
    have := a2.1.trans a2.2.1
    omega

/-- Witness of C3: the empty mesh `idA` added twice to the initial state. -/
theorem mesh_add_twice_appends_twice_witness :
    ∃ t1 t2, consume initState (bufOf (exMesh ADD idA 0 0 idB [])) = some t1 ∧
      consume t1 (bufOf (exMesh ADD idA 0 0 idB [])) = some t2 ∧
      t1.modelID = initState.modelID ++ [idA] ∧
      t2.modelID = initState.modelID ++ [idA, idA] ∧
      t2.modelArr = initState.modelArr ++ [exModel, exModel] ∧
      t2.materialIndexArr.length = initState.materialIndexArr.length + 2 :=
  mesh_add_twice_appends_twice initState (bufOf (exMesh ADD idA 0 0 idB []))
    ⟨ADD, MESH, char37 idA⟩ idA idB ⟨0, 0, char37 idB⟩ ⟨[], [], []⟩ initState_aligned
    (by decide) (by decide) (by decide) (by decide) (by decide) (by decide)

/-- C4: for every state with aligned stores and every mesh message bearing id
X, whatever its activity, the mesh-store entries whose id differs from X are
the same afterwards (same geometry, same material index, same relative
order), and the transform store, the material store and the camera are
unchanged. -/
theorem mesh_message_frame (s t : State) (msg : Buf) (h : sHeader) (X : List Byte)
    (hal : Aligned s) (hh : readHeader msg = some h) (htype : h.type = MESH)
    (hid : cstr h.nodeID = some X) (hc : consume s msg = some t) :
    otherMeshes X t = otherMeshes X s ∧
    t.transformID = s.transformID ∧ t.transformArr = s.transformArr ∧
    t.materialID = s.materialID ∧ t.materialArr = s.materialArr ∧ t.camera = s.camera := by
  rw [consume_mesh _ _ h hh htype] at hc
  obtain ⟨⟨a1, a2, a3, a4, a5⟩, -, hO, -⟩ := recvMesh_step s t h msg X hal hid hc
  exact ⟨hO, a2, a3, a4, a5, a1⟩

/-- Witness of C4: removing mesh `idA` from the two meshes `idB`, `idA`. -/
theorem mesh_message_frame_witness :
    consume exTwoMeshes (bufOf (exHeader REMOVE MESH idA)) = some exOneMesh ∧
    otherMeshes idA exOneMesh = otherMeshes idA exTwoMeshes ∧
    exOneMesh.transformID = exTwoMeshes.transformID ∧
    exOneMesh.transformArr = exTwoMeshes.transformArr ∧
    exOneMesh.materialID = exTwoMeshes.materialID ∧
    exOneMesh.materialArr = exTwoMeshes.materialArr ∧
    exOneMesh.camera = exTwoMeshes.camera :=
  ⟨by decide, mesh_message_frame exTwoMeshes exOneMesh (bufOf (exHeader REMOVE MESH idA))
    ⟨REMOVE, MESH, char37 idA⟩ idA ⟨rfl, rfl, rfl, rfl⟩ (by decide) (by decide) (by decide)
    (by decide)⟩

/-- C5 (code defect): from the initial state, two mesh ADD messages with id
`idA` followed by a mesh REMOVE with id `idA` leave a mesh store that still
holds an entry with id `idA`: after erasing at `i` the loop goes on with
`i + 1` and skips the entry that moved into place `i`. -/
theorem mesh_remove_skips_adjacent_duplicate :
    (consumeAll initState [bufOf (exMesh ADD idA 0 0 idB []), bufOf (exMesh ADD idA 0 0 idB []),
      bufOf (exHeader REMOVE MESH idA)]).map (fun s => s.modelID) = some [idA] := by
  decide

/-- C6: for every state and every REMOVE message of kind Mesh, Transform or
Material whose id X is in no entry of the store of that kind, consuming the
message yields the same state: the three stores, the material indices and the
camera are unchanged. -/
theorem remove_unknown_id_is_noop (s : State) (msg : Buf) (h : sHeader) (X : List Byte)
    (hh : readHeader msg = some h) (hact : h.activity = REMOVE) (hid : cstr h.nodeID = some X)
    (hk : (h.type = MESH ∧ X ∉ s.modelID) ∨ (h.type = TRANSFORM ∧ X ∉ s.transformID) ∨
      (h.type = MATERIAL ∧ X ∉ s.materialID)) :
    consume s msg = some s :=
  consume_remove_unknown s msg h X hh hact hid hk

/-- Witness of C6: a mesh REMOVE for `idX` on the meshes `idB`, `idA`. -/
theorem remove_unknown_id_is_noop_witness :
    idX ∉ exTwoMeshes.modelID ∧
    consume exTwoMeshes (bufOf (exHeader REMOVE MESH idX)) = some exTwoMeshes :=
  ⟨by decide, remove_unknown_id_is_noop exTwoMeshes (bufOf (exHeader REMOVE MESH idX))
    ⟨REMOVE, MESH, char37 idX⟩ idX (by decide) (by decide) (by decide)
    (Or.inl ⟨by decide, by decide⟩)⟩

/-- C7: for every state and every UPDATE message of kind Mesh or Transform
whose id X is in no entry of the store of that kind, consuming the message
does not fault (whatever bytes follow the header) and yields the same state:
nothing is inserted and no existing entry is altered. -/
theorem update_unknown_id_is_noop (s : State) (msg : Buf) (h : sHeader) (X : List Byte)
    (hh : readHeader msg = some h) (hact : h.activity = UPDATE) (hid : cstr h.nodeID = some X)
    (hk : (h.type = MESH ∧ X ∉ s.modelID) ∨ (h.type = TRANSFORM ∧ X ∉ s.transformID)) :
    consume s msg = some s :=
  consume_update_unknown s msg h X hh hact hid hk

/-- Witness of C7: a mesh UPDATE for `idX`, declaring a negative vertex count,
on the meshes `idB`, `idA`. -/
theorem update_unknown_id_is_noop_witness :
    idX ∉ exTwoMeshes.modelID ∧
    consume exTwoMeshes (bufOf (exMesh UPDATE idX (-1) 0 idB [])) = some exTwoMeshes :=
  ⟨by decide, update_unknown_id_is_noop exTwoMeshes (bufOf (exMesh UPDATE idX (-1) 0 idB []))
    ⟨UPDATE, MESH, char37 idX⟩ idX (by decide) (by decide) (by decide)
    (Or.inl ⟨by decide, by decide⟩)⟩

/-- C8: in every state, hence in every state reachable from the empty stores
by any sequence of messages, the render loop completes without a fault: each
`at` into the transform store and the material store is in bounds or its
exception is caught, and `modelArr[i]` is in bounds. -/
theorem renderPass_never_faults (s : State) : ∃ r, renderPass s = some r :=
  renderPass_some s

/-- C9 (as stated, refuted): from the initial state, material ADD `idA`,
material ADD `idB`, mesh ADD `idX` connected to `idB`, material REMOVE `idA`,
material REMOVE `idB` lead to a state whose one mesh has material index 1
while the material store is empty: neither a valid index nor the number of
materials. -/
theorem materialIndex_exceeds_after_material_remove :
    (consumeAll initState [bufOf (exMaterial ADD idA), bufOf (exMaterial ADD idB),
      bufOf (exMesh ADD idX 0 0 idB []), bufOf (exHeader REMOVE MATERIAL idA),
      bufOf (exHeader REMOVE MATERIAL idB)]).map
        (fun s => (s.materialIndexArr, s.materialArr.length)) = some ([1], 0) := by
  decide

/-- C9 (amended): in every state reachable from the empty stores by a sequence
of messages none of which is a material REMOVE, every mesh's material index is
either a valid index into the material store or equal to the current number of
materials. -/
theorem materialIndex_valid_or_sentinel (s : State)
    (hr : ReachableVia (fun msg => isMaterialRemove msg = false) s) :
    ∀ k ∈ s.materialIndexArr,
      (0 ≤ k ∧ k < (s.materialArr.length : Int)) ∨ k = (s.materialArr.length : Int) := by
  have key : ∀ k ∈ s.materialIndexArr, 0 ≤ k ∧ k ≤ (s.materialArr.length : Int) := by
    induction hr with
    | init => intro k hk; simp [initState] at hk
    | step msg hprev hall hc ih =>
      exact consume_idx_bounded _ _ msg (ReachableVia_aligned _ _ hprev) hall ih hc
  intro k hk
  have := key k hk
  omega

/-- Witness of C9: the state after material ADD `idA` and mesh ADD `idX`
connected to `idA`; its one material index is 0, a valid index. -/
theorem materialIndex_valid_or_sentinel_witness :
    ReachableVia (fun msg => isMaterialRemove msg = false) exMaterialThenMesh ∧
    (0 : Int) ∈ exMaterialThenMesh.materialIndexArr ∧
    ((0 ≤ (0 : Int) ∧ (0 : Int) < (exMaterialThenMesh.materialArr.length : Int)) ∨
      (0 : Int) = (exMaterialThenMesh.materialArr.length : Int)) :=
  have hr : ReachableVia (fun msg => isMaterialRemove msg = false) exMaterialThenMesh :=
    consumeAll_reachable _
      [bufOf (exMaterial ADD idA), bufOf (exMesh ADD idX 0 0 idA [])] initState
      exMaterialThenMesh ReachableVia.init (by decide) (by decide)
  ⟨hr, by decide, materialIndex_valid_or_sentinel exMaterialThenMesh hr 0 (by decide)⟩

/-- C10 (code defect): with the one material `idA` in the store, a mesh ADD for
`idX` whose connected-material id `idB` matches no material stores the new mesh
with material index 0, the index of `idA`, not with the number of materials
(1); the mesh UPDATE branch, given the same message content, stores 1. -/
theorem mesh_add_unknown_material_gets_index_zero :
    (consumeAll initState [bufOf (exMaterial ADD idA),
        bufOf (exMesh ADD idX 0 0 idB [])]).map
          (fun s => (s.materialID, s.materialIndexArr)) = some ([idA], [0]) ∧
    (consumeAll initState [bufOf (exMaterial ADD idA), bufOf (exMesh ADD idX 0 0 idB []),
        bufOf (exMesh UPDATE idX 0 0 idB [])]).map
          (fun s => (s.materialID, s.materialIndexArr)) = some ([idA], [1]) := by
  decide

/-- C15: for every state whose material vectors are aligned and every material
UPDATE message whose id X is in the material store and whose `pathSize` is
zero, consuming the message does not fault; afterwards every material entry
with id X has the three colour channels of the message and the texture (and
shader) it had, the ids of the material store are the same, and every entry
with another id is unchanged. -/
theorem material_update_without_texture (s : State) (msg : Buf) (h : sHeader) (X : List Byte)
    (sm : sMaterial) (hlen : s.materialID.length = s.materialArr.length)
    (hh : readHeader msg = some h) (htype : h.type = MATERIAL) (hact : h.activity = UPDATE)
    (hid : cstr h.nodeID = some X) (hX : X ∈ s.materialID)
    (hrm : readMaterial msg = some sm) (h0 : sm.pathSize = 0) :
    ∃ t : State, consume s msg = some t ∧
      t.materialID = s.materialID ∧ t.materialArr.length = s.materialArr.length ∧
      (∀ (j : Nat) (m : Material), s.materialID[j]? = some X → s.materialArr[j]? = some m →
        t.materialArr[j]? = some { m with color :=
          ⟨.times255 (sm.color.getD 0 ⟨0, 0, 0, 0⟩), .times255 (sm.color.getD 1 ⟨0, 0, 0, 0⟩),
           .times255 (sm.color.getD 2 ⟨0, 0, 0, 0⟩)⟩ }) ∧
      (∀ j : Nat, s.materialID[j]? ≠ some X → t.materialArr[j]? = s.materialArr[j]?) := by
  obtain ⟨⟨t, d⟩, ht, e1, e2, e3, e4, e5⟩ := materialUpdate_run h sm X
    (fun m => { m with color :=
      ⟨.times255 (sm.color.getD 0 ⟨0, 0, 0, 0⟩), .times255 (sm.color.getD 1 ⟨0, 0, 0, 0⟩),
       .times255 (sm.color.getD 2 ⟨0, 0, 0, 0⟩)⟩ }) s hlen hid
    (fun m => applyMaterial_zero sm m h0)
  simp only at e1 e2 e3 e4 e5
  have hd : d = true := e5.mpr hX
  subst hd
  refine ⟨t, ?_, e1, e2, ?_, e4⟩
  · rw [consume_material s msg h hh htype, recvMaterial_update s h msg hact]
    simp only [recvMaterialUpdate, hrm, ht, Option.bind_eq_bind, Option.some_bind]
    simp
  · intro j m hjX hjm
    rw [e3 j hjX, hjm]
    rfl

/-- Witness of C15: an UPDATE without path for the textured material `idA`. -/
theorem material_update_without_texture_witness :
    idA ∈ exTwoMaterials.materialID ∧
    ∃ t : State, consume exTwoMaterials (bufOf (exMaterial UPDATE idA)) = some t ∧
      t.materialID = exTwoMaterials.materialID ∧
      t.materialArr.length = exTwoMaterials.materialArr.length ∧
      (∀ (j : Nat) (m : Material), exTwoMaterials.materialID[j]? = some idA →
        exTwoMaterials.materialArr[j]? = some m →
        t.materialArr[j]? = some { m with color :=
          ⟨.times255 (([f32_one, f32_one, f32_one] : List F32).getD 0 ⟨0, 0, 0, 0⟩),
           .times255 (([f32_one, f32_one, f32_one] : List F32).getD 1 ⟨0, 0, 0, 0⟩),
           .times255 (([f32_one, f32_one, f32_one] : List F32).getD 2 ⟨0, 0, 0, 0⟩)⟩ }) ∧
      (∀ j : Nat, exTwoMaterials.materialID[j]? ≠ some idA →
        t.materialArr[j]? = exTwoMaterials.materialArr[j]?) :=
  ⟨by decide, material_update_without_texture exTwoMaterials (bufOf (exMaterial UPDATE idA))
    ⟨UPDATE, MATERIAL, char37 idA⟩ idA ⟨[f32_one, f32_one, f32_one], 0, []⟩ (by decide)
    (by decide) (by decide) (by decide) (by decide) (by decide) (by decide) (by decide)⟩

/-- C11: for every state with aligned stores and every mesh UPDATE message
with id X (in particular for a known mesh) that decodes and whose
connected-material id M is in no entry of the material store, consuming the
message does not fault and every mesh entry with id X gets the current number
of materials as its material index; and when the next message is a material
ADD with id M that decodes, then afterwards the material stored at that index
is the new one and has id M. -/
theorem mesh_update_unknown_material_sentinel (s : State) (msg : Buf) (h : sHeader)
    (X M : List Byte) (mh : sMeshHeader) (md : sMeshData) (hal : Aligned s)
    (hh : readHeader msg = some h) (htype : h.type = MESH) (hact : h.activity = UPDATE)
    (hid : cstr h.nodeID = some X) (hrm : readMesh msg = some (mh, md))
    (hC : cstr mh.connectedMatID = some M) (hM : M ∉ s.materialID) :
    ∃ t : State, consume s msg = some t ∧ t.modelID = s.modelID ∧
      t.materialID = s.materialID ∧ t.materialArr = s.materialArr ∧
      (∀ j : Nat, s.modelID[j]? = some X →
        t.materialIndexArr[j]? = some (s.materialArr.length : Int)) ∧
      ∀ (msg2 : Buf) (h2 : sHeader) (sm : sMaterial) (m : Material),
        readHeader msg2 = some h2 → h2.type = MATERIAL → h2.activity = ADD →
        cstr h2.nodeID = some M → readMaterial msg2 = some sm →
        applyMaterial sm { LoadMaterialDefault with shader := true } = some m →
        ∃ u : State, consume t msg2 = some u ∧ u.modelID = s.modelID ∧
          (∀ j : Nat, s.modelID[j]? = some X →
            u.materialIndexArr[j]? = some (s.materialArr.length : Int)) ∧
          u.materialID[s.materialArr.length]? = some M ∧
          u.materialArr[s.materialArr.length]? = some m := by
  obtain ⟨t, ht, e1, e2, e3⟩ := meshUpdate_run_unknown h msg X M mh md s hal hid hrm hC hM
  have hc : consume s msg = some t := by
    rw [consume_mesh s msg h hh htype, recvMesh_update s h msg hact]; exact ht
  have hstep := recvMesh_step s t h msg X hal hid
    (by rw [← consume_mesh s msg h hh htype]; exact hc)
  obtain ⟨⟨-, -, -, f4, f5⟩, -, -, -⟩ := hstep
  refine ⟨t, hc, e1, f4, f5, fun j hj => (e2 j hj).1, ?_⟩
  intro msg2 h2 sm m hh2 ht2 ha2 hid2 hrm2 hap
  have hMt : M ∉ t.materialID := by rw [f4]; exact hM
  refine ⟨{ t with materialID := t.materialID ++ [M], materialArr := t.materialArr ++ [m] },
    ?_, e1, fun j hj => (e2 j hj).1, ?_, ?_⟩
  · rw [consume_material t msg2 h2 hh2 ht2, recvMaterial_add t h2 msg2 ha2]
    exact recvMaterialAdd_new t h2 msg2 M sm m hid2 hMt hrm2 hap
  · show (t.materialID ++ [M])[s.materialArr.length]? = some M
    rw [f4, ← hal.2.2.2]
    simp
  · show (t.materialArr ++ [m])[s.materialArr.length]? = some m
    rw [f5]
    simp

/-- Witness of C11: an UPDATE of mesh `idX` naming the unknown material `idB`,
followed by the material ADD of `idB`. -/
theorem mesh_update_unknown_material_sentinel_witness :
    idB ∉ exMeshAndMaterial.materialID ∧
    ∃ t u : State,
      consume exMeshAndMaterial (bufOf (exMesh UPDATE idX 0 0 idB [])) = some t ∧
      (∀ j : Nat, exMeshAndMaterial.modelID[j]? = some idX →
        t.materialIndexArr[j]? = some (exMeshAndMaterial.materialArr.length : Int)) ∧
      consume t (bufOf (exMaterial ADD idB)) = some u ∧
      u.materialID[exMeshAndMaterial.materialArr.length]? = some idB := by
  obtain ⟨t, h1, -, -, -, h2, h3⟩ := mesh_update_unknown_material_sentinel exMeshAndMaterial
    (bufOf (exMesh UPDATE idX 0 0 idB [])) ⟨UPDATE, MESH, char37 idX⟩ idX idB
    ⟨0, 0, char37 idB⟩ ⟨[], [], []⟩ ⟨rfl, rfl, rfl, rfl⟩ (by decide) (by decide) (by decide)
    (by decide) (by decide) (by decide) (by decide)
  obtain ⟨u, h4, -, -, h5, -⟩ := h3 (bufOf (exMaterial ADD idB)) ⟨ADD, MATERIAL, char37 idB⟩
    ⟨[f32_one, f32_one, f32_one], 0, []⟩
    ⟨true, ⟨.times255 f32_one, .times255 f32_one, .times255 f32_one⟩, .dflt⟩
    (by decide) (by decide) (by decide) (by decide) (by decide) (by decide)
  exact ⟨by decide, t, u, h1, h2, h4, h5⟩

/-- C13: for every 4x4 matrix `M`, given as `M r c` for `M[r][c]`, every
transform node with that inclusive matrix and every content of the buffers:
`transformAdd` sends exactly the 112 bytes of the ADD message and
`transformUpdate` sends first the 112 bytes of the UPDATE message, neither
faulting; the consumer's decoding of either message gives a matrix whose field
`m(4 r + c)` is `M r c` for all `r`, `c` in 0..3, so that `M[3][0]`, `M[3][1]`,
`M[3][2]` are in `m12`, `m13`, `m14`; and the consumer, receiving the ADD in
any state, appends a matrix with these fields to its transform store. -/
theorem transform_matrix_carried_verbatim (uuid : List Byte) (M : Fin 4 → Fin 4 → F32)
    (children : List DagNode) (pad : List Byte) (p : Producer) (old : Buf) :
    (∃ q, transformAdd (.transform uuid M children) pad p = some q ∧
      q.sent = p.sent ++ [transformBytes ADD uuid M pad]) ∧
    (∃ q, transformUpdate (.transform uuid M children) pad p = some q ∧
      q.sent[p.sent.length]? = some (transformBytes UPDATE uuid M pad)) ∧
    (∀ activity : Int, ∃ tr : sTransform,
      readTransform (comlibTransfer (bufOf (transformBytes activity uuid M pad))
        (transformBytes activity uuid M pad).length old) = some tr ∧
      (∀ r c : Fin 4, (matrixOf tr).field (4 * r.val + c.val) = M r c) ∧
      (matrixOf tr).m12 = M 3 0 ∧ (matrixOf tr).m13 = M 3 1 ∧ (matrixOf tr).m14 = M 3 2) ∧
    (∀ (s : State) (X : List Byte), cstr (char37 uuid) = some X →
      ∃ m : Matrix, receive s old (transformBytes ADD uuid M pad)
          = some { s with transformID := s.transformID ++ [X]
                          transformArr := s.transformArr ++ [m] } ∧
        ∀ r c : Fin 4, m.field (4 * r.val + c.val) = M r c) := by
  refine ⟨?_, ?_, ?_, ?_⟩
  · exact transformSend_sent ADD uuid M pad p
  · obtain ⟨q, hq, e⟩ := transformUpdate_sent (.transform uuid M children) pad p
    refine ⟨q, hq, ?_⟩
    rw [e, List.getElem?_append_right (Nat.le_refl _)]
    simp [transformsBelow]
  · intro activity
    exact ⟨transformDataOf M, transformBytes_decode activity uuid M pad old,
      matrixOf_transformDataOf M, rfl, rfl, rfl⟩
  · intro s X hX
    refine ⟨matrixOf (transformDataOf M), ?_, matrixOf_transformDataOf M⟩
    have hh := transformBytes_header ADD uuid M pad old (by decide)
    have hd := transformBytes_decode ADD uuid M pad old
    unfold receive
    rw [show (fun i => (transformBytes ADD uuid M pad).getD i 0)
      = bufOf (transformBytes ADD uuid M pad) from rfl]
    rw [consume_transform s _ _ hh rfl, recvTransform_add _ _ _ rfl]
    simp only [recvTransformAdd, hX, hd, Option.bind_eq_bind, Option.some_bind]

/-- Witness of C13: the transform `idX` with the identity matrix, added to the
initial state. -/
theorem transform_matrix_carried_verbatim_witness :
    cstr (char37 idX) = some idX ∧
    ∃ m : Matrix, receive initState zeroBuf (transformBytes ADD idX exIdentity [])
        = some { initState with transformID := initState.transformID ++ [idX]
                                transformArr := initState.transformArr ++ [m] } ∧
      ∀ r c : Fin 4, m.field (4 * r.val + c.val) = exIdentity r c :=
  ⟨by decide, (transform_matrix_carried_verbatim idX exIdentity [] [] exProducer zeroBuf).2.2.2
    initState idX (by decide)⟩

/-- C16: for every scene hierarchy (a finite tree of nodes), every padding and
every state of the producer, `transformUpdate` on a node returns, having sent
after the earlier messages exactly one 112 byte message per transform node due
(the node itself and every transform node reached from it through transform
nodes only), a parent's message before its children's; the consumer reads
each as a transform UPDATE bearing that node's id; a node that is not a
transform sends nothing; and a parent with two child transforms that each
hold a mesh shape sends exactly three messages: its own, then the children's. -/
theorem transformUpdate_emits_whole_subtree (node : DagNode) (pad : List Byte) (p : Producer) :
    (∃ q, transformUpdate node pad p = some q ∧
      q.sent = p.sent ++ (transformsBelow node).map
        (fun e => transformBytes UPDATE e.1 e.2 pad) ∧
      q.sent.length = p.sent.length + (transformsBelow node).length) ∧
    (∀ (uuid : List Byte) (M : Fin 4 → Fin 4 → F32) (old : Buf),
      readHeader (comlibTransfer (bufOf (transformBytes UPDATE uuid M pad))
        (transformBytes UPDATE uuid M pad).length old)
        = some ⟨UPDATE, TRANSFORM, char37 uuid⟩) ∧
    (∀ (uuid : List Byte) (M : Fin 4 → Fin 4 → F32) (children : List DagNode),
      transformsBelow (.transform uuid M children) = (uuid, M) :: transformsBelowAll children) ∧
    transformsBelow .other = [] ∧
    transformUpdate .other pad p = some p ∧
    (∀ (x a b : List Byte) (Mx Ma Mb : Fin 4 → Fin 4 → F32),
      ∃ q, transformUpdate
          (.transform x Mx [.transform a Ma [.other], .transform b Mb [.other]]) pad p = some q ∧
        q.sent = p.sent ++ [transformBytes UPDATE x Mx pad, transformBytes UPDATE a Ma pad,
          transformBytes UPDATE b Mb pad]) := by
  refine ⟨?_, ?_, ?_, ?_, ?_, ?_⟩
  · obtain ⟨q, hq, e⟩ := transformUpdate_sent node pad p
    exact ⟨q, hq, e, by rw [e]; simp⟩
  · intro uuid M old
    exact transformBytes_header UPDATE uuid M pad old (by decide)
  · intro uuid M children
    simp [transformsBelow]
  · simp [transformsBelow]
  · simp [transformUpdate]
  · intro x a b Mx Ma Mb
    obtain ⟨q, hq, e⟩ := transformUpdate_sent
      (.transform x Mx [.transform a Ma [.other], .transform b Mb [.other]]) pad p
    refine ⟨q, hq, ?_⟩
    rw [e]
    simp [transformsBelow, transformsBelowAll]

/-- C17 (as stated, refuted): the mesh `idX` is connected to the shading group
`idB`, which is not being deleted and is used by another mesh; `meshRemove` on
the mesh sends the mesh REMOVE and then a material REMOVE. -/
theorem meshRemove_removes_material_in_use :
    exShadingGroup.beingDeleted = false ∧ exShadingGroup.usedByOtherMesh = true ∧
    exMeshNode.shadingEngines = [exShadingGroup] ∧
    (meshRemove exMeshNode [] exProducer).map sentKinds
      = some [some (REMOVE, MESH), some (REMOVE, MATERIAL)] :=
  ⟨by decide, by decide, rfl, by decide⟩

/-- C17 (amended): for every mesh, every padding and every state of the
producer, `meshRemove` returns, having sent the mesh REMOVE and then one
material REMOVE for every shading group found downstream of the mesh to which
`MMaterial` attaches, whether or not that shading group is being deleted and
whether or not another mesh uses it. -/
theorem meshRemove_removes_every_shading_group (node : MeshNode) (pad : List Byte)
    (p : Producer) (hmesh : node.isMesh = true) :
    ∃ q, meshRemove node pad p = some q ∧
      q.sent = p.sent ++ (sHeader.mk REMOVE MESH (char37 node.uuid)).bytes pad ::
        (node.shadingEngines.filter (fun se => se.mmaterial)).map
          (fun se => (sHeader.mk REMOVE MATERIAL (char37 se.uuid)).bytes pad) := by
  obtain ⟨q1, h1, e1⟩ := removeSend_sent MESH node.uuid pad p
  obtain ⟨q2, h2, e2⟩ := materialRemoveAll_sent node.shadingEngines pad q1
  refine ⟨q2, ?_, ?_⟩
  · simp only [meshRemove, hmesh, if_true, h1, Option.some_bind, h2]
  · rw [e2, e1]
    simp

/-- Witness of C17 (amended): the mesh `idX` connected to the shading group
`idB`. -/
theorem meshRemove_removes_every_shading_group_witness :
    exMeshNode.isMesh = true ∧
    ∃ q, meshRemove exMeshNode [] exProducer = some q ∧
      q.sent = exProducer.sent ++ (sHeader.mk REMOVE MESH (char37 exMeshNode.uuid)).bytes [] ::
        (exMeshNode.shadingEngines.filter (fun se => se.mmaterial)).map
          (fun se => (sHeader.mk REMOVE MATERIAL (char37 se.uuid)).bytes []) :=
  ⟨rfl, meshRemove_removes_every_shading_group exMeshNode [] exProducer rfl⟩

/-- C18 (as stated, refuted): a notification whose mask is the evaluation bit
alone (no incoming-direction bit, no connection-made bit), naming the plug
`outMesh` of the mesh `idX`: `attributeChangedMesh` sends a mesh UPDATE. -/
theorem evaluation_only_notification_sends_update :
    kAttributeEval &&& kAttributeEval ≠ 0 ∧ kAttributeEval &&& kIncomingDirection = 0 ∧
    kAttributeEval &&& kConnectionMade = 0 ∧
    (attributeChangedMesh kAttributeEval true true exMeshNode [] [] exProducer).map sentKinds
      = some [some (UPDATE, MESH)] ∧
    (attributeChangedMesh kAttributeEval true true exMeshNode [] [] exProducer).map sentIds
      = some [some idX] := by
  decide

/-- C18 (amended): for every notification on a mesh whose mask has the
evaluation bit but neither the incoming-direction bit nor the connection-made
bit, `attributeChangedMesh` sends nothing when the notification names a plug
other than `outMesh`; when it names `outMesh` and the vertex iterator
attaches, it does exactly what one call of `meshUpdate` does. -/
theorem evaluation_only_notification_needs_outMesh (mask : Nat) (vertIter : Bool)
    (node : MeshNode) (pad1 pad2 : List Byte) (p : Producer)
    (heval : mask &&& kAttributeEval ≠ 0) (_hin : mask &&& kIncomingDirection = 0)
    (hconn : mask &&& kConnectionMade = 0) :
    attributeChangedMesh mask false vertIter node pad1 pad2 p = some p ∧
    attributeChangedMesh mask true true node pad1 pad2 p = meshUpdateNode node pad1 pad2 p := by
  have h1 := and_sum_ne_zero_left mask heval
  constructor
  · simp [attributeChangedMesh, hconn]
  · simp only [attributeChangedMesh, h1, hconn, ne_eq, not_false_eq_true, not_true_eq_false,
      if_true, if_false, Option.bind_eq_bind, Option.bind_some]

/-- Witness of C18 (amended): the evaluation bit alone, on the mesh `idX`. -/
theorem evaluation_only_notification_needs_outMesh_witness :
    kAttributeEval &&& kAttributeEval ≠ 0 ∧ kAttributeEval &&& kIncomingDirection = 0 ∧
    kAttributeEval &&& kConnectionMade = 0 ∧
    attributeChangedMesh kAttributeEval false true exMeshNode [] [] exProducer
      = some exProducer ∧
    attributeChangedMesh kAttributeEval true true exMeshNode [] [] exProducer
      = meshUpdateNode exMeshNode [] [] exProducer :=
  ⟨by decide, by decide, by decide,
    evaluation_only_notification_needs_outMesh kAttributeEval true exMeshNode [] [] exProducer
      (by decide) (by decide) (by decide)⟩

/-- C19: on the shading group `idB` fed by the shader `idA`, `materialAdd`
and `materialUpdate` send a message bearing the id `idA` (the shader's UUID),
`materialRemove` one bearing the id `idB` (the shading group's own UUID); a
consumer that receives the ADD and then the REMOVE still holds the material
`idA`. -/
theorem materialRemove_bears_another_id :
    exShadingGroup.uuid = idB ∧ exShadingGroup.surfaceShader.map (fun m => m.uuid) = some idA ∧
    (materialAdd exShadingGroup [] [] exProducer).map sentKinds = some [some (ADD, MATERIAL)] ∧
    (materialAdd exShadingGroup [] [] exProducer).map sentIds = some [some idA] ∧
    (materialUpdate exShadingGroup [] [] exProducer).map sentIds = some [some idA] ∧
    (materialRemove exShadingGroup [] exProducer).map sentKinds
      = some [some (REMOVE, MATERIAL)] ∧
    (materialRemove exShadingGroup [] exProducer).map sentIds = some [some idB] ∧
    (((materialAdd exShadingGroup [] [] exProducer).bind
      (fun p => materialRemove exShadingGroup [] p)).bind
      (fun p => consumeAll initState (p.sent.map bufOf))).map (fun s => s.materialID)
      = some [idA] := by
  decide

/-- C21 (as stated, refuted): from the initial state the meshes `idB` and
`idA` are added, then the transforms `idA` (first value 10) and `idB` (the
identity) in the one order or the other; in the render loop that follows the
first mesh is drawn with the matrix of `idA` in the one case and with the
matrix of `idB` in the other, and the second mesh the other way round. -/
theorem transform_add_order_changes_drawn_transforms :
    ((consumeAll initState
        [bufOf (exMesh ADD idB 0 0 idA []), bufOf (exMesh ADD idA 0 0 idA []),
         bufOf (exTransform ADD idA exSixteen), bufOf (exTransform ADD idB exIdentity16)]).bind
      renderPass).map (fun r => (r.1.modelID, r.1.transformID, r.2.map (fun m => m.transform.m0)))
      = some ([idB, idA], [idA, idB], [f32_ten, f32_one]) ∧
    ((consumeAll initState
        [bufOf (exMesh ADD idB 0 0 idA []), bufOf (exMesh ADD idA 0 0 idA []),
         bufOf (exTransform ADD idB exIdentity16), bufOf (exTransform ADD idA exSixteen)]).bind
      renderPass).map (fun r => (r.1.modelID, r.1.transformID, r.2.map (fun m => m.transform.m0)))
      = some ([idB, idA], [idB, idA], [f32_one, f32_ten]) := by
  decide

/-- C21 (amended): the consumer pairs meshes and transforms by position.  For
every state and every two transform ADD messages with terminated ids,
consuming them in either order and running the render loop does not fault; the
two matrices are appended to the transform store in the order of arrival; the
mesh at position `i` is drawn with the matrix at position `i` of the
transform store, or with the transform it had when the store is shorter.  So
the two orders draw every mesh alike except the meshes at the two positions
the new matrices occupy, which get them in the order of arrival. -/
theorem transform_adds_pair_by_position (s : State) (msgA msgB : Buf) (hA hB : sHeader)
    (A B : List Byte)
    (hhA : readHeader msgA = some hA) (htA : hA.type = TRANSFORM) (haA : hA.activity = ADD)
    (hiA : cstr hA.nodeID = some A)
    (hhB : readHeader msgB = some hB) (htB : hB.type = TRANSFORM) (haB : hB.activity = ADD)
    (hiB : cstr hB.nodeID = some B) :
    ∃ (trA trB : sTransform) (dAB dBA : List Model),
      readTransform msgA = some trA ∧ readTransform msgB = some trB ∧
      (consumeAll s [msgA, msgB]).bind renderPass
        = some ({ s with transformID := s.transformID ++ [A, B]
                         transformArr := s.transformArr ++ [matrixOf trA, matrixOf trB]
                         modelArr := dAB }, dAB) ∧
      (consumeAll s [msgB, msgA]).bind renderPass
        = some ({ s with transformID := s.transformID ++ [B, A]
                         transformArr := s.transformArr ++ [matrixOf trB, matrixOf trA]
                         modelArr := dBA }, dBA) ∧
      ∀ (i : Nat) (m : Model), s.modelArr[i]? = some m →
        ∃ mAB mBA : Model, dAB[i]? = some mAB ∧ dBA[i]? = some mBA ∧
          mAB.transform
            = ((s.transformArr ++ [matrixOf trA, matrixOf trB])[i]?).getD m.transform ∧
          mBA.transform
            = ((s.transformArr ++ [matrixOf trB, matrixOf trA])[i]?).getD m.transform ∧
          mAB.mesh = m.mesh ∧ mBA.mesh = m.mesh ∧ mAB.material = mBA.material ∧
          (i < s.transformArr.length ∨ s.transformArr.length + 2 ≤ i → mAB = mBA) ∧
          (i = s.transformArr.length →
            mAB.transform = matrixOf trA ∧ mBA.transform = matrixOf trB) ∧
          (i = s.transformArr.length + 1 →
            mAB.transform = matrixOf trB ∧ mBA.transform = matrixOf trA) := by
  obtain ⟨trA, hrA⟩ := readTransform_some msgA
  obtain ⟨trB, hrB⟩ := readTransform_some msgB
  have cA : ∀ u : State, consume u msgA = some { u with
      transformID := u.transformID ++ [A], transformArr := u.transformArr ++ [matrixOf trA] } := by
    intro u
    rw [consume_transform u msgA hA hhA htA, recvTransform_add u hA msgA haA]
    exact recvTransformAdd_eq u hA msgA A trA hiA hrA
  have cB : ∀ u : State, consume u msgB = some { u with
      transformID := u.transformID ++ [B], transformArr := u.transformArr ++ [matrixOf trB] } := by
    intro u
    rw [consume_transform u msgB hB hhB htB, recvTransform_add u hB msgB haB]
    exact recvTransformAdd_eq u hB msgB B trB hiB hrB
  have eAB : consumeAll s [msgA, msgB] = some { s with
      transformID := s.transformID ++ [A, B]
      transformArr := s.transformArr ++ [matrixOf trA, matrixOf trB] } := by
    simp only [consumeAll, cA, cB, Option.some_bind, List.append_assoc, List.singleton_append]
  have eBA : consumeAll s [msgB, msgA] = some { s with
      transformID := s.transformID ++ [B, A]
      transformArr := s.transformArr ++ [matrixOf trB, matrixOf trA] } := by
    simp only [consumeAll, cA, cB, Option.some_bind, List.append_assoc, List.singleton_append]
  obtain ⟨dAB, r1, -, g1⟩ := renderPass_spec { s with
      transformID := s.transformID ++ [A, B]
      transformArr := s.transformArr ++ [matrixOf trA, matrixOf trB] }
  obtain ⟨dBA, r2, -, g2⟩ := renderPass_spec { s with
      transformID := s.transformID ++ [B, A]
      transformArr := s.transformArr ++ [matrixOf trB, matrixOf trA] }
  refine ⟨trA, trB, dAB, dBA, hrA, hrB, ?_, ?_, ?_⟩
  · rw [eAB, Option.some_bind, r1]
  · rw [eBA, Option.some_bind, r2]
  · intro i m hm
    have f1 := g1 i
    have f2 := g2 i
    simp only [hm, Option.map_some'] at f1 f2
    have hd : ∀ (X : List (List Byte)) (Y : List Matrix),
        drawnModel { s with transformID := X, transformArr := Y } i m
          = { transform := (Y[i]?).getD m.transform, mesh := m.mesh
              material := ((s.materialIndexArr[i]?).bind
                (fun k => vecAtInt s.materialArr k)).getD m.material } := fun _ _ => rfl
    refine ⟨_, _, f1, f2, rfl, rfl, rfl, rfl, rfl, ?_, ?_, ?_⟩
    · intro hi
      rw [hd, hd]
      rcases hi with hi | hi
      · rw [List.getElem?_append_left hi, List.getElem?_append_left hi]
      · have hl : ∀ a b : Matrix, (s.transformArr ++ [a, b]).length
            = s.transformArr.length + 2 := by
          intro a b; simp
        have n1 : (s.transformArr ++ [matrixOf trA, matrixOf trB])[i]? = none :=
          List.getElem?_eq_none (by rw [hl]; omega)
        have n2 : (s.transformArr ++ [matrixOf trB, matrixOf trA])[i]? = none :=
          List.getElem?_eq_none (by rw [hl]; omega)
        rw [n1, n2]
    · intro hi
      subst hi
      have g0 : ∀ a b : Matrix,
          (s.transformArr ++ [a, b])[s.transformArr.length]? = some a := by
        intro a b
        rw [List.getElem?_append_right (Nat.le_refl _)]
        simp
      rw [hd, hd, g0, g0]
      exact ⟨rfl, rfl⟩
    · intro hi
      subst hi
      have g0 : ∀ a b : Matrix,
          (s.transformArr ++ [a, b])[s.transformArr.length + 1]? = some b := by
        intro a b
        rw [List.getElem?_append_right (Nat.le_succ _)]
        simp
      rw [hd, hd, g0, g0]
      exact ⟨rfl, rfl⟩

/-- Witness of C21 (amended): the transforms `idA` and `idB` arriving at the
two meshes `idB`, `idA`. -/
theorem transform_adds_pair_by_position_witness :
    ∃ (trA trB : sTransform) (dAB dBA : List Model),
      readTransform (bufOf (exTransform ADD idA exSixteen)) = some trA ∧
      readTransform (bufOf (exTransform ADD idB exIdentity16)) = some trB ∧
      (consumeAll exTwoMeshes [bufOf (exTransform ADD idA exSixteen),
          bufOf (exTransform ADD idB exIdentity16)]).bind renderPass
        = some ({ exTwoMeshes with
            transformID := exTwoMeshes.transformID ++ [idA, idB]
            transformArr := exTwoMeshes.transformArr ++ [matrixOf trA, matrixOf trB]
            modelArr := dAB }, dAB) ∧
      (consumeAll exTwoMeshes [bufOf (exTransform ADD idB exIdentity16),
          bufOf (exTransform ADD idA exSixteen)]).bind renderPass
        = some ({ exTwoMeshes with
            transformID := exTwoMeshes.transformID ++ [idB, idA]
            transformArr := exTwoMeshes.transformArr ++ [matrixOf trB, matrixOf trA]
            modelArr := dBA }, dBA) ∧
      ∀ (i : Nat) (m : Model), exTwoMeshes.modelArr[i]? = some m →
        ∃ mAB mBA : Model, dAB[i]? = some mAB ∧ dBA[i]? = some mBA ∧
          mAB.transform
            = ((exTwoMeshes.transformArr ++ [matrixOf trA, matrixOf trB])[i]?).getD m.transform ∧
          mBA.transform
            = ((exTwoMeshes.transformArr ++ [matrixOf trB, matrixOf trA])[i]?).getD m.transform ∧
          mAB.mesh = m.mesh ∧ mBA.mesh = m.mesh ∧ mAB.material = mBA.material ∧
          (i < exTwoMeshes.transformArr.length ∨ exTwoMeshes.transformArr.length + 2 ≤ i →
            mAB = mBA) ∧
          (i = exTwoMeshes.transformArr.length →
            mAB.transform = matrixOf trA ∧ mBA.transform = matrixOf trB) ∧
          (i = exTwoMeshes.transformArr.length + 1 →
            mAB.transform = matrixOf trB ∧ mBA.transform = matrixOf trA) :=
  transform_adds_pair_by_position exTwoMeshes (bufOf (exTransform ADD idA exSixteen))
    (bufOf (exTransform ADD idB exIdentity16)) ⟨ADD, TRANSFORM, char37 idA⟩
    ⟨ADD, TRANSFORM, char37 idB⟩ idA idB (by decide) (by decide) (by decide) (by decide)
    (by decide) (by decide) (by decide) (by decide)

/-- C22 (as stated, refuted): the black material `idA` is added and a frame is
drawn, the mesh `idX` connected to it is added and a frame is drawn, then the
material is removed: in the frame that follows the material store is empty,
the mesh's material index 0 is out of range, and the mesh is drawn with the
black material of the frame before, not with the default material. -/
theorem stale_material_is_drawn :
    ((frames initState
        [bufOf (exMaterialBlack ADD idA), bufOf (exMesh ADD idX 0 0 idA [])]).bind
      (fun s => (consume s (bufOf (exHeader REMOVE MATERIAL idA))).bind renderPass)).map
      (fun r => (r.1.materialArr, r.1.materialIndexArr, r.2.map (fun m => m.material)))
      = some ([], [0], [⟨true, ⟨.times255 f32_zero, .times255 f32_zero, .times255 f32_zero⟩,
          .dflt⟩]) ∧
    LoadMaterialDefault = ⟨false, ⟨.lit 255, .lit 255, .lit 255⟩, .dflt⟩ := by
  decide

/-- C22 (amended): for every state (hence every reachable one) and every mesh
whose material index is out of range of the material store, the render loop
does not fault and draws the mesh with the material its model held before the
pass: the default material (with the lighting shader) as long as no pass has
assigned one since the mesh ADD or UPDATE that built the model, the material
of an earlier frame otherwise. -/
theorem out_of_range_material_keeps_model_material (s : State) (i : Nat) (m : Model) (k : Int)
    (hm : s.modelArr[i]? = some m) (hk : s.materialIndexArr[i]? = some k)
    (hout : k < 0 ∨ (s.materialArr.length : Int) ≤ k) :
    (∃ (d : List Model) (m2 : Model), renderPass s = some ({ s with modelArr := d }, d) ∧
      d[i]? = some m2 ∧ m2.material = m.material ∧ m2.mesh = m.mesh) ∧
    (∀ mesh : Mesh, (addedModel mesh).material = { LoadMaterialDefault with shader := true } ∧
      (updatedModel mesh).material = { LoadMaterialDefault with shader := true }) := by
  refine ⟨?_, fun mesh => ⟨rfl, rfl⟩⟩
  obtain ⟨d, r, -, g⟩ := renderPass_spec s
  have f := g i
  simp only [hm, Option.map_some'] at f
  refine ⟨d, _, r, f, ?_, rfl⟩
  have hnone : vecAtInt s.materialArr k = none := by
    unfold vecAtInt
    split
    · rfl
    · rw [List.getElem?_eq_none]
      omega
  simp [drawnModel, vecAt, hk, hnone]

/-- Witness of C22 (amended): the mesh `idB` of material index 0 and an empty
material store. -/
theorem out_of_range_material_keeps_model_material_witness :
    exOneMesh.modelArr[0]? = some exModel ∧ exOneMesh.materialIndexArr[0]? = some 0 ∧
    ((0 : Int) < 0 ∨ (exOneMesh.materialArr.length : Int) ≤ 0) ∧
    ∃ (d : List Model) (m2 : Model),
      renderPass exOneMesh = some ({ exOneMesh with modelArr := d }, d) ∧
      d[0]? = some m2 ∧ m2.material = exModel.material ∧ m2.mesh = exModel.mesh :=
  ⟨rfl, rfl, Or.inr (by decide),
    (out_of_range_material_keeps_model_material exOneMesh 0 exModel 0 rfl rfl
      (Or.inr (by decide))).1⟩

/-- C23 (as stated, refuted): a mesh of one face with 163839 corners (54613
triangles).  Its message would take 5242944 bytes, more than `MSGSIZE`;
nothing caps it, and the last copy of `meshUpdate` and of `meshAdd` leaves the
buffer. -/
theorem large_mesh_exceeds_MSGSIZE :
    totalCorners exLargeMesh.faces = 163839 ∧
    MSGSIZE < sizeof_sHeader + sizeof_sMeshHeader + sizeof_float * (3 + 2 + 3) * 163839 ∧
    meshUpdateNode exLargeMesh [] [] exProducer = none ∧
    meshAddNode exLargeMesh [] [] [] [] exProducer = none := by
  have ht : totalCorners exLargeMesh.faces = 163839 := by
    show totalCorners [⟨54613, List.replicate 163839 exCorner, f32_zero, f32_one, f32_zero⟩] = _
    rw [totalCorners_single]
    show (List.replicate 163839 exCorner).length = 163839
    rw [List.length_replicate]
  refine ⟨ht, by decide, ?_⟩
  apply meshNode_none_of_large exLargeMesh [] [] [] [] exProducer rfl
  rw [ht]
  decide

/-- C23 (amended): the size of the mesh message is within `MSGSIZE` exactly
for the meshes of at most 163837 corners.  For such a mesh `meshUpdate` (and
`meshAdd`, once the materials are sent) writes and sends a message of
`sizeof(sHeader) + sizeof(sMeshHeader) + 4 * (3 + 2 + 3) * vertexCount` bytes,
which is at most `MSGSIZE`; for a larger mesh the size is not capped and the
copy into `msg` faults. -/
theorem mesh_message_within_MSGSIZE (node : MeshNode) (pad1 pad2 pad3 ptr : List Byte)
    (p : Producer) (hmesh : node.isMesh = true) :
    (sizeof_sHeader + sizeof_sMeshHeader + sizeof_float * (3 + 2 + 3) * totalCorners node.faces
        ≤ MSGSIZE ↔ totalCorners node.faces ≤ 163837) ∧
    (totalCorners node.faces ≤ 163837 →
      (∃ (q : Producer) (bytes : List Byte), meshUpdateNode node pad1 pad2 p = some q ∧
        q.sent = p.sent ++ [bytes] ∧
        bytes.length = sizeof_sHeader + sizeof_sMeshHeader
          + sizeof_float * (3 + 2 + 3) * totalCorners node.faces ∧
        bytes.length ≤ MSGSIZE) ∧
      (∀ p1 : Producer, meshAddMaterials node.shadingEngines pad3 ptr p = some p1 →
        ∃ (q : Producer) (bytes : List Byte), meshAddNode node pad1 pad2 pad3 ptr p = some q ∧
          q.sent = p1.sent ++ [bytes] ∧
          bytes.length = sizeof_sHeader + sizeof_sMeshHeader
            + sizeof_float * (3 + 2 + 3) * totalCorners node.faces ∧
          bytes.length ≤ MSGSIZE)) ∧
    (163837 < totalCorners node.faces →
      meshUpdateNode node pad1 pad2 p = none ∧ meshAddNode node pad1 pad2 pad3 ptr p = none) := by
  have hM : MSGSIZE = 5242880 := by decide
  have hiff : sizeof_sHeader + sizeof_sMeshHeader
      + sizeof_float * (3 + 2 + 3) * totalCorners node.faces ≤ MSGSIZE
      ↔ totalCorners node.faces ≤ 163837 := by
    simp only [sizeof_sHeader, sizeof_sMeshHeader, sizeof_float, hM]
    omega
  refine ⟨hiff, ?_, ?_⟩
  · intro hn
    have hfit := hiff.mpr hn
    obtain ⟨⟨q, bytes, h1, h2, h3, -⟩, hadd⟩ :=
      meshNode_sent_of_fit node pad1 pad2 pad3 ptr p zeroBuf hmesh hfit
    refine ⟨⟨q, bytes, h1, h2, h3, by rw [h3]; exact hfit⟩, ?_⟩
    intro p1 hp1
    obtain ⟨q2, bytes2, g1, g2, g3, -⟩ := hadd p1 hp1
    exact ⟨q2, bytes2, g1, g2, g3, by rw [g3]; exact hfit⟩
  · intro hn
    apply meshNode_none_of_large node pad1 pad2 pad3 ptr p hmesh
    have := mt hiff.mp (by omega : ¬ totalCorners node.faces ≤ 163837)
    omega

/-- Witness of C23 (amended): the mesh of nine corners. -/
theorem mesh_message_within_MSGSIZE_witness :
    exQuadMesh.isMesh = true ∧ totalCorners exQuadMesh.faces ≤ 163837 ∧
    ∃ (q : Producer) (bytes : List Byte), meshUpdateNode exQuadMesh [] [] exProducer = some q ∧
      q.sent = exProducer.sent ++ [bytes] ∧
      bytes.length = sizeof_sHeader + sizeof_sMeshHeader
        + sizeof_float * (3 + 2 + 3) * totalCorners exQuadMesh.faces ∧
      bytes.length ≤ MSGSIZE :=
  ⟨rfl, by decide,
    ((mesh_message_within_MSGSIZE exQuadMesh [] [] [] [] exProducer rfl).2.1 (by decide)).1⟩

/-- C24 (as stated, refuted): below the mesh `idX` the shading group fed by
the shader `idA` is found first and the shading group fed by the shader "c"
second; the connected-material id `meshUpdate` and `meshAdd` write is "c", the
id of the shader of the last shading group, not `idA`. -/
theorem connected_material_is_not_of_first_shading_group :
    exTwoGroupsMesh.shadingEngines.map (fun se => se.surfaceShader.map (fun m => m.uuid))
      = [some idA, some [99]] ∧
    cstr (fetchMaterialID exTwoGroupsMesh.shadingEngines) = some [99] ∧
    (meshUpdateNode exTwoGroupsMesh [] [] exProducer).map (fun p => p.sent.map
      (fun b => (readMesh (bufOf b)).bind (fun r => cstr r.1.connectedMatID)))
      = some [some [99]] ∧
    (meshAddNode exTwoGroupsMesh [] [] [] [] exProducer).map (fun p => (p.sent.getLast?).bind
      (fun b => (readMesh (bufOf b)).bind (fun r => cstr r.1.connectedMatID)))
      = some (some [99]) := by
  decide

/-- C24 (amended): for every mesh and every list of shading groups found
downstream of it, the connected-material id of `meshAdd` and `meshUpdate` is
the id of the shader feeding the last shading group found that has a shader
connected (every shading group with a shader overwrites the id of the one
before); when no shading group is found, or none with a shader, it is 37 zero
bytes.  When the message fits the buffer, this id is what the consumer decodes
from the message `meshUpdate` sends, and from the one `meshAdd` sends once the
materials are sent. -/
theorem connected_material_is_of_last_shading_group (node : MeshNode)
    (pad1 pad2 pad3 ptr : List Byte) (p : Producer) (old : Buf) :
    fetchMaterialID [] = List.replicate 37 0 ∧
    (∀ (ses : List ShadingNode) (se : ShadingNode) (mat : ShaderNode),
      se.surfaceShader = some mat → fetchMaterialID (ses ++ [se]) = char37 mat.uuid) ∧
    (∀ (ses : List ShadingNode) (se : ShadingNode),
      se.surfaceShader = none → fetchMaterialID (ses ++ [se]) = fetchMaterialID ses) ∧
    fetchMaterialID node.shadingEngines
      = (((node.shadingEngines.filterMap (fun se => se.surfaceShader)).getLast?).map
          (fun mat => char37 mat.uuid)).getD (List.replicate 37 0) ∧
    (node.isMesh = true →
      sizeof_sHeader + sizeof_sMeshHeader + sizeof_float * (3 + 2 + 3) * totalCorners node.faces
        ≤ MSGSIZE →
      (∃ (q : Producer) (bytes : List Byte), meshUpdateNode node pad1 pad2 p = some q ∧
        q.sent = p.sent ++ [bytes] ∧
        (readMesh (comlibTransfer (bufOf bytes) bytes.length old)).map
          (fun r => r.1.connectedMatID) = some (fetchMaterialID node.shadingEngines)) ∧
      (∀ p1 : Producer, meshAddMaterials node.shadingEngines pad3 ptr p = some p1 →
        ∃ (q : Producer) (bytes : List Byte), meshAddNode node pad1 pad2 pad3 ptr p = some q ∧
          q.sent = p1.sent ++ [bytes] ∧
          (readMesh (comlibTransfer (bufOf bytes) bytes.length old)).map
            (fun r => r.1.connectedMatID) = some (fetchMaterialID node.shadingEngines))) := by
  refine ⟨rfl, ?_, ?_, fetchMaterialID_last _, ?_⟩
  · intro ses se mat hs
    rw [fetchMaterialID_concat, hs]
  · intro ses se hs
    rw [fetchMaterialID_concat, hs]
  · intro hmesh hfit
    obtain ⟨⟨q, bytes, h1, h2, -, h4⟩, hadd⟩ :=
      meshNode_sent_of_fit node pad1 pad2 pad3 ptr p old hmesh hfit
    refine ⟨⟨q, bytes, h1, h2, h4⟩, ?_⟩
    intro p1 hp1
    obtain ⟨q2, bytes2, g1, g2, -, g4⟩ := hadd p1 hp1
    exact ⟨q2, bytes2, g1, g2, g4⟩

/-- Witness of C24 (amended): the mesh below which two shading groups are
found. -/
theorem connected_material_is_of_last_shading_group_witness :
    exTwoGroupsMesh.isMesh = true ∧
    sizeof_sHeader + sizeof_sMeshHeader
      + sizeof_float * (3 + 2 + 3) * totalCorners exTwoGroupsMesh.faces ≤ MSGSIZE ∧
    ∃ (q : Producer) (bytes : List Byte),
      meshUpdateNode exTwoGroupsMesh [] [] exProducer = some q ∧
      q.sent = exProducer.sent ++ [bytes] ∧
      (readMesh (comlibTransfer (bufOf bytes) bytes.length zeroBuf)).map
        (fun r => r.1.connectedMatID) = some (fetchMaterialID exTwoGroupsMesh.shadingEngines) :=
  ⟨rfl, by decide,
    ((connected_material_is_of_last_shading_group exTwoGroupsMesh [] [] [] [] exProducer
      zeroBuf).2.2.2.2 rfl (by decide)).1⟩

/-- C25 (as stated, refuted): a shader whose texture file name has 5242808
bytes.  Header, fixed part and the `pathSize` = 5242809 path bytes take
5242881 bytes, one more than `MSGSIZE`; nothing limits the path, the last copy
of `materialAdd` leaves the buffer and no message is laid out. -/
theorem material_with_long_path_is_not_laid_out :
    exLongPathGroup.surfaceShader = some exLongPathShader ∧
    exLongPathShader.texturePaths = [List.replicate 5242808 97] ∧
    MSGSIZE < sizeof_sHeader + sizeof_sMaterial + (5242808 + 1) ∧
    materialAdd exLongPathGroup [] [] exProducer = none := by
  refine ⟨rfl, rfl, by decide, ?_⟩
  apply materialSend_none_of_long_path ADD exLongPathGroup exLongPathShader [] [] exProducer []
    (List.replicate 5242808 97) rfl rfl rfl
  rw [List.length_replicate]
  decide

/-- C25 (amended): for every colour and every texture file names of a shader
such that header, fixed part and path bytes fit the buffer
(`sizeof(sHeader) + sizeof(sMaterial) + pathSize ≤ MSGSIZE`): `materialAdd`
sends one message of that size, and the consumer decodes from it the header
with the shader's id, the same three colour values, the same `pathSize` and
the same path bytes; `pathSize` is 0 and the path empty when no file name was
found, and for a file name its length plus one and its bytes followed by the
terminator. -/
theorem material_message_roundtrip (node : ShadingNode) (material : ShaderNode)
    (pad ptr : List Byte) (p : Producer) (old : Buf)
    (hm : node.mmaterial = true) (hs : node.surfaceShader = some material)
    (hfit : sizeof_sHeader + sizeof_sMaterial + (fetchTexture material.texturePaths).1.toNat
      ≤ MSGSIZE) :
    (∃ (q : Producer) (bytes : List Byte),
      materialAdd node pad ptr p = some q ∧ q.sent = p.sent ++ [bytes] ∧
      bytes.length = sizeof_sHeader + sizeof_sMaterial
        + (fetchTexture material.texturePaths).1.toNat ∧
      readHeader (comlibTransfer (bufOf bytes) bytes.length old)
        = some ⟨ADD, MATERIAL, char37 material.uuid⟩ ∧
      readMaterial (comlibTransfer (bufOf bytes) bytes.length old)
        = some ⟨[material.color0, material.color1, material.color2],
            (fetchTexture material.texturePaths).1, (fetchTexture material.texturePaths).2⟩) ∧
    fetchTexture [] = (0, []) ∧
    (∀ (ps : List (List Byte)) (name : List Byte),
      fetchTexture (ps ++ [name]) = ((name.length : Int) + 1, name ++ [0])) :=
  ⟨materialSend_roundtrip ADD node material pad ptr p old (by decide) hm hs hfit,
    fetchTexture_nil, fetchTexture_concat⟩

/-- Witness of C25 (amended): the shader "c" with the texture file name "t". -/
theorem material_message_roundtrip_witness :
    exShadingGroup2.mmaterial = true ∧ exShadingGroup2.surfaceShader = some exShader2 ∧
    sizeof_sHeader + sizeof_sMaterial + (fetchTexture exShader2.texturePaths).1.toNat ≤ MSGSIZE ∧
    ∃ (q : Producer) (bytes : List Byte),
      materialAdd exShadingGroup2 [] [] exProducer = some q ∧
      q.sent = exProducer.sent ++ [bytes] ∧
      bytes.length = sizeof_sHeader + sizeof_sMaterial
        + (fetchTexture exShader2.texturePaths).1.toNat ∧
      readHeader (comlibTransfer (bufOf bytes) bytes.length zeroBuf)
        = some ⟨ADD, MATERIAL, char37 exShader2.uuid⟩ ∧
      readMaterial (comlibTransfer (bufOf bytes) bytes.length zeroBuf)
        = some ⟨[exShader2.color0, exShader2.color1, exShader2.color2],
            (fetchTexture exShader2.texturePaths).1, (fetchTexture exShader2.texturePaths).2⟩ :=
  ⟨rfl, rfl, by decide,
    (material_message_roundtrip exShadingGroup2 exShader2 [] [] exProducer zeroBuf rfl rfl
      (by decide)).1⟩

/-- C26: in every state reachable from the initial state (empty stores) by
any sequence of messages, the mesh ids, the models and the material indices
are equally many, the transform ids and the matrices are equally many, and
the material ids and the materials are equally many. -/
theorem reachable_stores_aligned (s : State) (h : Reachable s) :
    s.modelID.length = s.modelArr.length ∧ s.modelArr.length = s.materialIndexArr.length ∧
    s.transformID.length = s.transformArr.length ∧
    s.materialID.length = s.materialArr.length :=
  ReachableVia_aligned (fun _ => True) s h

/-- Witness of C26: the state after a material ADD and a mesh ADD. -/
theorem reachable_stores_aligned_witness :
    Reachable exMaterialThenMesh ∧
    exMaterialThenMesh.modelID.length = exMaterialThenMesh.modelArr.length ∧
    exMaterialThenMesh.modelArr.length = exMaterialThenMesh.materialIndexArr.length ∧
    exMaterialThenMesh.transformID.length = exMaterialThenMesh.transformArr.length ∧
    exMaterialThenMesh.materialID.length = exMaterialThenMesh.materialArr.length :=
  have hr : Reachable exMaterialThenMesh :=
    consumeAll_reachable (fun _ => True)
      [bufOf (exMaterial ADD idA), bufOf (exMesh ADD idX 0 0 idA [])] initState
      exMaterialThenMesh ReachableVia.init (fun _ _ => trivial) (by decide)
  ⟨hr, reachable_stores_aligned exMaterialThenMesh hr⟩

/-- C27: in every state reachable from the initial state by any sequence of
messages the ids of the material store are pairwise distinct; and a material
ADD that decodes and whose id is in the material store leaves the state
(colour and texture of the entry included) as it is. -/
theorem material_ids_stay_distinct (s : State) (h : Reachable s) :
    s.materialID.Nodup ∧
    ∀ (msg : Buf) (hd : sHeader) (X : List Byte) (sm : sMaterial),
      readHeader msg = some hd → hd.type = MATERIAL → hd.activity = ADD →
      cstr hd.nodeID = some X → X ∈ s.materialID → readMaterial msg = some sm →
      consume s msg = some s := by
  refine ⟨ReachableVia_nodup (fun _ => True) s h, ?_⟩
  intro msg hd X sm hh htype hact hid hX hrm
  rw [consume_material s msg hd hh htype, recvMaterial_add s hd msg hact]
  exact recvMaterialAdd_duplicate s hd msg X sm hid hX hrm

/-- Witness of C27: a second ADD of the material `idA`, black this time. -/
theorem material_ids_stay_distinct_witness :
    Reachable exMaterialThenMesh ∧ exMaterialThenMesh.materialID.Nodup ∧
    idA ∈ exMaterialThenMesh.materialID ∧
    consume exMaterialThenMesh (bufOf (exMaterialBlack ADD idA)) = some exMaterialThenMesh :=
  have hr : Reachable exMaterialThenMesh :=
    consumeAll_reachable (fun _ => True)
      [bufOf (exMaterial ADD idA), bufOf (exMesh ADD idX 0 0 idA [])] initState
      exMaterialThenMesh ReachableVia.init (fun _ _ => trivial) (by decide)
  ⟨hr, (material_ids_stay_distinct exMaterialThenMesh hr).1, by decide,
    (material_ids_stay_distinct exMaterialThenMesh hr).2 (bufOf (exMaterialBlack ADD idA))
      ⟨ADD, MATERIAL, char37 idA⟩ idA ⟨[f32_zero, f32_zero, f32_zero], 0, []⟩
      (by decide) (by decide) (by decide) (by decide) (by decide) (by decide)⟩

/-- C28 (as stated, refuted): a material UPDATE with the unknown id `idX`, the
colour (0, 0, 0) and the texture path "t" appends a material that is white
(255, 255, 255), with the texture of the path: not the colour of the message. -/
theorem material_update_with_path_appends_white :
    (readMaterial (bufOf (exMaterialTextured UPDATE idX))).map (fun sm => (sm.color, sm.pathSize))
      = some ([f32_zero, f32_zero, f32_zero], 2) ∧
    idX ∉ exTwoMaterials.materialID ∧
    (consume exTwoMaterials (bufOf (exMaterialTextured UPDATE idX))).map
      (fun s => (s.materialID, s.materialArr.drop 2))
      = some ([idA, idB, idX], [⟨true, ⟨.lit 255, .lit 255, .lit 255⟩, .file [116]⟩]) := by
  decide

/-- C28 (amended): for every state and every material UPDATE message that
decodes and whose id X is in no entry of the material store, the consumer
appends one material with id X at the end of the material store and changes
nothing else (the existing materials, the meshes and their material indices
stay): with the colour of the message (each channel times 255) and the default
texture when the message has no texture path, and white with the texture of
the path when it has one. -/
theorem material_update_unknown_id_appends (s : State) (msg : Buf) (h : sHeader)
    (X : List Byte) (sm : sMaterial)
    (hh : readHeader msg = some h) (htype : h.type = MATERIAL) (hact : h.activity = UPDATE)
    (hid : cstr h.nodeID = some X) (hX : X ∉ s.materialID) (hrm : readMaterial msg = some sm) :
    (sm.pathSize = 0 →
      consume s msg = some { s with
        materialID := s.materialID ++ [X]
        materialArr := s.materialArr ++ [⟨true, ⟨.times255 (sm.color.getD 0 ⟨0, 0, 0, 0⟩),
          .times255 (sm.color.getD 1 ⟨0, 0, 0, 0⟩), .times255 (sm.color.getD 2 ⟨0, 0, 0, 0⟩)⟩,
          .dflt⟩] }) ∧
    (∀ path : List Byte, 0 < sm.pathSize → cstr sm.texturePath = some path →
      consume s msg = some { s with
        materialID := s.materialID ++ [X]
        materialArr := s.materialArr ++ [⟨true, ⟨.lit 255, .lit 255, .lit 255⟩, .file path⟩] }) := by
  have hl := materialUpdate_unknown h sm X s hid hX
  have hc : consume s msg = materialPushNew h sm s := by
    rw [consume_material s msg h hh htype, recvMaterial_update s h msg hact]
    simp only [recvMaterialUpdate, hrm, hl, Option.bind_eq_bind, Option.some_bind]
    simp
  constructor
  · intro h0
    rw [hc]
    simp [materialPushNew, hid, applyMaterial, h0, LoadMaterialDefault]
  · intro path hpos hpath
    rw [hc]
    simp [materialPushNew, hid, applyMaterial, hpos, hpath, LoadMaterialDefault]

/-- Witness of C28 (amended): the UPDATE with the unknown id `idX` and the
texture path "t". -/
theorem material_update_unknown_id_appends_witness :
    idX ∉ exTwoMaterials.materialID ∧
    consume exTwoMaterials (bufOf (exMaterialTextured UPDATE idX)) = some { exTwoMaterials with
      materialID := exTwoMaterials.materialID ++ [idX]
      materialArr := exTwoMaterials.materialArr
        ++ [⟨true, ⟨.lit 255, .lit 255, .lit 255⟩, .file [116]⟩] } :=
  ⟨by decide,
    (material_update_unknown_id_appends exTwoMaterials (bufOf (exMaterialTextured UPDATE idX))
      ⟨UPDATE, MATERIAL, char37 idX⟩ idX ⟨[f32_zero, f32_zero, f32_zero], 2, [116, 0]⟩
      (by decide) (by decide) (by decide) (by decide) (by decide) (by decide)).2 [116]
      (by decide) (by decide)⟩

/-- C29: from the start (empty queue, no idle callback), whatever the nodes
Maya reports through `nodeAdded` and whenever it runs a registered idle
callback, `eventCallback` never faults, after every event the number of
registered idle callbacks equals the length of the queue, and the nodes
handled so far followed by the nodes queued are the nodes reported, in the
order reported.  In a state where the two numbers agree and a callback is
registered the queue is not empty, and `eventCallback` takes its front and
leaves the rest. -/
theorem deferred_add_callbacks_match_queue {α : Type} (es : List (Event α)) :
    (∃ (d : Deferred α) (done : List α), runEvents es ⟨[], 0⟩ [] = some (d, done) ∧
      d.idleCallbacks = d.addedNodeList.length ∧
      done ++ d.addedNodeList = addedNodes es) ∧
    (∀ d : Deferred α, d.idleCallbacks = d.addedNodeList.length → 0 < d.idleCallbacks →
      ∃ (node : α) (rest : List α), d.addedNodeList = node :: rest ∧
        eventCallback d = some (⟨rest, d.idleCallbacks - 1⟩, node) ∧
        d.idleCallbacks - 1 = rest.length) := by
  constructor
  · obtain ⟨d, done, h1, h2, h3⟩ := runEvents_inv es ⟨[], 0⟩ [] rfl
    exact ⟨d, done, h1, h2, by simpa using h3⟩
  · intro d hd hpos
    cases hq : d.addedNodeList with
    | nil => rw [hq] at hd; simp at hd; omega
    | cons node rest =>
      refine ⟨node, rest, rfl, ?_, ?_⟩
      · simp [eventCallback, hq]
      · rw [hd, hq]; simp

/-- Witness of C29: two nodes are reported, then an idle callback runs. -/
theorem deferred_add_callbacks_match_queue_witness :
    (∃ (d : Deferred Nat) (done : List Nat),
      runEvents [.added 1, .added 2, .idle] ⟨[], 0⟩ [] = some (d, done) ∧
      d.idleCallbacks = d.addedNodeList.length ∧
      done ++ d.addedNodeList = addedNodes [.added 1, .added 2, .idle]) ∧
    ∃ (node : Nat) (rest : List Nat), (⟨[1, 2], 2⟩ : Deferred Nat).addedNodeList = node :: rest ∧
      eventCallback (⟨[1, 2], 2⟩ : Deferred Nat) = some (⟨rest, 2 - 1⟩, node) ∧
      2 - 1 = rest.length :=
  ⟨(deferred_add_callbacks_match_queue [.added 1, .added 2, .idle]).1,
    (deferred_add_callbacks_match_queue ([] : List (Event Nat))).2 ⟨[1, 2], 2⟩ rfl (by decide)⟩

/-- C12: for every state, every content of the receive buffer and every
message of kind Camera, whatever its activity, whatever the 37 bytes of its id
and whatever follows its payload: consuming the message does not fault, and
afterwards the camera has the position, the target, the up vector and the
field of view the payload bytes hold and the projection flag of its
projection byte, while the mesh, transform and material stores (and the
material indices) are what they were.  The message `updateCamera` sends is
such a message: its 92 bytes are the header and the payload of the values read
from the active camera. -/
theorem camera_message_replaces_camera (s : State) (old : Buf) (activity : Int)
    (id pad1 pad2 rest : List Byte) (position target up : Vector3) (fovy : F32)
    (projection : Byte)
    (ha : -2147483648 ≤ activity ∧ activity < 2147483648) (hid : id.length = 37) :
    receive s old ((sHeader.mk activity CAMERA id).bytes pad1
        ++ (sCamera.mk [position.x, position.y, position.z] [target.x, target.y, target.z]
          [up.x, up.y, up.z] fovy projection).bytes pad2 ++ rest)
      = some { s with camera := ⟨position, target, up, fovy, (projection.val : Int)⟩ } ∧
    ∀ (uuid : List Byte) (isOrtho : Bool) (p : Producer),
      ∃ q, updateCamera uuid position target up fovy isOrtho pad1 pad2 p = some q ∧
        q.sent = p.sent ++ [(sHeader.mk UPDATE CAMERA (char37 uuid)).bytes pad1
          ++ (sCamera.mk [position.x, position.y, position.z] [target.x, target.y, target.z]
            [up.x, up.y, up.z] fovy (if isOrtho then 1 else 0)).bytes pad2] := by
  refine ⟨?_, fun uuid isOrtho p =>
    updateCamera_sent uuid position target up fovy isOrtho pad1 pad2 p⟩
  have hh := readHeader_delivered activity CAMERA id pad1
    ((sCamera.mk [position.x, position.y, position.z] [target.x, target.y, target.z]
      [up.x, up.y, up.z] fovy projection).bytes pad2 ++ rest) old ha (by decide) hid
  rw [← List.append_assoc] at hh
  have hc := readCamera_delivered ⟨activity, CAMERA, id⟩ pad1 pad2 rest position target up fovy
    projection old
  unfold receive
  rw [show (fun i => ((sHeader.mk activity CAMERA id).bytes pad1
        ++ (sCamera.mk [position.x, position.y, position.z] [target.x, target.y, target.z]
          [up.x, up.y, up.z] fovy projection).bytes pad2 ++ rest).getD i 0)
      = bufOf ((sHeader.mk activity CAMERA id).bytes pad1
        ++ (sCamera.mk [position.x, position.y, position.z] [target.x, target.y, target.z]
          [up.x, up.y, up.z] fovy projection).bytes pad2 ++ rest) from rfl]
  rw [consume_camera s _ _ hh rfl]
  simp only [recvCamera, hc, Option.bind_eq_bind, Option.some_bind]
  rfl

/-- Witness of C12: a camera message with activity REMOVE and an orthographic
flag arriving at two meshes; and the same message evaluated. -/
theorem camera_message_replaces_camera_witness :
    (-2147483648 ≤ REMOVE ∧ REMOVE < 2147483648) ∧ (char37 idX).length = 37 ∧
    receive exTwoMeshes zeroBuf ((sHeader.mk REMOVE CAMERA (char37 idX)).bytes []
        ++ (sCamera.mk [f32_one, f32_ten, f32_one] [f32_zero, f32_zero, f32_zero]
          [f32_zero, f32_one, f32_zero] f32_45 1).bytes [] ++ [])
      = some { exTwoMeshes with camera := ⟨⟨f32_one, f32_ten, f32_one⟩,
          ⟨f32_zero, f32_zero, f32_zero⟩, ⟨f32_zero, f32_one, f32_zero⟩, f32_45, 1⟩ } ∧
    (receive exTwoMeshes zeroBuf (exCamera REMOVE idX exTen 1)).map
        (fun t => (t.camera.position, t.camera.fovy, t.camera.projection, t.modelID))
      = some (⟨f32_one, f32_ten, f32_one⟩, f32_45, 1, [idB, idA]) :=
  ⟨by decide, by decide,
    (camera_message_replaces_camera exTwoMeshes zeroBuf REMOVE (char37 idX) [] [] []
      ⟨f32_one, f32_ten, f32_one⟩ ⟨f32_zero, f32_zero, f32_zero⟩ ⟨f32_zero, f32_one, f32_zero⟩
      f32_45 1 (by decide) (by decide)).1, by decide⟩

/-- C14: for every state whose transform vectors are aligned, every content of
the receive buffer and every transform UPDATE message, given by its bytes (the
header with a terminated id X, the sixteen floats of the payload `tr`, and
whatever follows): consuming the message does not fault; afterwards every
transform entry with id X holds the sixteen values of the payload, each in the
field of its name, the ids of the transform store are the same in the same
order, and every transform entry with another id is unchanged. -/
theorem transform_update_replaces_matrix (s : State) (old : Buf) (id pad rest X : List Byte)
    (tr : sTransform) (hlen : s.transformID.length = s.transformArr.length)
    (hid37 : id.length = 37) (hid : cstr id = some X) :
    ∃ t : State,
      receive s old ((sHeader.mk UPDATE TRANSFORM id).bytes pad ++ tr.bytes ++ rest) = some t ∧
      t.transformID = s.transformID ∧ t.transformArr.length = s.transformArr.length ∧
      (∀ j : Nat, s.transformID[j]? = some X →
        t.transformArr[j]? = some
          { m0 := tr.m0, m4 := tr.m4, m8 := tr.m8, m12 := tr.m12
            m1 := tr.m1, m5 := tr.m5, m9 := tr.m9, m13 := tr.m13
            m2 := tr.m2, m6 := tr.m6, m10 := tr.m10, m14 := tr.m14
            m3 := tr.m3, m7 := tr.m7, m11 := tr.m11, m15 := tr.m15 }) ∧
      (∀ j : Nat, s.transformID[j]? ≠ some X → t.transformArr[j]? = s.transformArr[j]?) := by
  have hh := readHeader_delivered UPDATE TRANSFORM id pad (tr.bytes ++ rest) old (by decide)
    (by decide) hid37
  rw [← List.append_assoc] at hh
  have htr := readTransform_delivered ⟨UPDATE, TRANSFORM, id⟩ pad rest tr old
  obtain ⟨t, ht, e1, e2, e3, e4⟩ := transformUpdate_run ⟨UPDATE, TRANSFORM, id⟩ _ X tr s hlen
    hid htr
  refine ⟨t, ?_, e1, e2, e3, e4⟩
  unfold receive
  rw [show (fun i => ((sHeader.mk UPDATE TRANSFORM id).bytes pad ++ tr.bytes ++ rest).getD i 0)
      = bufOf ((sHeader.mk UPDATE TRANSFORM id).bytes pad ++ tr.bytes ++ rest) from rfl]
  rw [consume_transform s _ _ hh rfl, recvTransform_update s _ _ rfl]
  exact ht

/-- Witness of C14: an UPDATE for `idA` on the transforms `idA`, `idB` (both
the identity); and the same evaluated on the message whose sixteen floats are
10.0 followed by fifteen times 1.0. -/
theorem transform_update_replaces_matrix_witness :
    exTwoTransforms.transformID.length = exTwoTransforms.transformArr.length ∧
    (char37 idA).length = 37 ∧ cstr (char37 idA) = some idA ∧
    (∃ t : State,
      receive exTwoTransforms zeroBuf
        ((sHeader.mk UPDATE TRANSFORM (char37 idA)).bytes [] ++ exTransformData.bytes ++ [])
        = some t ∧
      t.transformID = exTwoTransforms.transformID ∧
      t.transformArr.length = exTwoTransforms.transformArr.length ∧
      (∀ j : Nat, exTwoTransforms.transformID[j]? = some idA →
        t.transformArr[j]? = some
          { m0 := exTransformData.m0, m4 := exTransformData.m4, m8 := exTransformData.m8
            m12 := exTransformData.m12, m1 := exTransformData.m1, m5 := exTransformData.m5
            m9 := exTransformData.m9, m13 := exTransformData.m13, m2 := exTransformData.m2
            m6 := exTransformData.m6, m10 := exTransformData.m10, m14 := exTransformData.m14
            m3 := exTransformData.m3, m7 := exTransformData.m7, m11 := exTransformData.m11
            m15 := exTransformData.m15 }) ∧
      (∀ j : Nat, exTwoTransforms.transformID[j]? ≠ some idA →
        t.transformArr[j]? = exTwoTransforms.transformArr[j]?)) ∧
    (consume exTwoTransforms (bufOf (exTransform UPDATE idA exSixteen))).map
        (fun t => t.transformArr.map (fun m => (m.m0, m.m12, m.m5, m.m15)))
      = some [(f32_ten, f32_one, f32_one, f32_one), (f32_one, f32_zero, f32_one, f32_one)] :=
  ⟨by decide, by decide, by decide,
    transform_update_replaces_matrix exTwoTransforms zeroBuf (char37 idA) [] [] idA
      exTransformData (by decide) (by decide) (by decide), by decide⟩

end MayaRenderer
